import Mathlib

/-!
Shallow embedding of the arcade quiz-game engine from
`src/components/quiz-game/quiz-game.tsx` and `src/lib/game-data.ts`.

Numbers that are JS floats are modelled as `ℚ` (the engine only ever
performs field operations, `min`/`max` and comparisons on them, so the
rational model is exact).  `displayScore` is modelled as `ℤ` (it is an
integer in every reachable state).  Optional TS fields are `Option`s and
every use site mirrors the source's `(pipe.f || 0)` via `Option.getD 0`.
`Math.sin` and `Math.random` are inputs from the host environment: the
sine function is a field of the configuration and each animation-frame
tick carries the random sample drawn during that tick.
-/

namespace QuizGame

/-! ### Constants (quiz-game.tsx lines 7-52) -/

def CANVAS_WIDTH : ℚ := 288
def CANVAS_HEIGHT : ℚ := 512

def GRAVITY : ℚ := 1/2
def JUMP_STRENGTH : ℚ := 9
def BIRD_WIDTH : ℚ := 34
def BIRD_HEIGHT : ℚ := 24
-- TARGET_FPS = 60: a delta of one frame is 1000/60 ms.
def FRAME_MS : ℚ := 1000/60
def MAX_DELTA_TIME : ℚ := 3/2
def JUMP_COOLDOWN : ℚ := 150

def PIPE_WIDTH : ℚ := 52
def PIPE_SPEED : ℚ := 2
def PIPE_SPAWN_X : ℚ := CANVAS_WIDTH + 20
def PIPE_GAP_NORMAL : ℚ := 200
def MIDDLE_PIPE_HEIGHT : ℚ := 30
def SLOT_HEIGHT : ℚ := 160

def NORMAL_PIPES_BETWEEN_QUESTIONS : ℕ := 5

def SCROLL_HEIGHT : ℚ := 110
def SCROLL_Y : ℚ := CANVAS_HEIGHT - SCROLL_HEIGHT - 10

def PLAY_AREA_TOP : ℚ := 0
def PLAY_AREA_BOTTOM : ℚ := CANVAS_HEIGHT

def PIPE_AREA_TOP : ℚ := 50
def PIPE_AREA_BOTTOM : ℚ := SCROLL_Y - 20

def SCROLL_ANIMATION_DURATION : ℚ := 600
def CHAPTER_INTRO_TIME : ℚ := 3000
def QUESTION_PREVIEW_TIME : ℚ := 3000
def AUTO_FLY_TIME : ℚ := 4000

/-- Horizontal position of the bird's left edge (literal `50` in the source). -/
def BIRD_LEFT : ℚ := 50

/-! ### Data model (game-data.ts lines 7-28, quiz-game.tsx lines 60-111) -/

structure Question where
  id : String
  text : String
  answer : Bool
  feedbackCorrect : String
  feedbackWrong : String
deriving DecidableEq

structure Chapter where
  id : String
  number : ℕ
  title : String
  subtitle : String
  description : String
  questions : List Question
deriving DecidableEq

structure ChapterScore where
  correct : ℕ
  total : ℕ
deriving DecidableEq

structure GameScore where
  chapterScores : List ChapterScore
  totalCorrect : ℕ
  totalQuestions : ℕ
deriving DecidableEq

/-- `createInitialScore` (game-data.ts lines 239-245). -/
def createInitialScore (chapters : List Chapter) : GameScore :=
  { chapterScores := chapters.map (fun c => { correct := 0, total := c.questions.length })
    totalCorrect := 0
    totalQuestions := chapters.foldl (fun sum c => sum + c.questions.length) 0 }

inductive PipeType where
  | normal
  | question
deriving DecidableEq

inductive GamePhase where
  | loading
  | chapter_intro
  | ready_to_play
  | auto_fly
  | playing
  | question_preview
  | game_over
  | chapter_complete
  | game_complete
deriving DecidableEq

structure Bird where
  y : ℚ
  velocity : ℚ
  frame : ℕ
deriving DecidableEq

structure Pipe where
  x : ℚ
  type : PipeType
  gapTop : Option ℚ := none
  gapBottom : Option ℚ := none
  topPipeBottom : Option ℚ := none
  middlePipeTop : Option ℚ := none
  middlePipeBottom : Option ℚ := none
  bottomPipeTop : Option ℚ := none
  passed : Bool
  scored : Bool
  questionAnswered : Option Bool := none
deriving DecidableEq

structure GameState where
  phase : GamePhase
  bird : Bird
  pipes : List Pipe
  chapterIndex : ℕ
  questionIndex : ℕ
  score : GameScore
  displayScore : ℤ
  pipesSinceLastQuestion : ℕ
  currentQuestionActive : Bool
  scrollProgress : ℚ
  phaseStartTime : ℚ
  frameCount : ℕ
  questionPreviewProgress : ℚ
deriving DecidableEq

/-- The component-level mutable refs that live outside the `GameState` record:
`lastFrameTimeRef` and `lastJumpTimeRef`. -/
structure Sys where
  gs : GameState
  lastFrameTime : ℚ
  lastJumpTime : ℚ
deriving DecidableEq

/-- Engine configuration: the chapter list supplied by the content provider
and the host's `Math.sin` (used only for the idle bob and the auto-fly path). -/
structure Config where
  chapters : List Chapter
  sinq : ℚ → ℚ

/-- The two kinds of external stimulus: an animation-frame callback carrying
the rAF timestamp and the `Math.random()` sample drawn if a pipe spawns this
tick, and a primary-action input (tap / click / spacebar) carrying its time. -/
inductive Input where
  | tick (t rand : ℚ)
  | click (t : ℚ)
deriving DecidableEq

def Input.time : Input → ℚ
  | .tick t _ => t
  | .click t => t

/-! ### Obstacle constructors (quiz-game.tsx lines 790-823) -/

/-- `createNormalPipe`; `rand` is the `Math.random()` sample. -/
def createNormalPipe (rand : ℚ) : Pipe :=
  let minGapTop := PIPE_AREA_TOP
  let maxGapTop := PIPE_AREA_BOTTOM - PIPE_GAP_NORMAL
  let gapTop := minGapTop + rand * (maxGapTop - minGapTop)
  { x := PIPE_SPAWN_X
    type := .normal
    gapTop := some gapTop
    gapBottom := some (gapTop + PIPE_GAP_NORMAL)
    passed := false
    scored := false }

/-- `createQuestionPipe`. -/
def createQuestionPipe : Pipe :=
  let pipeHeight := PIPE_AREA_BOTTOM - PIPE_AREA_TOP
  let totalNeeded := SLOT_HEIGHT * 2 + MIDDLE_PIPE_HEIGHT
  let topOffset := PIPE_AREA_TOP + (pipeHeight - totalNeeded) / 2
  { x := PIPE_SPAWN_X
    type := .question
    topPipeBottom := some topOffset
    middlePipeTop := some (topOffset + SLOT_HEIGHT)
    middlePipeBottom := some (topOffset + SLOT_HEIGHT + MIDDLE_PIPE_HEIGHT)
    bottomPipeTop := some (topOffset + SLOT_HEIGHT * 2 + MIDDLE_PIPE_HEIGHT)
    passed := false
    scored := false
    questionAnswered := some false }

/-! ### Collision test (quiz-game.tsx lines 826-851) -/

def checkCollision (bird : Bird) (pipe : Pipe) : Bool :=
  let birdLeft := BIRD_LEFT
  let birdRight := BIRD_LEFT + BIRD_WIDTH
  let birdTop := bird.y
  let birdBottom := bird.y + BIRD_HEIGHT
  if birdRight < pipe.x ∨ birdLeft > pipe.x + PIPE_WIDTH then
    false
  else if pipe.type = .normal then
    decide (birdTop < pipe.gapTop.getD 0 ∨ birdBottom > pipe.gapBottom.getD 0)
  else
    decide (birdTop < pipe.topPipeBottom.getD 0
      ∨ (birdTop < pipe.middlePipeBottom.getD 0 ∧ birdBottom > pipe.middlePipeTop.getD 0)
      ∨ birdBottom > pipe.bottomPipeTop.getD 0)

/-! ### Per-tick context

`currentChapter` and `currentQuestion` are computed once at the top of
`gameLoop` (lines 899-900) and do not change during the tick even when
`questionIndex` is advanced mid-loop. -/

structure TickCtx where
  t : ℚ
  dt : ℚ
  elapsed : ℚ
  rand : ℚ
  currentChapter : Option Chapter
  currentQuestion : Option Question

/-- `currentChapter.questions.length`.  When `currentChapter` is `undefined`
the source would throw; the total model returns 0, which makes every guard
comparing `questionIndex <` it false, i.e. the branch is skipped. -/
def questionsLen (c : Option Chapter) : ℕ :=
  (c.map (fun ch => ch.questions.length)).getD 0

/-- Replace the element at index `i` (no-op out of range), used for
`state.score.chapterScores[state.chapterIndex].correct += 1`. -/
def listUpdate (f : α → α) : List α → ℕ → List α
  | [], _ => []
  | a :: l, 0 => f a :: l
  | a :: l, n + 1 => a :: listUpdate f l n

/-- Shared helper for `state.frameCount++` followed by the
`frameCount % n === 0` wing-animation advance. -/
def bumpFrame (n : ℕ) (st : GameState) : GameState :=
  let st := { st with frameCount := st.frameCount + 1 }
  if st.frameCount % n = 0 then
    { st with bird := { st.bird with frame := (st.bird.frame + 1) % 3 } }
  else st

/-! ### The `playing` pipe loop (quiz-game.tsx lines 1019-1090)

The TS `for (const pipe of state.pipes)` mutates each pipe in place and can
`break` out (on collision, and when passing the chapter's final question);
state mutated before the break persists and the pipes after the break point
are left untouched that tick.  `processPipePlaying` is the loop body for one
pipe; the `Bool` result is true when the body executed `break`. -/

def answerCheck (ctx : TickCtx) (st : GameState) (p : Pipe) : GameState × Pipe :=
  -- lines 1061-1089; `birdCenterY` is computed in the source but never used.
  if p.type = .question ∧ (p.questionAnswered.getD false) = false then
    if BIRD_LEFT + BIRD_WIDTH > p.x ∧ BIRD_LEFT < p.x + PIPE_WIDTH then
      let inYesSlot := decide (st.bird.y > p.topPipeBottom.getD 0
        ∧ st.bird.y + BIRD_HEIGHT < p.middlePipeTop.getD 0)
      let inNoSlot := decide (st.bird.y > p.middlePipeBottom.getD 0
        ∧ st.bird.y + BIRD_HEIGHT < p.bottomPipeTop.getD 0)
      if inYesSlot ∨ inNoSlot then
        let p := { p with questionAnswered := some true }
        match ctx.currentQuestion with
        | some q =>
          if q.answer = inYesSlot then
            ({ st with
                score := { st.score with
                  chapterScores := listUpdate (fun cs => { cs with correct := cs.correct + 1 })
                    st.score.chapterScores st.chapterIndex
                  totalCorrect := st.score.totalCorrect + 1 }
                displayScore := st.displayScore + 5 }, p)
          else
            ({ st with displayScore := max 0 (st.displayScore - 2) }, p)
        | none =>
          -- the source would throw dereferencing `currentQuestion.answer` here
          (st, p)
      else (st, p)
    else (st, p)
  else (st, p)

def processPipePlaying (ctx : TickCtx) (st : GameState) (p : Pipe) :
    GameState × Pipe × Bool :=
  let p := { p with x := p.x - PIPE_SPEED * ctx.dt }
  if checkCollision st.bird p then
    ({ st with phase := .game_over, phaseStartTime := ctx.t }, p, true)
  else
    -- pass-through handling (lines 1030-1059)
    if p.passed = false ∧ p.x + PIPE_WIDTH < BIRD_LEFT then
      let p := { p with passed := true }
      if p.type = .normal then
        if p.scored = false then
          let p := { p with scored := true }
          let st := { st with
            displayScore := st.displayScore + 1
            pipesSinceLastQuestion := st.pipesSinceLastQuestion + 1 }
          let (st, p) := answerCheck ctx st p
          (st, p, false)
        else
          let (st, p) := answerCheck ctx st p
          (st, p, false)
      else
        let st := { st with pipesSinceLastQuestion := 0, currentQuestionActive := false }
        if st.questionIndex < questionsLen ctx.currentChapter - 1 then
          let st := { st with questionIndex := st.questionIndex + 1 }
          let (st, p) := answerCheck ctx st p
          (st, p, false)
        else
          ({ st with phase := .chapter_complete, phaseStartTime := ctx.t, scrollProgress := 0 },
            p, true)
    else
      let (st, p) := answerCheck ctx st p
      (st, p, false)

/-- Run the loop body over the pipe list, stopping at a `break`; pipes after
the break point keep their pre-tick values. -/
def runPipesPlaying (ctx : TickCtx) : GameState → List Pipe → GameState × List Pipe
  | st, [] => (st, [])
  | st, p :: rest =>
    match processPipePlaying ctx st p with
    | (st', p', true) => (st', p' :: rest)
    | (st', p', false) =>
      let (st'', rest') := runPipesPlaying ctx st' rest
      (st'', p' :: rest')

/-! ### The `question_preview` pipe loop (lines 1143-1164): existing pipes
move and normal pipes can still be scored, but there is no answer check. -/

def processPipePreview (ctx : TickCtx) (st : GameState) (p : Pipe) :
    GameState × Pipe × Bool :=
  let p := { p with x := p.x - PIPE_SPEED * ctx.dt }
  if checkCollision st.bird p then
    ({ st with phase := .game_over, phaseStartTime := ctx.t }, p, true)
  else
    if p.type = .normal ∧ p.passed = false ∧ p.x + PIPE_WIDTH < BIRD_LEFT then
      let p := { p with passed := true }
      if p.scored = false then
        let p := { p with scored := true }
        let st := { st with
          displayScore := st.displayScore + 1
          pipesSinceLastQuestion := st.pipesSinceLastQuestion + 1 }
        (st, p, false)
      else (st, p, false)
    else (st, p, false)

def runPipesPreview (ctx : TickCtx) : GameState → List Pipe → GameState × List Pipe
  | st, [] => (st, [])
  | st, p :: rest =>
    match processPipePreview ctx st p with
    | (st', p', true) => (st', p' :: rest)
    | (st', p', false) =>
      let (st'', rest') := runPipesPreview ctx st' rest
      (st'', p' :: rest')

/-- Off-screen pipes are discarded every `playing`/`question_preview` tick
(lines 1093 and 1167); this filter runs even on ticks where the pipe loop
broke early, because `break` only exits the `for` statement. -/
def filterOnScreen (ps : List Pipe) : List Pipe :=
  ps.filter (fun p => decide (p.x + PIPE_WIDTH > -50))

/-! ### Phase cases of `gameLoop` (lines 902-1239).  Drawing calls are
omitted; every state mutation is kept in source order. -/

/-- Centre of the pipe generation band, `(PIPE_AREA_TOP + PIPE_AREA_BOTTOM) / 2`. -/
def BIRD_CENTER_Y : ℚ := (PIPE_AREA_TOP + PIPE_AREA_BOTTOM) / 2

def stepChapterIntro (ctx : TickCtx) (st : GameState) : GameState :=
  let st := { st with scrollProgress := min 1 (ctx.elapsed / SCROLL_ANIMATION_DURATION) }
  if ctx.elapsed > CHAPTER_INTRO_TIME then
    { st with
      phase := .ready_to_play
      phaseStartTime := ctx.t
      scrollProgress := 0
      bird := { st.bird with y := BIRD_CENTER_Y, velocity := 0 }
      pipes := []
      pipesSinceLastQuestion := NORMAL_PIPES_BETWEEN_QUESTIONS
      currentQuestionActive := false }
  else st

def stepReadyToPlay (cfg : Config) (ctx : TickCtx) (st : GameState) : GameState :=
  let bobOffset := cfg.sinq (ctx.t / 300) * 3
  let st := { st with bird := { st.bird with y := BIRD_CENTER_Y + bobOffset } }
  bumpFrame 8 st

def stepAutoFly (cfg : Config) (ctx : TickCtx) (st : GameState) : GameState :=
  let autoFlyProgress := min 1 (ctx.elapsed / AUTO_FLY_TIME)
  let st := { st with scrollProgress := min 1 (ctx.elapsed / SCROLL_ANIMATION_DURATION) }
  let flyAmplitude : ℚ := 40
  let flySpeed : ℚ := 3/1000
  let st := { st with bird :=
    { st.bird with y := BIRD_CENTER_Y + cfg.sinq (ctx.t * flySpeed) * flyAmplitude } }
  let st := bumpFrame 5 st
  if autoFlyProgress ≥ 1 then
    { st with
      pipes := st.pipes ++ [createQuestionPipe]
      phase := .playing
      phaseStartTime := ctx.t
      bird := { st.bird with velocity := 0 } }
  else st

def hasQuestionPipeOnScreen (ps : List Pipe) : Bool :=
  ps.any (fun p => p.type = .question && !p.passed)

def stepPlaying (ctx : TickCtx) (st : GameState) : GameState :=
  let st := { st with scrollProgress := min 1 (ctx.elapsed / SCROLL_ANIMATION_DURATION) }
  -- physics (lines 977-979): velocity += g*dt, then position += velocity*dt
  let v := st.bird.velocity + GRAVITY * ctx.dt
  let st := { st with bird := { st.bird with velocity := v, y := st.bird.y + v * ctx.dt } }
  -- boundary check (lines 982-987): leaves the whole case
  if st.bird.y < PLAY_AREA_TOP ∨ st.bird.y + BIRD_HEIGHT > PLAY_AREA_BOTTOM then
    { st with phase := .game_over, phaseStartTime := ctx.t }
  else
    let st := bumpFrame 6 st
    let hasQP := hasQuestionPipeOnScreen st.pipes
    -- question-preview entry (lines 995-1008): leaves the whole case
    if NORMAL_PIPES_BETWEEN_QUESTIONS ≤ st.pipesSinceLastQuestion ∧ hasQP = false
        ∧ st.questionIndex < questionsLen ctx.currentChapter then
      { st with
        phase := .question_preview
        phaseStartTime := ctx.t
        questionPreviewProgress := 0
        currentQuestionActive := true
        scrollProgress := 0 }
    else
      -- spawn new normal pipes (lines 1010-1016)
      let shouldSpawnPipe :=
        match st.pipes.getLast? with
        | none => true
        | some lastPipe => decide (lastPipe.x < CANVAS_WIDTH - 180)
      let st :=
        if shouldSpawnPipe = true ∧ hasQP = false then
          { st with pipes := st.pipes ++ [createNormalPipe ctx.rand] }
        else st
      let (st, pipes) := runPipesPlaying ctx st st.pipes
      { st with pipes := filterOnScreen pipes }

def stepQuestionPreview (ctx : TickCtx) (st : GameState) : GameState :=
  let st := { st with
    questionPreviewProgress := min 1 (ctx.elapsed / QUESTION_PREVIEW_TIME)
    scrollProgress := min 1 (ctx.elapsed / SCROLL_ANIMATION_DURATION) }
  let v := st.bird.velocity + GRAVITY * ctx.dt
  let st := { st with bird := { st.bird with velocity := v, y := st.bird.y + v * ctx.dt } }
  if st.bird.y < PLAY_AREA_TOP ∨ st.bird.y + BIRD_HEIGHT > PLAY_AREA_BOTTOM then
    { st with phase := .game_over, phaseStartTime := ctx.t }
  else
    let st := bumpFrame 6 st
    let (st, pipes) := runPipesPreview ctx st st.pipes
    let st := { st with pipes := filterOnScreen pipes }
    -- preview completion (lines 1188-1193): note that in the source this
    -- check still runs after a collision `break` set phase to game_over.
    if st.questionPreviewProgress ≥ 1 then
      { st with
        pipes := st.pipes ++ [createQuestionPipe]
        phase := .playing
        phaseStartTime := ctx.t
        scrollProgress := 1 }
    else st

def stepGameOver (ctx : TickCtx) (st : GameState) : GameState :=
  -- lines 1212-1214: the dead bird falls, clamped at the floor
  let v := st.bird.velocity + GRAVITY * ctx.dt * (1/2)
  { st with bird := { st.bird with
      velocity := v
      y := min (PLAY_AREA_BOTTOM - BIRD_HEIGHT) (st.bird.y + v * ctx.dt) } }

def stepScrollOnly (ctx : TickCtx) (st : GameState) : GameState :=
  { st with scrollProgress := min 1 (ctx.elapsed / SCROLL_ANIMATION_DURATION) }

/-! ### One animation-frame tick (lines 863-1242) -/

def tickFn (cfg : Config) (sys : Sys) (t rand : ℚ) : Sys :=
  let lastFrame := if sys.lastFrameTime = 0 then t else sys.lastFrameTime
  let dt := min ((t - lastFrame) / FRAME_MS) MAX_DELTA_TIME
  let st := sys.gs
  let ctx : TickCtx :=
    { t := t, dt := dt, elapsed := t - st.phaseStartTime, rand := rand
      currentChapter := cfg.chapters[st.chapterIndex]?
      currentQuestion := cfg.chapters[st.chapterIndex]?.bind
        (fun ch => ch.questions[st.questionIndex]?) }
  let st' :=
    match st.phase with
    | .loading => st
    | .chapter_intro => stepChapterIntro ctx st
    | .ready_to_play => stepReadyToPlay cfg ctx st
    | .auto_fly => stepAutoFly cfg ctx st
    | .playing => stepPlaying ctx st
    | .question_preview => stepQuestionPreview ctx st
    | .game_over => stepGameOver ctx st
    | .chapter_complete => stepScrollOnly ctx st
    | .game_complete => stepScrollOnly ctx st
  { gs := st', lastFrameTime := t, lastJumpTime := sys.lastJumpTime }

/-! ### Input handling (`jump` lines 252-272, `handleCanvasClick` lines 1261-1323) -/

def jumpFn (sys : Sys) (t : ℚ) : Sys :=
  if t - sys.lastJumpTime < JUMP_COOLDOWN then sys
  else
    let sys := { sys with lastJumpTime := t }
    if sys.gs.phase = .playing ∨ sys.gs.phase = .question_preview then
      { sys with gs := { sys.gs with
          bird := { sys.gs.bird with velocity := -JUMP_STRENGTH } } }
    else sys

def clickFn (cfg : Config) (sys : Sys) (t : ℚ) : Sys :=
  let st := sys.gs
  match st.phase with
  | .ready_to_play =>
    { sys with gs := { st with
        phase := .auto_fly
        phaseStartTime := t
        scrollProgress := 0
        currentQuestionActive := true } }
  | .game_over =>
    -- penalty-free retry (lines 1279-1286)
    { sys with gs := { st with
        phase := .playing
        phaseStartTime := t
        bird := { st.bird with y := BIRD_CENTER_Y, velocity := 0 }
        pipes := st.pipes.filter (fun p => decide (p.x > 100)) } }
  | .chapter_complete =>
    if st.chapterIndex < cfg.chapters.length - 1 then
      { sys with gs := { st with
          chapterIndex := st.chapterIndex + 1
          questionIndex := 0
          phase := .chapter_intro
          phaseStartTime := t
          scrollProgress := 0
          pipes := []
          pipesSinceLastQuestion := NORMAL_PIPES_BETWEEN_QUESTIONS
          currentQuestionActive := false } }
    else
      { sys with gs := { st with
          phase := .game_complete
          phaseStartTime := t
          scrollProgress := 0 } }
  | .game_complete =>
    -- full restart (lines 1305-1319); lastFrameTime and lastJumpTime are
    -- refs and are not reset
    { sys with gs := {
        phase := .chapter_intro
        bird := { y := BIRD_CENTER_Y, velocity := 0, frame := 0 }
        pipes := []
        chapterIndex := 0
        questionIndex := 0
        score := createInitialScore cfg.chapters
        displayScore := 0
        pipesSinceLastQuestion := NORMAL_PIPES_BETWEEN_QUESTIONS
        currentQuestionActive := false
        scrollProgress := 0
        phaseStartTime := t
        frameCount := 0
        questionPreviewProgress := 0 } }
  | _ => jumpFn sys t

def step (cfg : Config) (sys : Sys) : Input → Sys
  | .tick t rand => tickFn cfg sys t rand
  | .click t => clickFn cfg sys t

def run (cfg : Config) (sys : Sys) (evs : List Input) : Sys :=
  evs.foldl (step cfg) sys

/-- State right after asset loading flips `loading` to `chapter_intro`
(lines 228-229) at host time `t0`; the refs start at 0 (lines 130-131). -/
def initSys (cfg : Config) (t0 : ℚ) : Sys :=
  { gs := {
      phase := .chapter_intro
      bird := { y := BIRD_CENTER_Y, velocity := 0, frame := 0 }
      pipes := []
      chapterIndex := 0
      questionIndex := 0
      score := createInitialScore cfg.chapters
      displayScore := 0
      pipesSinceLastQuestion := 0
      currentQuestionActive := false
      scrollProgress := 0
      phaseStartTime := t0
      frameCount := 0
      questionPreviewProgress := 0 }
    lastFrameTime := 0
    lastJumpTime := 0 }

/-- Host contract: event timestamps are non-decreasing (rAF/performance.now
are monotone) and `Math.random()` samples lie in `[0, 1)`. -/
def validSeq : ℚ → List Input → Bool
  | _, [] => true
  | lb, e :: rest =>
    (decide (lb ≤ e.time)
      && (match e with
          | .tick _ r => decide (0 ≤ r ∧ r < 1)
          | .click _ => true))
      && validSeq e.time rest

/-- A system state reachable from a freshly loaded game by ticks and inputs. -/
def Reachable (cfg : Config) (s : Sys) : Prop :=
  ∃ t0 evs, 0 ≤ t0 ∧ validSeq t0 evs = true ∧ s = run cfg (initSys cfg t0) evs

/-! ### Derived definitions used by the verification -/

/-- The score mutation performed by a correct answer (lines 1079-1080). -/
def incCorrect (cs : ChapterScore) : ChapterScore := { cs with correct := cs.correct + 1 }

def incScore (g : GameScore) (i : ℕ) : GameScore :=
  { g with
    chapterScores := listUpdate incCorrect g.chapterScores i
    totalCorrect := g.totalCorrect + 1 }

/-- Sum of the per-chapter correct counters. -/
def sumCorrect (l : List ChapterScore) : ℕ := (l.map ChapterScore.correct).sum

/-- `k` applications of `incScore` at a fixed chapter index: the only way the
`Score` aggregate ever changes inside a tick. -/
def iterIncScore (g : GameScore) (i : ℕ) : ℕ → GameScore
  | 0 => g
  | k + 1 => incScore (iterIncScore g i k) i

/-- The per-tick flight physics (quiz-game.tsx lines 978-979 and 1125-1126):
`velocity += GRAVITY * dt` then `y += velocity * dt`. -/
def physStep (dt : ℚ) (b : Bird) : Bird :=
  let v := b.velocity + GRAVITY * dt
  { b with velocity := v, y := b.y + v * dt }

/-- `n` physics steps with a fixed clamped delta. -/
def physIterN (dt : ℚ) (b : Bird) : ℕ → Bird
  | 0 => b
  | n + 1 => physStep dt (physIterN dt b n)

/-- `n` animation-frame callbacks, evenly spaced `gap` milliseconds apart,
starting one gap after `start`, with no primary-action input in between. -/
def tickTimes (start gap : ℚ) (n : ℕ) : List Input :=
  (List.range n).map (fun (i : ℕ) => Input.tick (start + gap * ((i : ℚ) + 1)) 0)

/-- Sample data for witnesses. -/
def sampleQuestion : Question :=
  { id := "q1", text := "t", answer := true, feedbackCorrect := "c", feedbackWrong := "w" }

def sampleChapter : Chapter :=
  { id := "c1", number := 1, title := "T", subtitle := "S", description := "D"
    questions := [sampleQuestion] }

def sampleCfg : Config := { chapters := [sampleChapter], sinq := fun _ => 0 }

def sampleGameOverSys : Sys :=
  { gs := { (initSys sampleCfg 0).gs with
      phase := GamePhase.game_over
      pipes := [createQuestionPipe, { createNormalPipe 0 with x := 40 }] }
    lastFrameTime := 500
    lastJumpTime := 0 }

def samplePlayingSys : Sys :=
  { gs := { (initSys sampleCfg 0).gs with phase := GamePhase.playing }
    lastFrameTime := 0
    lastJumpTime := 0 }

def sampleCtx : TickCtx :=
  { t := 0, dt := 0, elapsed := 0, rand := 0
    currentChapter := some sampleChapter
    currentQuestion := some sampleQuestion }

def sampleYesSlotSt : GameState :=
  { (initSys sampleCfg 0).gs with
    phase := GamePhase.playing
    bird := { y := 100, velocity := 0, frame := 0 } }

def sampleQuestionPipeAt30 : Pipe := { createQuestionPipe with x := 30 }

/-- A mid-game `playing` state used by the physics witness. -/
def samplePhysicsSys : Sys :=
  { gs := { (initSys sampleCfg 0).gs with
      phase := GamePhase.playing
      phaseStartTime := 100 }
    lastFrameTime := 100
    lastJumpTime := 0 }

/-! ### Definitions for the single-chapter single-question analysis (C3) -/

/-- Phases in which gameplay bookkeeping is live: the counter invariant of
`onlyQuestions` is pinned in exactly these phases. -/
def activePhase : GamePhase → Bool
  | .ready_to_play => true
  | .auto_fly => true
  | .playing => true
  | .question_preview => true
  | .game_over => true
  | _ => false

/-- Invariant of `sampleCfg` (one chapter, one question) runs: every pipe on
screen is a Question pipe, the chapter and question indices never leave 0,
and in every live phase the pipes-since-last-question counter sits at the
spawn threshold — so the question-preview check always preempts the
Plain-pipe spawn branch and no Plain pipe is ever created. -/
def onlyQuestions (s : Sys) : Prop :=
  (∀ p ∈ s.gs.pipes, p.type = PipeType.question) ∧
  s.gs.questionIndex = 0 ∧
  s.gs.chapterIndex = 0 ∧
  (activePhase s.gs.phase = true →
    s.gs.pipesSinceLastQuestion = NORMAL_PIPES_BETWEEN_QUESTIONS)

/-- Tail of a `question_preview` tick after the boundary check: pipe loop,
off-screen filter, and the preview-completion spawn.  Definitionally equal
to the corresponding part of `stepQuestionPreview`; stated separately so
loop lemmas can quantify over the pre-loop state. -/
def previewTail (ctx : TickCtx) (S : GameState) : GameState :=
  let r : GameState × List Pipe := runPipesPreview ctx S S.pipes
  let st : GameState := { r.1 with pipes := filterOnScreen r.2 }
  if st.questionPreviewProgress ≥ 1 then
    { st with
      pipes := st.pipes ++ [createQuestionPipe]
      phase := .playing
      phaseStartTime := ctx.t
      scrollProgress := 1 }
  else st

/-- Concrete input trace for the amended end-to-end scenario on `sampleCfg`:
one tick ends the chapter intro, a click starts the auto-fly, one tick
finishes it (spawning the Question pipe at x = 308), then 104 playing ticks
25 ms apart with five well-timed jumps keep the bird inside the YES slot
while the pipe crosses it and then travels off behind the bird, and a final
click acknowledges the completed chapter. -/
def C3_events : List Input :=
  [Input.tick 3100 0, Input.click 3150, Input.tick 7150 0, Input.click 7165]
  ++ tickTimes 7150 25 18 ++ [Input.click 7615]
  ++ tickTimes 7600 25 23 ++ [Input.click 8190]
  ++ tickTimes 8175 25 23 ++ [Input.click 8765]
  ++ tickTimes 8750 25 23 ++ [Input.click 9340]
  ++ tickTimes 9325 25 17 ++ [Input.click 9800]

/-- The state reached by `C3_events` just before its final click. -/
def C3_pre : Sys := run sampleCfg (initSys sampleCfg 0) C3_events.dropLast

/-- The state reached by the full `C3_events` trace. -/
def C3_final : Sys := run sampleCfg (initSys sampleCfg 0) C3_events

/-! ### Componentwise boolean state comparison

Equality of two concrete `Sys` values is checked field by field, comparing
rationals through `num`/`den` so that the check stays in integer
arithmetic. -/

def qeqb (a b : ℚ) : Bool := decide (a.num = b.num) && decide (a.den = b.den)

def oqeqb : Option ℚ → Option ℚ → Bool
  | none, none => true
  | some a, some b => qeqb a b
  | _, _ => false

def obeqb : Option Bool → Option Bool → Bool
  | none, none => true
  | some a, some b => decide (a = b)
  | _, _ => false

def pipeEqb (p q : Pipe) : Bool :=
  qeqb p.x q.x && decide (p.type = q.type) &&
  oqeqb p.gapTop q.gapTop && oqeqb p.gapBottom q.gapBottom &&
  oqeqb p.topPipeBottom q.topPipeBottom && oqeqb p.middlePipeTop q.middlePipeTop &&
  oqeqb p.middlePipeBottom q.middlePipeBottom && oqeqb p.bottomPipeTop q.bottomPipeTop &&
  decide (p.passed = q.passed) && decide (p.scored = q.scored) &&
  obeqb p.questionAnswered q.questionAnswered

def pipesEqb : List Pipe → List Pipe → Bool
  | [], [] => true
  | p :: ps, q :: qs => pipeEqb p q && pipesEqb ps qs
  | _, _ => false

def birdEqb (a b : Bird) : Bool :=
  qeqb a.y b.y && qeqb a.velocity b.velocity && decide (a.frame = b.frame)

def gsEqb (a b : GameState) : Bool :=
  decide (a.phase = b.phase) && birdEqb a.bird b.bird && pipesEqb a.pipes b.pipes &&
  decide (a.chapterIndex = b.chapterIndex) && decide (a.questionIndex = b.questionIndex) &&
  decide (a.score = b.score) && decide (a.displayScore = b.displayScore) &&
  decide (a.pipesSinceLastQuestion = b.pipesSinceLastQuestion) &&
  decide (a.currentQuestionActive = b.currentQuestionActive) &&
  qeqb a.scrollProgress b.scrollProgress && qeqb a.phaseStartTime b.phaseStartTime &&
  decide (a.frameCount = b.frameCount) &&
  qeqb a.questionPreviewProgress b.questionPreviewProgress

def sysEqb (a b : Sys) : Bool :=
  gsEqb a.gs b.gs && qeqb a.lastFrameTime b.lastFrameTime &&
  qeqb a.lastJumpTime b.lastJumpTime

/-- Checkpoint of the `C3_events` run after the first 14 events (mid-flight, question pipe at x = 278). -/
def C3_K1 : Sys :=
  { gs :=
      { phase := GamePhase.playing
        bird := { y := 1103/8, velocity := -3/2, frame := 1 }
        pipes := [{ x := 278, type := PipeType.question, gapTop := none, gapBottom := none, topPipeBottom := some (36), middlePipeTop := some (196), middlePipeBottom := some (226), bottomPipeTop := some (386), passed := false, scored := false, questionAnswered := some false }]
        chapterIndex := 0
        questionIndex := 0
        score := { chapterScores := [{ correct := 0, total := 1 }], totalCorrect := 0, totalQuestions := 1 }
        displayScore := 0
        pipesSinceLastQuestion := 5
        currentQuestionActive := true
        scrollProgress := 5/12
        phaseStartTime := 7150
        frameCount := 11
        questionPreviewProgress := 0 }
    lastFrameTime := 7400
    lastJumpTime := 7165 }

/-- Checkpoint of the `C3_events` run after the first 28 events (question pipe at x = 239). -/
def C3_K2 : Sys :=
  { gs :=
      { phase := GamePhase.playing
        bird := { y := 439/4, velocity := -21/4, frame := 1 }
        pipes := [{ x := 239, type := PipeType.question, gapTop := none, gapBottom := none, topPipeBottom := some (36), middlePipeTop := some (196), middlePipeBottom := some (226), bottomPipeTop := some (386), passed := false, scored := false, questionAnswered := some false }]
        chapterIndex := 0
        questionIndex := 0
        score := { chapterScores := [{ correct := 0, total := 1 }], totalCorrect := 0, totalQuestions := 1 }
        displayScore := 0
        pipesSinceLastQuestion := 5
        currentQuestionActive := true
        scrollProgress := 23/24
        phaseStartTime := 7150
        frameCount := 24
        questionPreviewProgress := 0 }
    lastFrameTime := 7725
    lastJumpTime := 7615 }

/-- Checkpoint of the `C3_events` run after the first 42 events (question pipe at x = 197). -/
def C3_K3 : Sys :=
  { gs :=
      { phase := GamePhase.playing
        bird := { y := 941/8, velocity := 21/4, frame := 0 }
        pipes := [{ x := 197, type := PipeType.question, gapTop := none, gapBottom := none, topPipeBottom := some (36), middlePipeTop := some (196), middlePipeBottom := some (226), bottomPipeTop := some (386), passed := false, scored := false, questionAnswered := some false }]
        chapterIndex := 0
        questionIndex := 0
        score := { chapterScores := [{ correct := 0, total := 1 }], totalCorrect := 0, totalQuestions := 1 }
        displayScore := 0
        pipesSinceLastQuestion := 5
        currentQuestionActive := true
        scrollProgress := 1
        phaseStartTime := 7150
        frameCount := 38
        questionPreviewProgress := 0 }
    lastFrameTime := 8075
    lastJumpTime := 7615 }

/-- Checkpoint of the `C3_events` run after the first 56 events (question pipe at x = 158). -/
def C3_K4 : Sys :=
  { gs :=
      { phase := GamePhase.playing
        bird := { y := 179/2, velocity := -9/4, frame := 2 }
        pipes := [{ x := 158, type := PipeType.question, gapTop := none, gapBottom := none, topPipeBottom := some (36), middlePipeTop := some (196), middlePipeBottom := some (226), bottomPipeTop := some (386), passed := false, scored := false, questionAnswered := some false }]
        chapterIndex := 0
        questionIndex := 0
        score := { chapterScores := [{ correct := 0, total := 1 }], totalCorrect := 0, totalQuestions := 1 }
        displayScore := 0
        pipesSinceLastQuestion := 5
        currentQuestionActive := true
        scrollProgress := 1
        phaseStartTime := 7150
        frameCount := 51
        questionPreviewProgress := 0 }
    lastFrameTime := 8400
    lastJumpTime := 8190 }

/-- Checkpoint of the `C3_events` run after the first 70 events (question pipe at x = 116). -/
def C3_K5 : Sys :=
  { gs :=
      { phase := GamePhase.playing
        bird := { y := 1283/8, velocity := 33/4, frame := 1 }
        pipes := [{ x := 116, type := PipeType.question, gapTop := none, gapBottom := none, topPipeBottom := some (36), middlePipeTop := some (196), middlePipeBottom := some (226), bottomPipeTop := some (386), passed := false, scored := false, questionAnswered := some false }]
        chapterIndex := 0
        questionIndex := 0
        score := { chapterScores := [{ correct := 0, total := 1 }], totalCorrect := 0, totalQuestions := 1 }
        displayScore := 0
        pipesSinceLastQuestion := 5
        currentQuestionActive := true
        scrollProgress := 1
        phaseStartTime := 7150
        frameCount := 65
        questionPreviewProgress := 0 }
    lastFrameTime := 8750
    lastJumpTime := 8190 }

/-- Checkpoint of the `C3_events` run after the first 84 events (question answered, displayScore = 5). -/
def C3_K6 : Sys :=
  { gs :=
      { phase := GamePhase.playing
        bird := { y := 349/4, velocity := 3/4, frame := 1 }
        pipes := [{ x := 77, type := PipeType.question, gapTop := none, gapBottom := none, topPipeBottom := some (36), middlePipeTop := some (196), middlePipeBottom := some (226), bottomPipeTop := some (386), passed := false, scored := false, questionAnswered := some true }]
        chapterIndex := 0
        questionIndex := 0
        score := { chapterScores := [{ correct := 1, total := 1 }], totalCorrect := 1, totalQuestions := 1 }
        displayScore := 5
        pipesSinceLastQuestion := 5
        currentQuestionActive := true
        scrollProgress := 1
        phaseStartTime := 7150
        frameCount := 78
        questionPreviewProgress := 0 }
    lastFrameTime := 9075
    lastJumpTime := 8765 }

/-- Checkpoint of the `C3_events` run after the first 98 events (question pipe at x = 38, about to be passed). -/
def C3_K7 : Sys :=
  { gs :=
      { phase := GamePhase.playing
        bird := { y := 1013/8, velocity := -27/4, frame := 0 }
        pipes := [{ x := 38, type := PipeType.question, gapTop := none, gapBottom := none, topPipeBottom := some (36), middlePipeTop := some (196), middlePipeBottom := some (226), bottomPipeTop := some (386), passed := false, scored := false, questionAnswered := some true }]
        chapterIndex := 0
        questionIndex := 0
        score := { chapterScores := [{ correct := 1, total := 1 }], totalCorrect := 1, totalQuestions := 1 }
        displayScore := 5
        pipesSinceLastQuestion := 5
        currentQuestionActive := true
        scrollProgress := 1
        phaseStartTime := 7150
        frameCount := 91
        questionPreviewProgress := 0 }
    lastFrameTime := 9400
    lastJumpTime := 9340 }

/-- Checkpoint of the `C3_events` run after the first 112 events (all 112 pre-click events done: chapter complete, score {1,1}). -/
def C3_K8 : Sys :=
  { gs :=
      { phase := GamePhase.chapter_complete
        bird := { y := 103, velocity := 15/4, frame := 2 }
        pipes := [{ x := -4, type := PipeType.question, gapTop := none, gapBottom := none, topPipeBottom := some (36), middlePipeTop := some (196), middlePipeBottom := some (226), bottomPipeTop := some (386), passed := true, scored := false, questionAnswered := some true }]
        chapterIndex := 0
        questionIndex := 0
        score := { chapterScores := [{ correct := 1, total := 1 }], totalCorrect := 1, totalQuestions := 1 }
        displayScore := 5
        pipesSinceLastQuestion := 0
        currentQuestionActive := false
        scrollProgress := 0
        phaseStartTime := 9750
        frameCount := 105
        questionPreviewProgress := 0 }
    lastFrameTime := 9750
    lastJumpTime := 9340 }

/-! ### Definitions for the at-most-one-question analysis (C2) -/

/-- A pipe whose question has not been answered (`answered == false`);
Plain pipes never count. -/
def unansweredQuestion (p : Pipe) : Bool :=
  decide (p.type = PipeType.question) && !(p.questionAnswered.getD false)

/-- A Question pipe, of any answer state. -/
def isQuestionPipe (p : Pipe) : Bool :=
  decide (p.type = PipeType.question)

/-- Along the pipe list, passed pipes precede unpassed ones: once an
unpassed pipe appears, everything after it is unpassed too.  This reflects
spawn order: pipes are appended on the right and are marked passed from the
left as they cross the bird. -/
def passedMono : List Pipe → Prop
  | [] => True
  | p :: rest => (p.passed = false → ∀ q ∈ rest, q.passed = false) ∧ passedMono rest

/-- No pipe ever follows an unpassed Question pipe in the list: while a
Question pipe is on screen and unpassed, `hasQuestionPipeOnScreen` blocks
every further spawn. -/
def qpTail : List Pipe → Prop
  | [] => True
  | p :: rest =>
    (p.type = PipeType.question ∧ p.passed = false → rest = []) ∧ qpTail rest

/-- Inductive invariant for C2, maintained by every tick and input on every
configuration: geometric bounds on the pipes, their ordering, the structural
facts `passedMono` and `qpTail`, at most one Question pipe on screen, the
passed-Question bookkeeping (counter reset and 310-pixel headway), and the
phase-indexed facts used when the preview spawns a fresh Question pipe. -/
def C2G (gs : GameState) : Prop :=
  (∀ p ∈ gs.pipes, -102 < p.x) ∧
  (∀ p ∈ gs.pipes, p.x ≤ 308) ∧
  gs.pipes.Pairwise (fun a b => a.x ≤ b.x) ∧
  (∀ p ∈ gs.pipes, p.passed = true → p.x < -2) ∧
  (∀ p ∈ gs.pipes, p.passed = false → -2 ≤ p.x) ∧
  passedMono gs.pipes ∧
  qpTail gs.pipes ∧
  gs.pipes.countP isQuestionPipe ≤ 1 ∧
  (∀ qp ∈ gs.pipes, qp.type = PipeType.question → qp.passed = true →
    gs.pipesSinceLastQuestion = 0 ∧
    ∀ p ∈ gs.pipes, p.passed = false → qp.x + 310 ≤ p.x) ∧
  (gs.phase = GamePhase.question_preview →
    ∀ p ∈ gs.pipes, p.type = PipeType.normal) ∧
  ((gs.phase = GamePhase.ready_to_play ∨ gs.phase = GamePhase.auto_fly) →
    gs.pipes = [])

/-- The C2 invariant on the full system state. -/
def C2Inv (s : Sys) : Prop := C2G s.gs

/-- Post-state of one full `playing` pipe loop: everything `C2Inv` needs
about the surviving list and the loop-threaded state. -/
def postPipes (ctx : TickCtx) (st : GameState) (ps : List Pipe)
    (stOut : GameState) (out : List Pipe) : Prop :=
  (∀ p ∈ out, p.x ≤ 308) ∧
  out.Pairwise (fun a b => a.x ≤ b.x) ∧
  (∀ p ∈ out, p.passed = true → p.x < -2) ∧
  (∀ p ∈ out, p.passed = false → -2 ≤ p.x) ∧
  passedMono out ∧
  qpTail out ∧
  (∀ qp ∈ out, qp.type = PipeType.question → qp.passed = true →
    stOut.pipesSinceLastQuestion = 0 ∧
    ∀ p ∈ out, p.passed = false → qp.x + 310 ≤ p.x) ∧
  (stOut.phase = st.phase ∨ stOut.phase = GamePhase.game_over ∨
    stOut.phase = GamePhase.chapter_complete) ∧
  (∀ q ∈ out, ∃ q0 ∈ ps, q0.x - PIPE_SPEED * ctx.dt ≤ q.x ∧ q.x ≤ q0.x ∧
    (q0.passed = true → q.passed = true)) ∧
  ((∀ p ∈ ps, p.passed = false → (1:ℚ) ≤ p.x) →
    stOut.pipesSinceLastQuestion = st.pipesSinceLastQuestion)

/-- Pre-state of one full `playing` pipe loop. -/
def prePipes (st : GameState) (ps : List Pipe) : Prop :=
  (∀ p ∈ ps, -102 < p.x) ∧
  (∀ p ∈ ps, p.x ≤ 308) ∧
  ps.Pairwise (fun a b => a.x ≤ b.x) ∧
  (∀ p ∈ ps, p.passed = true → p.x < -2) ∧
  (∀ p ∈ ps, p.passed = false → -2 ≤ p.x) ∧
  passedMono ps ∧
  qpTail ps ∧
  (∀ qp ∈ ps, qp.type = PipeType.question → qp.passed = true →
    st.pipesSinceLastQuestion = 0 ∧
    ∀ p ∈ ps, p.passed = false → qp.x + 310 ≤ p.x)

/-! ## Claim theorems -/

/-- C4 counterexample: the question pipe generated by `createQuestionPipe`
does have strictly ordered edges and two equal slots, but each slot height
(`SLOT_HEIGHT = 160`) is *smaller* than the Plain obstacle's fixed gap
(`PIPE_GAP_NORMAL = 200`), contradicting the claim that each slot height is
strictly greater than the Plain gap size. -/
theorem C4_counterexample :
    (createQuestionPipe.middlePipeTop.getD 0 - createQuestionPipe.topPipeBottom.getD 0
      = SLOT_HEIGHT) ∧
    ¬ (createQuestionPipe.middlePipeTop.getD 0 - createQuestionPipe.topPipeBottom.getD 0
        > PIPE_GAP_NORMAL) := by
  with_unfolding_all decide

/-- C4 (amended): every generated Question obstacle satisfies
`topEdge < midTop < midBottom < bottomEdge`, its two slot heights are equal
(both `SLOT_HEIGHT`), and each slot height is strictly *smaller* than the
Plain obstacle's fixed gap size (`160 < 200`). -/
theorem C4_question_pipe_geometry :
    createQuestionPipe.type = PipeType.question ∧
    createQuestionPipe.topPipeBottom.getD 0 < createQuestionPipe.middlePipeTop.getD 0 ∧
    createQuestionPipe.middlePipeTop.getD 0 < createQuestionPipe.middlePipeBottom.getD 0 ∧
    createQuestionPipe.middlePipeBottom.getD 0 < createQuestionPipe.bottomPipeTop.getD 0 ∧
    (createQuestionPipe.middlePipeTop.getD 0 - createQuestionPipe.topPipeBottom.getD 0
      = createQuestionPipe.bottomPipeTop.getD 0 - createQuestionPipe.middlePipeBottom.getD 0) ∧
    (createQuestionPipe.middlePipeTop.getD 0 - createQuestionPipe.topPipeBottom.getD 0
      < PIPE_GAP_NORMAL) := by
  with_unfolding_all decide

/-- C7: an input received in the `game_over` phase resumes `playing`,
resets the bird to the vertical band centre with velocity 0, keeps exactly
the obstacles strictly right of `x = 100` (clearing a buffer zone around and
ahead of the bird), and leaves `chapterIndex`, `questionIndex`, the `Score`
aggregate and `displayScore` unchanged. -/
theorem C7_crash_retry (cfg : Config) (sys : Sys) (t : ℚ)
    (h : sys.gs.phase = GamePhase.game_over) :
    (clickFn cfg sys t).gs.phase = GamePhase.playing ∧
    (clickFn cfg sys t).gs.bird.y = BIRD_CENTER_Y ∧
    (clickFn cfg sys t).gs.bird.velocity = 0 ∧
    (clickFn cfg sys t).gs.pipes = sys.gs.pipes.filter (fun p => decide (p.x > 100)) ∧
    (clickFn cfg sys t).gs.chapterIndex = sys.gs.chapterIndex ∧
    (clickFn cfg sys t).gs.questionIndex = sys.gs.questionIndex ∧
    (clickFn cfg sys t).gs.score = sys.gs.score ∧
    (clickFn cfg sys t).gs.displayScore = sys.gs.displayScore := by
  simp [clickFn, h]

theorem C7_crash_retry_witness :
    (clickFn sampleCfg sampleGameOverSys 600).gs.phase = GamePhase.playing ∧
    (clickFn sampleCfg sampleGameOverSys 600).gs.pipes
      = [createQuestionPipe] ∧
    (clickFn sampleCfg sampleGameOverSys 600).gs.displayScore
      = sampleGameOverSys.gs.displayScore := by
  have h := C7_crash_retry sampleCfg sampleGameOverSys 600 rfl
  refine ⟨h.1, ?_, h.2.2.2.2.2.2.2⟩
  rw [h.2.2.2.1]
  with_unfolding_all decide

/-- C8: two jump inputs less than the cooldown window (150 ms) apart cause
exactly one velocity change: the first (issued in a flight-permitting phase,
with its own cooldown satisfied) sets the velocity to `-JUMP_STRENGTH` and
records the jump time, the second leaves the whole system state unchanged.
In these phases the canvas click handler routes the input to `jump`. -/
theorem C8_jump_cooldown (cfg : Config) (sys : Sys) (t₁ t₂ : ℚ)
    (hphase : sys.gs.phase = GamePhase.playing ∨ sys.gs.phase = GamePhase.question_preview)
    (h1 : JUMP_COOLDOWN ≤ t₁ - sys.lastJumpTime)
    (h2 : t₂ - t₁ < JUMP_COOLDOWN) :
    clickFn cfg sys t₁ = jumpFn sys t₁ ∧
    (jumpFn sys t₁).gs.bird.velocity = -JUMP_STRENGTH ∧
    (jumpFn sys t₁).lastJumpTime = t₁ ∧
    jumpFn (jumpFn sys t₁) t₂ = jumpFn sys t₁ := by
  have hnot : ¬ (t₁ - sys.lastJumpTime < JUMP_COOLDOWN) := not_lt.2 h1
  have hroute : clickFn cfg sys t₁ = jumpFn sys t₁ := by
    rcases hphase with h | h <;> simp only [clickFn, h]
  have hfirst : jumpFn sys t₁ =
      { sys with
        lastJumpTime := t₁
        gs := { sys.gs with bird := { sys.gs.bird with velocity := -JUMP_STRENGTH } } } := by
    rw [jumpFn, if_neg hnot]
    rcases hphase with h | h <;> simp [h]
  refine ⟨hroute, by rw [hfirst], by rw [hfirst], ?_⟩
  rw [hfirst, jumpFn]
  simp only [if_pos h2]

theorem C8_jump_cooldown_witness :
    (jumpFn samplePlayingSys 200).gs.bird.velocity = -JUMP_STRENGTH ∧
    jumpFn (jumpFn samplePlayingSys 200) 300 = jumpFn samplePlayingSys 200 := by
  have h := C8_jump_cooldown sampleCfg samplePlayingSys 200 300 (Or.inl rfl)
    (by with_unfolding_all decide) (by with_unfolding_all decide)
  exact ⟨h.2.1, h.2.2.2⟩

/-- C1: processing a Question obstacle that is not yet answered, on a tick
where the bird's vertical span lies strictly inside the YES slot or strictly
inside the NO slot while horizontally overlapping the obstacle, locks the
answer in; if the selected boolean (YES = `true`) equals the question's
`answer`, the current chapter's correct counter and `totalCorrect` each grow
by exactly 1 and `displayScore` by 5; otherwise `displayScore` becomes
`max 0 (displayScore - 2)` (never below 0) and the correct counters are
unchanged.  Processing the same obstacle once answered changes nothing. -/
theorem C1_answer_scoring (ctx : TickCtx) (st : GameState) (p0 : Pipe) (q : Question)
    (htype : p0.type = PipeType.question)
    (hna : p0.questionAnswered.getD false = false)
    (hq : ctx.currentQuestion = some q)
    (hg1 : p0.topPipeBottom.getD 0 ≤ p0.middlePipeBottom.getD 0)
    (hg2 : p0.middlePipeTop.getD 0 ≤ p0.bottomPipeTop.getD 0)
    (hov1 : BIRD_LEFT + BIRD_WIDTH > p0.x - PIPE_SPEED * ctx.dt)
    (hov2 : BIRD_LEFT < p0.x - PIPE_SPEED * ctx.dt + PIPE_WIDTH)
    (hslot :
      (st.bird.y > p0.topPipeBottom.getD 0
        ∧ st.bird.y + BIRD_HEIGHT < p0.middlePipeTop.getD 0) ∨
      (st.bird.y > p0.middlePipeBottom.getD 0
        ∧ st.bird.y + BIRD_HEIGHT < p0.bottomPipeTop.getD 0)) :
    (processPipePlaying ctx st p0).2.2 = false ∧
    (processPipePlaying ctx st p0).2.1.questionAnswered = some true ∧
    (q.answer = decide (st.bird.y > p0.topPipeBottom.getD 0
        ∧ st.bird.y + BIRD_HEIGHT < p0.middlePipeTop.getD 0) →
      (processPipePlaying ctx st p0).1.score.totalCorrect = st.score.totalCorrect + 1 ∧
      (processPipePlaying ctx st p0).1.score.chapterScores
        = listUpdate (fun cs => { cs with correct := cs.correct + 1 })
            st.score.chapterScores st.chapterIndex ∧
      (processPipePlaying ctx st p0).1.displayScore = st.displayScore + 5) ∧
    (q.answer ≠ decide (st.bird.y > p0.topPipeBottom.getD 0
        ∧ st.bird.y + BIRD_HEIGHT < p0.middlePipeTop.getD 0) →
      (processPipePlaying ctx st p0).1.displayScore = max 0 (st.displayScore - 2) ∧
      0 ≤ (processPipePlaying ctx st p0).1.displayScore ∧
      (processPipePlaying ctx st p0).1.score = st.score) ∧
    (processPipePlaying ctx st { p0 with questionAnswered := some true }).1 = st := by
  have hx : ∀ pp : Pipe, pp.topPipeBottom = p0.topPipeBottom →
      pp.middlePipeTop = p0.middlePipeTop → pp.middlePipeBottom = p0.middlePipeBottom →
      pp.bottomPipeTop = p0.bottomPipeTop → pp.type = PipeType.question →
      pp.x = p0.x - PIPE_SPEED * ctx.dt →
      checkCollision st.bird pp = false := by
    intro pp e1 e2 e3 e4 et ex
    unfold checkCollision
    rw [if_neg, if_neg]
    · simp only [e1, e2, e3, e4, decide_eq_false_iff_not]
      push_neg
      rcases hslot with ⟨ha, hb⟩ | ⟨ha, hb⟩
      · exact ⟨le_of_lt ha, fun _ => le_of_lt hb, le_trans (le_of_lt hb) hg2⟩
      · exact ⟨le_trans hg1 (le_of_lt ha),
          fun h3 => absurd h3 (not_lt.2 (le_of_lt ha)), le_of_lt hb⟩
    · simp [et]
    · push_neg
      rw [ex]
      exact ⟨le_of_lt hov1, le_of_lt hov2⟩
  have hcoll : checkCollision st.bird { p0 with x := p0.x - PIPE_SPEED * ctx.dt } = false :=
    hx _ rfl rfl rfl rfl htype rfl
  have hcoll2 : checkCollision st.bird
      { p0 with questionAnswered := some true, x := p0.x - PIPE_SPEED * ctx.dt } = false :=
    hx _ rfl rfl rfl rfl htype rfl
  have hnopass : ¬ (p0.x - PIPE_SPEED * ctx.dt + PIPE_WIDTH < BIRD_LEFT) :=
    not_lt.2 (le_of_lt hov2)
  have hslotB : (decide (st.bird.y > p0.topPipeBottom.getD 0
        ∧ st.bird.y + BIRD_HEIGHT < p0.middlePipeTop.getD 0) = true) ∨
      (decide (st.bird.y > p0.middlePipeBottom.getD 0
        ∧ st.bird.y + BIRD_HEIGHT < p0.bottomPipeTop.getD 0) = true) := by
    rcases hslot with h | h
    · exact Or.inl (decide_eq_true h)
    · exact Or.inr (decide_eq_true h)
  have hred : processPipePlaying ctx st p0 =
      ((answerCheck ctx st { p0 with x := p0.x - PIPE_SPEED * ctx.dt }).1,
        (answerCheck ctx st { p0 with x := p0.x - PIPE_SPEED * ctx.dt }).2, false) := by
    simp only [processPipePlaying, hcoll, Bool.false_eq_true, if_false]
    rw [if_neg (by simp [hnopass])]
  have hans : answerCheck ctx st { p0 with x := p0.x - PIPE_SPEED * ctx.dt } =
      ((if q.answer = decide (st.bird.y > p0.topPipeBottom.getD 0
          ∧ st.bird.y + BIRD_HEIGHT < p0.middlePipeTop.getD 0) then
        { st with
          score := { st.score with
            chapterScores := listUpdate (fun cs => { cs with correct := cs.correct + 1 })
              st.score.chapterScores st.chapterIndex
            totalCorrect := st.score.totalCorrect + 1 }
          displayScore := st.displayScore + 5 }
      else
        { st with displayScore := max 0 (st.displayScore - 2) }),
      { p0 with x := p0.x - PIPE_SPEED * ctx.dt, questionAnswered := some true }) := by
    simp only [answerCheck, hq]
    rw [if_pos ⟨htype, hna⟩, if_pos ⟨hov1, hov2⟩, if_pos hslotB]
    split <;> rfl
  refine ⟨?_, ?_, ?_, ?_, ?_⟩
  · rw [hred]
  · rw [hred, hans]
  · intro hAns
    rw [hred, hans, if_pos hAns]
    exact ⟨rfl, rfl, rfl⟩
  · intro hAns
    rw [hred, hans, if_neg hAns]
    exact ⟨rfl, le_max_left 0 _, rfl⟩
  · have hnp : ¬ ({ p0 with questionAnswered := some true }.x - PIPE_SPEED * ctx.dt
        + PIPE_WIDTH < BIRD_LEFT) := hnopass
    simp only [processPipePlaying, hcoll2, Bool.false_eq_true, if_false]
    rw [if_neg (by simp [hnp])]
    simp only [answerCheck]
    rw [if_neg (by simp)]

theorem C1_answer_scoring_witness :
    (processPipePlaying sampleCtx sampleYesSlotSt sampleQuestionPipeAt30).1.score.totalCorrect
      = 1 ∧
    (processPipePlaying sampleCtx sampleYesSlotSt sampleQuestionPipeAt30).1.displayScore = 5 ∧
    (processPipePlaying sampleCtx sampleYesSlotSt
      sampleQuestionPipeAt30).2.1.questionAnswered = some true := by
  have h := C1_answer_scoring sampleCtx sampleYesSlotSt sampleQuestionPipeAt30 sampleQuestion
    rfl rfl rfl
    (by with_unfolding_all decide) (by with_unfolding_all decide)
    (by with_unfolding_all decide) (by with_unfolding_all decide)
    (Or.inl (by with_unfolding_all decide))
  obtain ⟨-, hqa, hcor, -, -⟩ := h
  obtain ⟨h1, -, h3⟩ := hcor (by with_unfolding_all decide)
  refine ⟨?_, ?_, hqa⟩
  · rw [h1]
    with_unfolding_all decide
  · rw [h3]
    with_unfolding_all decide

/-- Helper: the answer check is a no-op for an obstacle that no longer
horizontally overlaps the bird. -/
theorem answerCheck_far (ctx : TickCtx) (st : GameState) (p : Pipe)
    (h : ¬ (BIRD_LEFT < p.x + PIPE_WIDTH)) :
    answerCheck ctx st p = (st, p) := by
  unfold answerCheck
  split
  · rw [if_neg (fun hcon => h hcon.2)]
  · rfl

/-- Helper: a pipe strictly left of the bird cannot collide with it. -/
theorem checkCollision_far (bird : Bird) (p : Pipe)
    (h : p.x + PIPE_WIDTH < BIRD_LEFT) :
    checkCollision bird p = false := by
  unfold checkCollision
  rw [if_pos]
  exact Or.inr (by simpa using h)

/-- C6: processing a Plain obstacle whose trailing edge has just crossed the
bird's leading edge, with `passed`/`scored` still false, awards +1 to
`displayScore` and +1 to the obstacles-since-last-question counter and sets
both flags; once `passed` is set, processing the obstacle again on any later
tick (in `playing` or `question_preview`) leaves the whole loop state
unchanged — the flags make scoring idempotent. -/
theorem C6_plain_pass_idempotent (ctx : TickCtx) (st : GameState) (p0 : Pipe) :
    (p0.type = PipeType.normal → p0.passed = false → p0.scored = false →
      p0.x - PIPE_SPEED * ctx.dt + PIPE_WIDTH < BIRD_LEFT →
      (processPipePlaying ctx st p0).1.displayScore = st.displayScore + 1 ∧
      (processPipePlaying ctx st p0).1.pipesSinceLastQuestion
        = st.pipesSinceLastQuestion + 1 ∧
      (processPipePlaying ctx st p0).2.1.passed = true ∧
      (processPipePlaying ctx st p0).2.1.scored = true ∧
      (processPipePlaying ctx st p0).2.2 = false) ∧
    (p0.type = PipeType.normal → p0.passed = false → p0.scored = false →
      p0.x - PIPE_SPEED * ctx.dt + PIPE_WIDTH < BIRD_LEFT →
      (processPipePreview ctx st p0).1.displayScore = st.displayScore + 1 ∧
      (processPipePreview ctx st p0).1.pipesSinceLastQuestion
        = st.pipesSinceLastQuestion + 1 ∧
      (processPipePreview ctx st p0).2.1.passed = true ∧
      (processPipePreview ctx st p0).2.1.scored = true) ∧
    (p0.passed = true → p0.x - PIPE_SPEED * ctx.dt + PIPE_WIDTH < BIRD_LEFT →
      (processPipePlaying ctx st p0).1 = st ∧
      (processPipePlaying ctx st p0).2.1 = { p0 with x := p0.x - PIPE_SPEED * ctx.dt }) ∧
    (p0.passed = true → p0.x - PIPE_SPEED * ctx.dt + PIPE_WIDTH < BIRD_LEFT →
      (processPipePreview ctx st p0).1 = st ∧
      (processPipePreview ctx st p0).2.1 = { p0 with x := p0.x - PIPE_SPEED * ctx.dt }) := by
  refine ⟨?_, ?_, ?_, ?_⟩
  · intro htype hpass hsc hcross
    have hcoll : checkCollision st.bird { p0 with x := p0.x - PIPE_SPEED * ctx.dt }
        = false := checkCollision_far st.bird _ hcross
    simp only [processPipePlaying, hcoll, Bool.false_eq_true, if_false]
    rw [if_pos ⟨hpass, hcross⟩, if_pos htype, if_pos hsc, answerCheck_far]
    · exact ⟨rfl, rfl, rfl, rfl, rfl⟩
    · exact lt_asymm hcross
  · intro htype hpass hsc hcross
    have hcoll : checkCollision st.bird { p0 with x := p0.x - PIPE_SPEED * ctx.dt }
        = false := checkCollision_far st.bird _ hcross
    simp only [processPipePreview, hcoll, Bool.false_eq_true, if_false]
    rw [if_pos ⟨htype, hpass, hcross⟩, if_pos hsc]
    exact ⟨rfl, rfl, rfl, rfl⟩
  · intro hpass hcross
    have hcoll : checkCollision st.bird { p0 with x := p0.x - PIPE_SPEED * ctx.dt }
        = false := checkCollision_far st.bird _ hcross
    simp only [processPipePlaying, hcoll, Bool.false_eq_true, if_false]
    rw [if_neg (fun hcon => by rw [hpass] at hcon; simp at hcon),
      answerCheck_far]
    · exact ⟨rfl, rfl⟩
    · exact lt_asymm hcross
  · intro hpass hcross
    have hcoll : checkCollision st.bird { p0 with x := p0.x - PIPE_SPEED * ctx.dt }
        = false := checkCollision_far st.bird _ hcross
    simp only [processPipePreview, hcoll, Bool.false_eq_true, if_false]
    rw [if_neg (fun hcon => by rw [hpass] at hcon; simp at hcon)]
    exact ⟨rfl, rfl⟩

theorem C6_plain_pass_idempotent_witness :
    (processPipePlaying sampleCtx sampleYesSlotSt
      { createNormalPipe 0 with x := -10 }).1.displayScore
      = sampleYesSlotSt.displayScore + 1 ∧
    (processPipePlaying sampleCtx sampleYesSlotSt
      { createNormalPipe 0 with x := -10 }).2.1.scored = true ∧
    (processPipePlaying sampleCtx sampleYesSlotSt
      { createNormalPipe 0 with x := -10, passed := true }).1 = sampleYesSlotSt := by
  obtain ⟨h1, -, h3, -⟩ := C6_plain_pass_idempotent sampleCtx sampleYesSlotSt
    { createNormalPipe 0 with x := -10 }
  obtain ⟨a1, -, -, a4, -⟩ := h1 rfl rfl rfl (by with_unfolding_all decide)
  refine ⟨a1, a4, ?_⟩
  obtain ⟨h1', -, h3', -⟩ := C6_plain_pass_idempotent sampleCtx sampleYesSlotSt
    { createNormalPipe 0 with x := -10, passed := true }
  exact (h3' rfl (by with_unfolding_all decide)).1

/-! ### Reachability induction infrastructure -/

theorem validSeq_cons {lb : ℚ} {e : Input} {evs : List Input}
    (h : validSeq lb (e :: evs) = true) :
    lb ≤ e.time ∧ (∀ t r, e = .tick t r → 0 ≤ r ∧ r < 1)
      ∧ validSeq e.time evs = true := by
  unfold validSeq at h
  rw [Bool.and_eq_true, Bool.and_eq_true] at h
  obtain ⟨⟨h1, h2⟩, h3⟩ := h
  refine ⟨of_decide_eq_true h1, ?_, h3⟩
  intro t r he
  subst he
  exact of_decide_eq_true h2

theorem clickFn_lastFrameTime (cfg : Config) (s : Sys) (t : ℚ) :
    (clickFn cfg s t).lastFrameTime = s.lastFrameTime := by
  rcases s with ⟨⟨ph, b, ps, ci, qi, sc, ds, pq, ca, sp, pst, fc, qp⟩, lf, lj⟩
  cases ph
  all_goals simp only [clickFn, jumpFn]
  all_goals first
    | rfl
    | (split <;> first | rfl | (split <;> rfl))

theorem run_cons (cfg : Config) (s : Sys) (e : Input) (evs : List Input) :
    run cfg s (e :: evs) = run cfg (step cfg s e) evs := rfl

/-- Invariant induction over a valid run.  The tick hypothesis may use the
host-clock monotonicity (`lastFrameTime ≤ t`, hence `0 ≤ dt`) and the
`Math.random` range. -/
theorem run_inv (cfg : Config) (P : Sys → Prop)
    (htick : ∀ s t rand, P s → s.lastFrameTime ≤ t → 0 ≤ rand → rand < 1 →
      P (tickFn cfg s t rand))
    (hclick : ∀ s t, P s → P (clickFn cfg s t)) :
    ∀ (evs : List Input) (lb : ℚ) (s : Sys), validSeq lb evs = true → P s →
      s.lastFrameTime ≤ lb → P (run cfg s evs) := by
  intro evs
  induction evs with
  | nil => intro lb s _ hP _; exact hP
  | cons e rest ih =>
    intro lb s hval hP hlf
    obtain ⟨h1, h2, h3⟩ := validSeq_cons hval
    rw [run_cons]
    cases e with
    | tick t r =>
      obtain ⟨hr0, hr1⟩ := h2 t r rfl
      exact ih t _ h3
        (htick s t r hP (le_trans hlf h1) hr0 hr1) (le_of_eq rfl)
    | click t =>
      refine ih t _ h3 (hclick s t hP) ?_
      rw [show step cfg s (Input.click t) = clickFn cfg s t from rfl,
        clickFn_lastFrameTime]
      exact le_trans hlf h1

theorem reachable_inv (cfg : Config) (P : Sys → Prop)
    (hinit : ∀ t0, 0 ≤ t0 → P (initSys cfg t0))
    (htick : ∀ s t rand, P s → s.lastFrameTime ≤ t → 0 ≤ rand → rand < 1 →
      P (tickFn cfg s t rand))
    (hclick : ∀ s t, P s → P (clickFn cfg s t)) :
    ∀ s, Reachable cfg s → P s := by
  rintro s ⟨t0, evs, ht0, hval, rfl⟩
  exact run_inv cfg P htick hclick evs t0 _ hval (hinit t0 ht0) ht0

/-! ### Effect lemmas for loop bodies and phase steps -/

theorem answerCheck_score_cases (ctx : TickCtx) (st : GameState) (p : Pipe) :
    ((answerCheck ctx st p).1.score = st.score ∨
      (answerCheck ctx st p).1.score = incScore st.score st.chapterIndex) ∧
    (answerCheck ctx st p).1.chapterIndex = st.chapterIndex ∧
    (answerCheck ctx st p).1.questionIndex = st.questionIndex ∧
    (answerCheck ctx st p).1.phase = st.phase ∧
    (answerCheck ctx st p).1.pipesSinceLastQuestion = st.pipesSinceLastQuestion ∧
    (answerCheck ctx st p).1.pipes = st.pipes ∧
    (answerCheck ctx st p).1.bird = st.bird := by
  unfold answerCheck incScore incCorrect
  repeat' split
  all_goals (repeat' split)
  all_goals try simp
  all_goals (repeat' split)
  all_goals try simp

theorem processPipePlaying_effect (ctx : TickCtx) (st : GameState) (p : Pipe) :
    ((processPipePlaying ctx st p).1.score = st.score ∨
      (processPipePlaying ctx st p).1.score = incScore st.score st.chapterIndex) ∧
    (processPipePlaying ctx st p).1.chapterIndex = st.chapterIndex ∧
    (processPipePlaying ctx st p).1.pipes = st.pipes ∧
    (processPipePlaying ctx st p).1.bird = st.bird := by
  simp only [processPipePlaying]
  split
  · exact ⟨Or.inl rfl, rfl, rfl, rfl⟩
  · split
    · split
      · split
        · have h := answerCheck_score_cases ctx
            { st with
              displayScore := st.displayScore + 1
              pipesSinceLastQuestion := st.pipesSinceLastQuestion + 1 }
            { { p with x := p.x - PIPE_SPEED * ctx.dt } with passed := true, scored := true }
          exact ⟨h.1, h.2.1, h.2.2.2.2.2.1, h.2.2.2.2.2.2⟩
        · have h := answerCheck_score_cases ctx st
            { { p with x := p.x - PIPE_SPEED * ctx.dt } with passed := true }
          exact ⟨h.1, h.2.1, h.2.2.2.2.2.1, h.2.2.2.2.2.2⟩
      · split
        · have h := answerCheck_score_cases ctx
            { st with
              pipesSinceLastQuestion := 0
              currentQuestionActive := false
              questionIndex := st.questionIndex + 1 }
            { { p with x := p.x - PIPE_SPEED * ctx.dt } with passed := true }
          exact ⟨h.1, h.2.1, h.2.2.2.2.2.1, h.2.2.2.2.2.2⟩
        · exact ⟨Or.inl rfl, rfl, rfl, rfl⟩
    · have h := answerCheck_score_cases ctx st { p with x := p.x - PIPE_SPEED * ctx.dt }
      exact ⟨h.1, h.2.1, h.2.2.2.2.2.1, h.2.2.2.2.2.2⟩

theorem processPipePreview_effect (ctx : TickCtx) (st : GameState) (p : Pipe) :
    (processPipePreview ctx st p).1.score = st.score ∧
    (processPipePreview ctx st p).1.chapterIndex = st.chapterIndex ∧
    (processPipePreview ctx st p).1.questionIndex = st.questionIndex ∧
    (processPipePreview ctx st p).1.pipes = st.pipes ∧
    (processPipePreview ctx st p).1.bird = st.bird := by
  simp only [processPipePreview]
  repeat' split
  all_goals try simp
  all_goals (repeat' split)
  all_goals try simp

theorem runPipesPlaying_inv (ctx : TickCtx) (P : GameState → Prop)
    (hstep : ∀ st p, P st → P (processPipePlaying ctx st p).1) :
    ∀ (ps : List Pipe) (st : GameState), P st → P (runPipesPlaying ctx st ps).1 := by
  intro ps
  induction ps with
  | nil => intro st h; exact h
  | cons p rest ih =>
    intro st h
    unfold runPipesPlaying
    have h' := hstep st p h
    rcases hmp : processPipePlaying ctx st p with ⟨st', p', b⟩
    rw [hmp] at h'
    cases b
    · exact ih st' h'
    · exact h'

theorem runPipesPreview_inv (ctx : TickCtx) (P : GameState → Prop)
    (hstep : ∀ st p, P st → P (processPipePreview ctx st p).1) :
    ∀ (ps : List Pipe) (st : GameState), P st → P (runPipesPreview ctx st ps).1 := by
  intro ps
  induction ps with
  | nil => intro st h; exact h
  | cons p rest ih =>
    intro st h
    unfold runPipesPreview
    have h' := hstep st p h
    rcases hmp : processPipePreview ctx st p with ⟨st', p', b⟩
    rw [hmp] at h'
    cases b
    · exact ih st' h'
    · exact h'

/-- Loop invariant with an escape predicate for iterations that `break`:
a break stops the loop, so the break-state `Q` need not be re-entrant. -/
theorem runPipesPlaying_inv_break (ctx : TickCtx) (Ppipe : Pipe → Prop)
    (P Q : GameState → Prop)
    (h1 : ∀ st p, Ppipe p → P st → (processPipePlaying ctx st p).2.2 = false →
      P (processPipePlaying ctx st p).1)
    (h2 : ∀ st p, Ppipe p → P st → (processPipePlaying ctx st p).2.2 = true →
      Q (processPipePlaying ctx st p).1) :
    ∀ (ps : List Pipe) (st : GameState), (∀ p ∈ ps, Ppipe p) → P st →
      P (runPipesPlaying ctx st ps).1 ∨ Q (runPipesPlaying ctx st ps).1 := by
  intro ps
  induction ps with
  | nil => intro st _ h; exact Or.inl h
  | cons p rest ih =>
    intro st hps h
    unfold runPipesPlaying
    rcases hmp : processPipePlaying ctx st p with ⟨st', p', b⟩
    cases b
    · have h' := h1 st p (hps p (List.mem_cons_self p rest)) h (by rw [hmp])
      rw [hmp] at h'
      exact ih st' (fun q hq => hps q (List.mem_cons_of_mem p hq)) h'
    · have h' := h2 st p (hps p (List.mem_cons_self p rest)) h (by rw [hmp])
      rw [hmp] at h'
      exact Or.inr h'

theorem runPipesPreview_inv_pipes (ctx : TickCtx) (Ppipe : Pipe → Prop)
    (P : GameState → Prop)
    (h : ∀ st p, Ppipe p → P st → P (processPipePreview ctx st p).1) :
    ∀ (ps : List Pipe) (st : GameState), (∀ p ∈ ps, Ppipe p) → P st →
      P (runPipesPreview ctx st ps).1 := by
  intro ps
  induction ps with
  | nil => intro st _ hp; exact hp
  | cons p rest ih =>
    intro st hps hp
    unfold runPipesPreview
    rcases hmp : processPipePreview ctx st p with ⟨st', p', b⟩
    have h' := h st p (hps p (List.mem_cons_self p rest)) hp
    rw [hmp] at h'
    cases b
    · exact ih st' (fun q hq => hps q (List.mem_cons_of_mem p hq)) h'
    · exact h'

theorem answerCheck_pipe_fields (ctx : TickCtx) (st : GameState) (p : Pipe) :
    (answerCheck ctx st p).2.passed = p.passed ∧
    (answerCheck ctx st p).2.x = p.x ∧
    (answerCheck ctx st p).2.type = p.type := by
  simp only [answerCheck]
  repeat' split
  all_goals try simp
  all_goals (repeat' split)
  all_goals try simp

theorem processPipePlaying_pipe_type (ctx : TickCtx) (st : GameState) (p : Pipe) :
    (processPipePlaying ctx st p).2.1.type = p.type := by
  simp only [processPipePlaying]
  split
  · rfl
  · split
    · split
      · split
        · exact (answerCheck_pipe_fields ctx
            { st with
              displayScore := st.displayScore + 1
              pipesSinceLastQuestion := st.pipesSinceLastQuestion + 1 }
            { { p with x := p.x - PIPE_SPEED * ctx.dt } with passed := true, scored := true }).2.2
        · exact (answerCheck_pipe_fields ctx st
            { { p with x := p.x - PIPE_SPEED * ctx.dt } with passed := true }).2.2
      · split
        · exact (answerCheck_pipe_fields ctx
            { st with
              pipesSinceLastQuestion := 0
              currentQuestionActive := false
              questionIndex := st.questionIndex + 1 }
            { { p with x := p.x - PIPE_SPEED * ctx.dt } with passed := true }).2.2
        · rfl
    · exact (answerCheck_pipe_fields ctx st { p with x := p.x - PIPE_SPEED * ctx.dt }).2.2

theorem processPipePreview_pipe_type (ctx : TickCtx) (st : GameState) (p : Pipe) :
    (processPipePreview ctx st p).2.1.type = p.type := by
  simp only [processPipePreview]
  repeat' split
  all_goals try simp
  all_goals (repeat' split)
  all_goals try simp

theorem runPipesPlaying_types (ctx : TickCtx) :
    ∀ (ps : List Pipe) (st : GameState),
      ((runPipesPlaying ctx st ps).2).map Pipe.type = ps.map Pipe.type := by
  intro ps
  induction ps with
  | nil => intro st; rfl
  | cons p rest ih =>
    intro st
    unfold runPipesPlaying
    rcases hmp : processPipePlaying ctx st p with ⟨st', p', b⟩
    have htype : p'.type = p.type := by
      have := processPipePlaying_pipe_type ctx st p
      rw [hmp] at this
      exact this
    cases b
    · simp [ih st', htype]
    · simp [htype]

theorem runPipesPreview_types (ctx : TickCtx) :
    ∀ (ps : List Pipe) (st : GameState),
      ((runPipesPreview ctx st ps).2).map Pipe.type = ps.map Pipe.type := by
  intro ps
  induction ps with
  | nil => intro st; rfl
  | cons p rest ih =>
    intro st
    unfold runPipesPreview
    rcases hmp : processPipePreview ctx st p with ⟨st', p', b⟩
    have htype : p'.type = p.type := by
      have := processPipePreview_pipe_type ctx st p
      rw [hmp] at this
      exact this
    cases b
    · simp [ih st', htype]
    · simp [htype]

theorem bumpFrame_fields (n : ℕ) (st : GameState) :
    (bumpFrame n st).score = st.score ∧
    (bumpFrame n st).chapterIndex = st.chapterIndex ∧
    (bumpFrame n st).questionIndex = st.questionIndex ∧
    (bumpFrame n st).phase = st.phase ∧
    (bumpFrame n st).pipes = st.pipes ∧
    (bumpFrame n st).pipesSinceLastQuestion = st.pipesSinceLastQuestion ∧
    (bumpFrame n st).displayScore = st.displayScore ∧
    (bumpFrame n st).bird.y = st.bird.y ∧
    (bumpFrame n st).bird.velocity = st.bird.velocity ∧
    (bumpFrame n st).currentQuestionActive = st.currentQuestionActive ∧
    (bumpFrame n st).phaseStartTime = st.phaseStartTime := by
  simp only [bumpFrame]
  split <;> exact ⟨rfl, rfl, rfl, rfl, rfl, rfl, rfl, rfl, rfl, rfl, rfl⟩

theorem runPlaying_score_aux (ctx : TickCtx) (st0 S : GameState) (ps : List Pipe)
    (h1 : S.chapterIndex = st0.chapterIndex) (h2 : S.score = st0.score) :
    (runPipesPlaying ctx S ps).1.chapterIndex = st0.chapterIndex ∧
    ∃ k, (runPipesPlaying ctx S ps).1.score
      = iterIncScore st0.score st0.chapterIndex k := by
  have hloop := runPipesPlaying_inv ctx
    (fun s => s.chapterIndex = st0.chapterIndex ∧
      ∃ k, s.score = iterIncScore st0.score st0.chapterIndex k)
    (fun s p hp => by
      obtain ⟨hci, k, hk⟩ := hp
      obtain ⟨hsc, hci', -, -⟩ := processPipePlaying_effect ctx s p
      refine ⟨hci'.trans hci, ?_⟩
      rcases hsc with h | h
      · exact ⟨k, h.trans hk⟩
      · exact ⟨k + 1, by rw [h, hk, hci]; rfl⟩)
    ps S ⟨h1, ⟨0, h2⟩⟩
  exact ⟨hloop.1, hloop.2⟩

theorem runPreview_score_aux (ctx : TickCtx) (st0 S : GameState) (ps : List Pipe)
    (h1 : S.chapterIndex = st0.chapterIndex) (h2 : S.score = st0.score) :
    (runPipesPreview ctx S ps).1.chapterIndex = st0.chapterIndex ∧
    (runPipesPreview ctx S ps).1.score = st0.score := by
  exact runPipesPreview_inv ctx
    (fun s => s.chapterIndex = st0.chapterIndex ∧ s.score = st0.score)
    (fun s p hp => by
      obtain ⟨h1, h2, -, -, -⟩ := processPipePreview_effect ctx s p
      exact ⟨h2.trans hp.1, h1.trans hp.2⟩)
    ps S ⟨h1, h2⟩

/-- Within one `playing` tick the chapter index is untouched and the `Score`
aggregate is changed only by zero or more `incScore` steps at that index. -/
theorem stepPlaying_score (ctx : TickCtx) (st : GameState) :
    (stepPlaying ctx st).chapterIndex = st.chapterIndex ∧
    ∃ k, (stepPlaying ctx st).score = iterIncScore st.score st.chapterIndex k := by
  simp only [stepPlaying]
  split
  · exact ⟨rfl, 0, rfl⟩
  · split
    · exact ⟨(bumpFrame_fields 6 _).2.1, 0, (bumpFrame_fields 6 _).1⟩
    · split
      · refine ⟨(runPlaying_score_aux ctx st _ _ ?_ ?_).1,
          (runPlaying_score_aux ctx st _ _ ?_ ?_).2⟩
        · exact (bumpFrame_fields 6 _).2.1
        · exact (bumpFrame_fields 6 _).1
        · exact (bumpFrame_fields 6 _).2.1
        · exact (bumpFrame_fields 6 _).1
      · refine ⟨(runPlaying_score_aux ctx st _ _ ?_ ?_).1,
          (runPlaying_score_aux ctx st _ _ ?_ ?_).2⟩
        · exact (bumpFrame_fields 6 _).2.1
        · exact (bumpFrame_fields 6 _).1
        · exact (bumpFrame_fields 6 _).2.1
        · exact (bumpFrame_fields 6 _).1

/-- A `question_preview` tick never touches the score or the chapter index. -/
theorem stepQuestionPreview_score (ctx : TickCtx) (st : GameState) :
    (stepQuestionPreview ctx st).chapterIndex = st.chapterIndex ∧
    (stepQuestionPreview ctx st).score = st.score := by
  simp only [stepQuestionPreview]
  split
  · exact ⟨rfl, rfl⟩
  · split
    · refine ⟨(runPreview_score_aux ctx st _ _ ?_ ?_).1,
        (runPreview_score_aux ctx st _ _ ?_ ?_).2⟩
      · exact (bumpFrame_fields 6 _).2.1
      · exact (bumpFrame_fields 6 _).1
      · exact (bumpFrame_fields 6 _).2.1
      · exact (bumpFrame_fields 6 _).1
    · refine ⟨(runPreview_score_aux ctx st _ _ ?_ ?_).1,
        (runPreview_score_aux ctx st _ _ ?_ ?_).2⟩
      · exact (bumpFrame_fields 6 _).2.1
      · exact (bumpFrame_fields 6 _).1
      · exact (bumpFrame_fields 6 _).2.1
      · exact (bumpFrame_fields 6 _).1

theorem stepChapterIntro_score (ctx : TickCtx) (st : GameState) :
    (stepChapterIntro ctx st).chapterIndex = st.chapterIndex ∧
    (stepChapterIntro ctx st).score = st.score := by
  simp only [stepChapterIntro]
  split <;> exact ⟨rfl, rfl⟩

theorem stepReadyToPlay_score (cfg : Config) (ctx : TickCtx) (st : GameState) :
    (stepReadyToPlay cfg ctx st).chapterIndex = st.chapterIndex ∧
    (stepReadyToPlay cfg ctx st).score = st.score := by
  simp only [stepReadyToPlay]
  exact ⟨(bumpFrame_fields 8 _).2.1, (bumpFrame_fields 8 _).1⟩

theorem stepAutoFly_score (cfg : Config) (ctx : TickCtx) (st : GameState) :
    (stepAutoFly cfg ctx st).chapterIndex = st.chapterIndex ∧
    (stepAutoFly cfg ctx st).score = st.score := by
  simp only [stepAutoFly]
  split
  · exact ⟨(bumpFrame_fields 5 _).2.1, (bumpFrame_fields 5 _).1⟩
  · exact ⟨(bumpFrame_fields 5 _).2.1, (bumpFrame_fields 5 _).1⟩

/-- Master lemma: one tick leaves `chapterIndex` unchanged and changes the
`Score` aggregate only by `incScore` steps at that index. -/
theorem tickFn_score (cfg : Config) (s : Sys) (t r : ℚ) :
    (tickFn cfg s t r).gs.chapterIndex = s.gs.chapterIndex ∧
    ∃ k, (tickFn cfg s t r).gs.score
      = iterIncScore s.gs.score s.gs.chapterIndex k := by
  unfold tickFn
  rcases hph : s.gs.phase with _ | _ | _ | _ | _ | _ | _ | _ | _
  all_goals simp only [hph]
  · exact ⟨by trivial, 0, by trivial⟩
  · exact ⟨(stepChapterIntro_score _ _).1, 0, (stepChapterIntro_score _ _).2⟩
  · exact ⟨(stepReadyToPlay_score _ _ _).1, 0, (stepReadyToPlay_score _ _ _).2⟩
  · exact ⟨(stepAutoFly_score _ _ _).1, 0, (stepAutoFly_score _ _ _).2⟩
  · exact ⟨(stepPlaying_score _ _).1, (stepPlaying_score _ _).2⟩
  · exact ⟨(stepQuestionPreview_score _ _).1, 0, (stepQuestionPreview_score _ _).2⟩
  · exact ⟨by trivial, 0, by trivial⟩
  · exact ⟨by trivial, 0, by trivial⟩
  · exact ⟨by trivial, 0, by trivial⟩

/-- Master lemma: a primary-action input either leaves the score untouched
(keeping the chapter index, or advancing to a chapter that still exists), or
performs the full-game restart that rebuilds the initial score. -/
theorem clickFn_score (cfg : Config) (s : Sys) (t : ℚ) :
    ((clickFn cfg s t).gs.score = s.gs.score ∧
      ((clickFn cfg s t).gs.chapterIndex = s.gs.chapterIndex ∨
        ((clickFn cfg s t).gs.chapterIndex = s.gs.chapterIndex + 1 ∧
          s.gs.chapterIndex < cfg.chapters.length - 1))) ∨
    ((clickFn cfg s t).gs.score = createInitialScore cfg.chapters ∧
      (clickFn cfg s t).gs.chapterIndex = 0) := by
  rcases s with ⟨⟨ph, b, ps, ci, qi, sc, ds, pq, ca, sp, pst, fc, qp⟩, lf, lj⟩
  cases ph
  all_goals simp only [clickFn, jumpFn]
  · split
    · exact Or.inl ⟨by trivial, Or.inl (by trivial)⟩
    · split
      · exact Or.inl ⟨by trivial, Or.inl (by trivial)⟩
      · exact Or.inl ⟨by trivial, Or.inl (by trivial)⟩
  · split
    · exact Or.inl ⟨by trivial, Or.inl (by trivial)⟩
    · split
      · exact Or.inl ⟨by trivial, Or.inl (by trivial)⟩
      · exact Or.inl ⟨by trivial, Or.inl (by trivial)⟩
  · exact Or.inl ⟨by trivial, Or.inl (by trivial)⟩
  · split
    · exact Or.inl ⟨by trivial, Or.inl (by trivial)⟩
    · split
      · exact Or.inl ⟨by trivial, Or.inl (by trivial)⟩
      · exact Or.inl ⟨by trivial, Or.inl (by trivial)⟩
  · split
    · exact Or.inl ⟨by trivial, Or.inl (by trivial)⟩
    · split
      · exact Or.inl ⟨by trivial, Or.inl (by trivial)⟩
      · exact Or.inl ⟨by trivial, Or.inl (by trivial)⟩
  · split
    · exact Or.inl ⟨by trivial, Or.inl (by trivial)⟩
    · split
      · exact Or.inl ⟨by trivial, Or.inl (by trivial)⟩
      · exact Or.inl ⟨by trivial, Or.inl (by trivial)⟩
  · exact Or.inl ⟨by trivial, Or.inl (by trivial)⟩
  · split
    · next h => exact Or.inl ⟨by trivial, Or.inr ⟨by trivial, h⟩⟩
    · exact Or.inl ⟨by trivial, Or.inl (by trivial)⟩
  · exact Or.inr ⟨by trivial, by trivial⟩

/-! ### Arithmetic over the score structures -/

theorem map_listUpdate {α β : Type} (g : α → β) (f : α → α) (h : ∀ a, g (f a) = g a) :
    ∀ (l : List α) (i : ℕ), (listUpdate f l i).map g = l.map g := by
  intro l
  induction l with
  | nil => intro i; rfl
  | cons a l ih =>
    intro i
    cases i with
    | zero => simp [listUpdate, h]
    | succ n => simp [listUpdate, ih]

theorem listUpdate_length {α : Type} (f : α → α) :
    ∀ (l : List α) (i : ℕ), (listUpdate f l i).length = l.length := by
  intro l
  induction l with
  | nil => intro i; rfl
  | cons a l ih =>
    intro i
    cases i with
    | zero => simp [listUpdate]
    | succ n => simp [listUpdate, ih]

theorem sumCorrect_listUpdate_inc :
    ∀ (l : List ChapterScore) (i : ℕ), i < l.length →
      sumCorrect (listUpdate incCorrect l i) = sumCorrect l + 1 := by
  intro l
  induction l with
  | nil => intro i h; simp at h
  | cons a l ih =>
    intro i h
    cases i with
    | zero => simp [listUpdate, sumCorrect, incCorrect]; omega
    | succ n =>
      have := ih n (by simpa using h)
      simp [listUpdate, sumCorrect] at this ⊢
      omega

theorem iterIncScore_map_total (g : GameScore) (i : ℕ) :
    ∀ k, (iterIncScore g i k).chapterScores.map ChapterScore.total
      = g.chapterScores.map ChapterScore.total := by
  intro k
  induction k with
  | zero => rfl
  | succ k ih =>
    simp only [iterIncScore, incScore]
    rw [map_listUpdate ChapterScore.total incCorrect (fun a => rfl), ih]

theorem iterIncScore_consistent (g : GameScore) (i : ℕ)
    (hlen : i < g.chapterScores.length)
    (hsum : g.totalCorrect = sumCorrect g.chapterScores) :
    ∀ k, (iterIncScore g i k).totalCorrect = sumCorrect (iterIncScore g i k).chapterScores
      ∧ (iterIncScore g i k).chapterScores.length = g.chapterScores.length := by
  intro k
  induction k with
  | zero => exact ⟨hsum, rfl⟩
  | succ k ih =>
    simp only [iterIncScore, incScore]
    constructor
    · rw [sumCorrect_listUpdate_inc _ i (by rw [ih.2]; exact hlen), ih.1]
    · rw [listUpdate_length, ih.2]

theorem createInitialScore_map_total (chs : List Chapter) :
    (createInitialScore chs).chapterScores.map ChapterScore.total
      = chs.map (fun c => c.questions.length) := by
  simp [createInitialScore, List.map_map]

theorem sum_map_zero_nat {α : Type} : ∀ (l : List α), (l.map (fun _ => (0 : ℕ))).sum = 0 := by
  intro l
  induction l with
  | nil => rfl
  | cons a l ih => simp [ih]

theorem createInitialScore_sumCorrect (chs : List Chapter) :
    sumCorrect (createInitialScore chs).chapterScores = 0 := by
  simp only [createInitialScore, sumCorrect, List.map_map]
  exact sum_map_zero_nat chs

/-- C5: when a Question obstacle's trailing edge crosses left of the bird's
leading edge and it was not passed before, the obstacles-since-last-question
counter is reset to 0 and the active-question flag is cleared; if the
question was not the chapter's last, `questionIndex` advances by 1 and the
phase is unchanged, otherwise the phase becomes `chapter_complete` with the
score untouched.  Moreover, in every reachable state each chapter's `total`
equals that chapter's question count (so the chapter shown complete reports
`total` = its question count). -/
theorem C5_question_pass_bookkeeping :
    (∀ (ctx : TickCtx) (st : GameState) (p0 : Pipe),
      p0.type = PipeType.question → p0.passed = false →
      p0.x - PIPE_SPEED * ctx.dt + PIPE_WIDTH < BIRD_LEFT →
      (processPipePlaying ctx st p0).1.pipesSinceLastQuestion = 0 ∧
      (processPipePlaying ctx st p0).1.currentQuestionActive = false ∧
      (processPipePlaying ctx st p0).2.1.passed = true ∧
      (st.questionIndex < questionsLen ctx.currentChapter - 1 →
        (processPipePlaying ctx st p0).1.questionIndex = st.questionIndex + 1 ∧
        (processPipePlaying ctx st p0).1.phase = st.phase ∧
        (processPipePlaying ctx st p0).2.2 = false) ∧
      (¬ st.questionIndex < questionsLen ctx.currentChapter - 1 →
        (processPipePlaying ctx st p0).1.phase = GamePhase.chapter_complete ∧
        (processPipePlaying ctx st p0).1.questionIndex = st.questionIndex ∧
        (processPipePlaying ctx st p0).1.score = st.score ∧
        (processPipePlaying ctx st p0).2.2 = true)) ∧
    (∀ (cfg : Config) (s : Sys), Reachable cfg s →
      s.gs.score.chapterScores.map ChapterScore.total
        = cfg.chapters.map (fun c => c.questions.length)) := by
  constructor
  · intro ctx st p0 htype hpass hcross
    have hcoll : checkCollision st.bird { p0 with x := p0.x - PIPE_SPEED * ctx.dt }
        = false := checkCollision_far st.bird _ hcross
    have hnotnormal : ¬ ({ p0 with x := p0.x - PIPE_SPEED * ctx.dt } : Pipe).type
        = PipeType.normal := by simp [htype]
    simp only [processPipePlaying, hcoll, Bool.false_eq_true, if_false]
    rw [if_pos ⟨hpass, hcross⟩, if_neg hnotnormal]
    by_cases hq : st.questionIndex < questionsLen ctx.currentChapter - 1
    · rw [if_pos hq, answerCheck_far]
      · exact ⟨rfl, rfl, rfl,
          fun _ => ⟨rfl, rfl, rfl⟩,
          fun hn => absurd hq hn⟩
      · exact lt_asymm hcross
    · rw [if_neg hq]
      exact ⟨rfl, rfl, rfl,
        fun hy => absurd hy hq,
        fun _ => ⟨rfl, rfl, rfl, rfl⟩⟩
  · intro cfg s hreach
    refine reachable_inv cfg
      (fun s => s.gs.score.chapterScores.map ChapterScore.total
        = cfg.chapters.map (fun c => c.questions.length)) ?_ ?_ ?_ s hreach
    · intro t0 _
      exact createInitialScore_map_total cfg.chapters
    · intro s t rand hP _ _ _
      obtain ⟨-, k, hk⟩ := tickFn_score cfg s t rand
      rw [hk, iterIncScore_map_total, hP]
    · intro s t hP
      rcases clickFn_score cfg s t with ⟨hsc, -⟩ | ⟨hsc, -⟩
      · rw [hsc, hP]
      · rw [hsc]
        exact createInitialScore_map_total cfg.chapters

theorem C5_question_pass_bookkeeping_witness :
    (processPipePlaying sampleCtx sampleYesSlotSt
      { createQuestionPipe with x := -10 }).1.pipesSinceLastQuestion = 0 ∧
    (processPipePlaying sampleCtx sampleYesSlotSt
      { createQuestionPipe with x := -10 }).1.phase = GamePhase.chapter_complete ∧
    (initSys sampleCfg 0).gs.score.chapterScores.map ChapterScore.total
      = sampleCfg.chapters.map (fun c => c.questions.length) := by
  obtain ⟨h1, h2⟩ := C5_question_pass_bookkeeping
  obtain ⟨ha, -, -, -, hb⟩ := h1 sampleCtx sampleYesSlotSt
    { createQuestionPipe with x := -10 } rfl rfl (by with_unfolding_all decide)
  refine ⟨ha, (hb (by with_unfolding_all decide)).1, ?_⟩
  exact h2 sampleCfg (initSys sampleCfg 0) ⟨0, [], le_refl 0, rfl, rfl⟩

/-- C10: in every reachable state, `score.totalCorrect` equals the sum over
all chapters of `score.chapterScores[i].correct` (every correct-answer event
increments a per-chapter counter and `totalCorrect` together, and the
restart rebuilds both from zero). -/
theorem C10_score_consistency (cfg : Config) (s : Sys)
    (hne : cfg.chapters ≠ []) (hreach : Reachable cfg s) :
    s.gs.score.totalCorrect = sumCorrect s.gs.score.chapterScores := by
  refine (reachable_inv cfg
    (fun s => (s.gs.score.totalCorrect = sumCorrect s.gs.score.chapterScores
      ∧ s.gs.score.chapterScores.length = cfg.chapters.length)
      ∧ s.gs.chapterIndex < cfg.chapters.length) ?_ ?_ ?_ s hreach).1.1
  · intro t0 _
    refine ⟨⟨?_, by simp [initSys, createInitialScore]⟩, ?_⟩
    · show (createInitialScore cfg.chapters).totalCorrect
        = sumCorrect (createInitialScore cfg.chapters).chapterScores
      rw [createInitialScore_sumCorrect]
      rfl
    · exact List.length_pos.2 hne
  · intro s t rand hP hlf hr0 hr1
    obtain ⟨hci, k, hk⟩ := tickFn_score cfg s t rand
    obtain ⟨⟨hsum, hlen⟩, hidx⟩ := hP
    have h := iterIncScore_consistent s.gs.score s.gs.chapterIndex
      (by rw [hlen]; exact hidx) hsum k
    rw [hk, hci]
    exact ⟨⟨h.1, h.2.trans hlen⟩, hidx⟩
  · intro s t hP
    obtain ⟨⟨hsum, hlen⟩, hidx⟩ := hP
    rcases clickFn_score cfg s t with ⟨hsc, hci | ⟨hci, hbound⟩⟩ | ⟨hsc, hci⟩
    · rw [hsc, hci]
      exact ⟨⟨hsum, hlen⟩, hidx⟩
    · rw [hsc, hci]
      refine ⟨⟨hsum, hlen⟩, ?_⟩
      omega
    · rw [hsc, hci]
      refine ⟨⟨?_, by simp [createInitialScore]⟩, ?_⟩
      · rw [createInitialScore_sumCorrect]
        rfl
      · exact List.length_pos.2 hne

/-! ### Physics helpers for C9 -/

theorem runPlaying_bird_aux (ctx : TickCtx) (st0 S : GameState) (ps : List Pipe)
    (h : S.bird = st0.bird) : (runPipesPlaying ctx S ps).1.bird = st0.bird :=
  runPipesPlaying_inv ctx (fun s => s.bird = st0.bird)
    (fun s p hp => ((processPipePlaying_effect ctx s p).2.2.2).trans hp) ps S h

theorem runPreview_bird_aux (ctx : TickCtx) (st0 S : GameState) (ps : List Pipe)
    (h : S.bird = st0.bird) : (runPipesPreview ctx S ps).1.bird = st0.bird :=
  runPipesPreview_inv ctx (fun s => s.bird = st0.bird)
    (fun s p hp => ((processPipePreview_effect ctx s p).2.2.2.2).trans hp) ps S h

theorem stepPlaying_bird (ctx : TickCtx) (st : GameState) :
    (stepPlaying ctx st).bird.velocity = st.bird.velocity + GRAVITY * ctx.dt ∧
    (stepPlaying ctx st).bird.y
      = st.bird.y + (st.bird.velocity + GRAVITY * ctx.dt) * ctx.dt := by
  simp only [stepPlaying]
  split
  · exact ⟨rfl, rfl⟩
  · split
    · exact ⟨by rw [(bumpFrame_fields 6 _).2.2.2.2.2.2.2.2.1],
        by rw [(bumpFrame_fields 6 _).2.2.2.2.2.2.2.1]⟩
    · split
      · exact ⟨(congrArg Bird.velocity
            (runPlaying_bird_aux ctx _ _ _ rfl)).trans
            ((bumpFrame_fields 6 _).2.2.2.2.2.2.2.2.1),
          (congrArg Bird.y
            (runPlaying_bird_aux ctx _ _ _ rfl)).trans
            ((bumpFrame_fields 6 _).2.2.2.2.2.2.2.1)⟩
      · exact ⟨(congrArg Bird.velocity
            (runPlaying_bird_aux ctx _ _ _ rfl)).trans
            ((bumpFrame_fields 6 _).2.2.2.2.2.2.2.2.1),
          (congrArg Bird.y
            (runPlaying_bird_aux ctx _ _ _ rfl)).trans
            ((bumpFrame_fields 6 _).2.2.2.2.2.2.2.1)⟩

theorem stepQuestionPreview_bird (ctx : TickCtx) (st : GameState) :
    (stepQuestionPreview ctx st).bird.velocity = st.bird.velocity + GRAVITY * ctx.dt ∧
    (stepQuestionPreview ctx st).bird.y
      = st.bird.y + (st.bird.velocity + GRAVITY * ctx.dt) * ctx.dt := by
  simp only [stepQuestionPreview]
  split
  · exact ⟨rfl, rfl⟩
  · split
    · exact ⟨(congrArg Bird.velocity
          (runPreview_bird_aux ctx _ _ _ rfl)).trans
          ((bumpFrame_fields 6 _).2.2.2.2.2.2.2.2.1),
        (congrArg Bird.y
          (runPreview_bird_aux ctx _ _ _ rfl)).trans
          ((bumpFrame_fields 6 _).2.2.2.2.2.2.2.1)⟩
    · exact ⟨(congrArg Bird.velocity
          (runPreview_bird_aux ctx _ _ _ rfl)).trans
          ((bumpFrame_fields 6 _).2.2.2.2.2.2.2.2.1),
        (congrArg Bird.y
          (runPreview_bird_aux ctx _ _ _ rfl)).trans
          ((bumpFrame_fields 6 _).2.2.2.2.2.2.2.1)⟩

theorem tickFn_bird_flight (cfg : Config) (s : Sys) (t r : ℚ)
    (h : s.gs.phase = GamePhase.playing ∨ s.gs.phase = GamePhase.question_preview) :
    (tickFn cfg s t r).gs.bird.velocity
      = s.gs.bird.velocity + GRAVITY
        * min ((t - (if s.lastFrameTime = 0 then t else s.lastFrameTime)) / FRAME_MS)
            MAX_DELTA_TIME ∧
    (tickFn cfg s t r).gs.bird.y
      = s.gs.bird.y + (s.gs.bird.velocity + GRAVITY
          * min ((t - (if s.lastFrameTime = 0 then t else s.lastFrameTime)) / FRAME_MS)
              MAX_DELTA_TIME)
        * min ((t - (if s.lastFrameTime = 0 then t else s.lastFrameTime)) / FRAME_MS)
            MAX_DELTA_TIME := by
  rcases h with h | h
  · simp only [tickFn, h]
    exact ⟨(stepPlaying_bird _ _).1, (stepPlaying_bird _ _).2⟩
  · simp only [tickFn, h]
    exact ⟨(stepQuestionPreview_bird _ _).1, (stepQuestionPreview_bird _ _).2⟩

theorem physIterN_yv (dt : ℚ) :
    ∀ (N : ℕ) (b b' : Bird), b.y = b'.y → b.velocity = b'.velocity →
      (physIterN dt b N).y = (physIterN dt b' N).y ∧
      (physIterN dt b N).velocity = (physIterN dt b' N).velocity := by
  intro N
  induction N with
  | zero => intro b b' hy hv; exact ⟨hy, hv⟩
  | succ n ih =>
    intro b b' hy hv
    obtain ⟨hy', hv'⟩ := ih b b' hy hv
    simp only [physIterN, physStep]
    exact ⟨by rw [hy', hv'], by rw [hv']⟩

theorem physIterN_succ_front (dt : ℚ) :
    ∀ (N : ℕ) (b : Bird), physIterN dt (physStep dt b) N = physIterN dt b (N + 1) := by
  intro N
  induction N with
  | zero => intro b; rfl
  | succ n ih =>
    intro b
    show physStep dt (physIterN dt (physStep dt b) n) = _
    rw [ih b]
    rfl

theorem physIterN_closed (dt : ℚ) (b : Bird) (h : b.velocity = 0) :
    ∀ N : ℕ, (physIterN dt b N).velocity = GRAVITY * dt * N ∧
      (physIterN dt b N).y = b.y + GRAVITY * dt ^ 2 * (N * (N + 1)) / 2 := by
  intro N
  induction N with
  | zero =>
    refine ⟨by simp [physIterN, h], ?_⟩
    show b.y = _
    push_cast
    ring
  | succ n ih =>
    obtain ⟨ihv, ihy⟩ := ih
    constructor
    · show (physStep dt (physIterN dt b n)).velocity = _
      simp only [physStep]
      rw [ihv]
      push_cast
      ring
    · show (physStep dt (physIterN dt b n)).y = _
      simp only [physStep]
      rw [ihy, ihv]
      push_cast
      ring

theorem tickTimes_succ (start gap : ℚ) (n : ℕ) :
    tickTimes start gap (n + 1)
      = Input.tick (start + gap) 0 :: tickTimes (start + gap) gap n := by
  simp only [tickTimes, List.range_succ_eq_map, List.map_cons, List.map_map,
    List.cons.injEq]
  refine ⟨by push_cast; ring_nf, ?_⟩
  refine List.map_congr_left ?_
  intro i _
  simp only [Function.comp_apply, Input.tick.injEq, and_true]
  push_cast
  ring

/-- Over `N` evenly spaced ticks that all stay in `playing` with no input,
the bird evolves exactly like `N` iterations of the physics step at the
clamped delta. -/
theorem run_ticks_physics (cfg : Config) :
    ∀ (N : ℕ) (s : Sys) (start gap : ℚ),
      s.lastFrameTime = start → 0 < start → 0 ≤ gap →
      (∀ i, i < N → (run cfg s ((tickTimes start gap N).take i)).gs.phase
        = GamePhase.playing) →
      (run cfg s (tickTimes start gap N)).gs.bird.velocity
        = (physIterN (min (gap / FRAME_MS) MAX_DELTA_TIME) s.gs.bird N).velocity ∧
      (run cfg s (tickTimes start gap N)).gs.bird.y
        = (physIterN (min (gap / FRAME_MS) MAX_DELTA_TIME) s.gs.bird N).y := by
  intro N
  induction N with
  | zero => intro s start gap _ _ _ _; exact ⟨rfl, rfl⟩
  | succ n ih =>
    intro s start gap hlf hstart hgap hphase
    have hph : s.gs.phase = GamePhase.playing := by
      have := hphase 0 (Nat.succ_pos n)
      simpa [run] using this
    have hlfne : s.lastFrameTime ≠ 0 := by rw [hlf]; exact ne_of_gt hstart
    have hdt : min ((start + gap - (if s.lastFrameTime = 0 then start + gap
        else s.lastFrameTime)) / FRAME_MS) MAX_DELTA_TIME
        = min (gap / FRAME_MS) MAX_DELTA_TIME := by
      rw [if_neg hlfne, hlf]
      ring_nf
    have hbird := tickFn_bird_flight cfg s (start + gap) 0 (Or.inl hph)
    rw [hdt] at hbird
    have hstep1 : run cfg s ((tickTimes start gap (n + 1)).take 1)
        = tickFn cfg s (start + gap) 0 := by
      rw [tickTimes_succ]
      rfl
    have hphase' : ∀ i, i < n →
        (run cfg (tickFn cfg s (start + gap) 0)
          ((tickTimes (start + gap) gap n).take i)).gs.phase = GamePhase.playing := by
      intro i hi
      have := hphase (i + 1) (Nat.succ_lt_succ hi)
      rw [tickTimes_succ] at this
      exact this
    have hih := ih (tickFn cfg s (start + gap) 0) (start + gap) gap rfl
      (by linarith) hgap hphase'
    rw [tickTimes_succ, run_cons]
    have hyv := physIterN_yv (min (gap / FRAME_MS) MAX_DELTA_TIME) n
      (tickFn cfg s (start + gap) 0).gs.bird
      (physStep (min (gap / FRAME_MS) MAX_DELTA_TIME) s.gs.bird)
      (by rw [hbird.2]; rfl) (by rw [hbird.1]; rfl)
    constructor
    · rw [show step cfg s (Input.tick (start + gap) 0) = tickFn cfg s (start + gap) 0
        from rfl, hih.1, hyv.2, physIterN_succ_front]
    · rw [show step cfg s (Input.tick (start + gap) 0) = tickFn cfg s (start + gap) 0
        from rfl, hih.2, hyv.1, physIterN_succ_front]

/-- C9: each tick in a flight-permitting phase (`playing` or
`question_preview`) updates `velocity += GRAVITY * dt` and then
`y += velocity * dt`, with `dt = min ((now - lastFrame) / FRAME_MS)
MAX_DELTA_TIME`; consequently, over `N` evenly spaced ticks from rest with
no input, the position equals the exact closed-form discrete integration of
constant gravity — no drift at all (the rational model is exact). -/
theorem C9_physics_integration :
    (∀ (cfg : Config) (s : Sys) (t r : ℚ),
      s.gs.phase = GamePhase.playing ∨ s.gs.phase = GamePhase.question_preview →
      (tickFn cfg s t r).gs.bird.velocity
        = s.gs.bird.velocity + GRAVITY
          * min ((t - (if s.lastFrameTime = 0 then t else s.lastFrameTime)) / FRAME_MS)
              MAX_DELTA_TIME ∧
      (tickFn cfg s t r).gs.bird.y
        = s.gs.bird.y + (s.gs.bird.velocity + GRAVITY
            * min ((t - (if s.lastFrameTime = 0 then t else s.lastFrameTime)) / FRAME_MS)
                MAX_DELTA_TIME)
          * min ((t - (if s.lastFrameTime = 0 then t else s.lastFrameTime)) / FRAME_MS)
              MAX_DELTA_TIME) ∧
    (∀ (cfg : Config) (s : Sys) (start gap : ℚ) (N : ℕ),
      s.lastFrameTime = start → 0 < start → 0 ≤ gap →
      s.gs.bird.velocity = 0 →
      (∀ i, i < N → (run cfg s ((tickTimes start gap N).take i)).gs.phase
        = GamePhase.playing) →
      (run cfg s (tickTimes start gap N)).gs.bird.y
        = s.gs.bird.y + GRAVITY * (min (gap / FRAME_MS) MAX_DELTA_TIME) ^ 2
            * (N * (N + 1)) / 2) := by
  constructor
  · exact fun cfg s t r h => tickFn_bird_flight cfg s t r h
  · intro cfg s start gap N hlf hstart hgap hv0 hphase
    have h := run_ticks_physics cfg N s start gap hlf hstart hgap hphase
    rw [h.2, (physIterN_closed _ s.gs.bird hv0 N).2]

set_option maxRecDepth 100000 in
theorem C9_physics_integration_witness :
    (tickFn sampleCfg samplePhysicsSys 125 0).gs.bird.velocity = 3/4 ∧
    (run sampleCfg samplePhysicsSys (tickTimes 100 25 2)).gs.bird.y = 214 + 3/8 := by
  constructor
  · have h1 := (C9_physics_integration.1 sampleCfg samplePhysicsSys 125 0 (Or.inl rfl)).1
    rw [h1]
    with_unfolding_all decide
  · have h2 := C9_physics_integration.2 sampleCfg samplePhysicsSys 100 25 2 rfl
      (by norm_num) (by norm_num) rfl (by with_unfolding_all decide)
    rw [h2]
    with_unfolding_all decide

theorem C10_score_consistency_witness :
    (initSys sampleCfg 0).gs.score.totalCorrect
      = sumCorrect (initSys sampleCfg 0).gs.score.chapterScores :=
  C10_score_consistency sampleCfg (initSys sampleCfg 0)
    (by simp [sampleCfg]) ⟨0, [], le_refl 0, rfl, rfl⟩

/-! ### C3: in a one-chapter one-question game no Plain pipe ever spawns -/

theorem mem_of_map_types {ps ps' : List Pipe}
    (h : ps'.map Pipe.type = ps.map Pipe.type)
    (hq : ∀ p ∈ ps, p.type = PipeType.question) :
    ∀ p ∈ ps', p.type = PipeType.question := by
  intro p hp
  have h1 : p.type ∈ ps'.map Pipe.type := List.mem_map_of_mem Pipe.type hp
  rw [h] at h1
  obtain ⟨q, hq', he⟩ := List.mem_map.mp h1
  rw [← he]
  exact hq q hq'

theorem filterOnScreen_subset (ps : List Pipe) : ∀ p ∈ filterOnScreen ps, p ∈ ps := by
  intro p hp
  exact (List.mem_filter.mp hp).1

/-- Case analysis of the `playing` loop body on a Question pipe when the
current chapter has exactly one question: either the body does not break and
leaves counter, indices and phase alone, or it breaks with a collision
(`game_over`, counter kept) or with the chapter-complete transition. -/
theorem processPipePlaying_question_cases (ctx : TickCtx) (st : GameState) (p : Pipe)
    (hq : p.type = PipeType.question) (hqi : st.questionIndex = 0)
    (hlen : questionsLen ctx.currentChapter = 1) :
    ((processPipePlaying ctx st p).2.2 = false ∧
      (processPipePlaying ctx st p).1.pipesSinceLastQuestion = st.pipesSinceLastQuestion ∧
      (processPipePlaying ctx st p).1.questionIndex = st.questionIndex ∧
      (processPipePlaying ctx st p).1.chapterIndex = st.chapterIndex ∧
      (processPipePlaying ctx st p).1.phase = st.phase) ∨
    ((processPipePlaying ctx st p).2.2 = true ∧
      (processPipePlaying ctx st p).1.questionIndex = st.questionIndex ∧
      (processPipePlaying ctx st p).1.chapterIndex = st.chapterIndex ∧
      ((processPipePlaying ctx st p).1.phase = GamePhase.game_over ∧
        (processPipePlaying ctx st p).1.pipesSinceLastQuestion
          = st.pipesSinceLastQuestion ∨
        (processPipePlaying ctx st p).1.phase = GamePhase.chapter_complete)) := by
  simp only [processPipePlaying]
  split
  · exact Or.inr ⟨rfl, rfl, rfl, Or.inl ⟨rfl, rfl⟩⟩
  · split
    · split
      · next hn =>
        have hn' : p.type = PipeType.normal := hn
        rw [hq] at hn'
        exact PipeType.noConfusion hn'
      · split
        · next hlt =>
          have hlt' : st.questionIndex < questionsLen ctx.currentChapter - 1 := hlt
          rw [hqi, hlen] at hlt'
          exact absurd hlt' (by decide)
        · exact Or.inr ⟨rfl, rfl, rfl, Or.inr rfl⟩
    · have h := answerCheck_score_cases ctx st { p with x := p.x - PIPE_SPEED * ctx.dt }
      exact Or.inl ⟨rfl, h.2.2.2.2.1, h.2.2.1, h.2.1, h.2.2.2.1⟩

/-- The `question_preview` loop body never touches the counter or the
indices for a Question pipe, and can change the phase only to `game_over`. -/
theorem processPipePreview_question_frame (ctx : TickCtx) (st : GameState) (p : Pipe)
    (hq : p.type = PipeType.question) :
    (processPipePreview ctx st p).1.pipesSinceLastQuestion = st.pipesSinceLastQuestion ∧
    (processPipePreview ctx st p).1.questionIndex = st.questionIndex ∧
    (processPipePreview ctx st p).1.chapterIndex = st.chapterIndex ∧
    ((processPipePreview ctx st p).1.phase = st.phase ∨
      (processPipePreview ctx st p).1.phase = GamePhase.game_over) := by
  simp only [processPipePreview]
  split
  · exact ⟨rfl, rfl, rfl, Or.inr rfl⟩
  · split
    · next hn =>
      have hn' : p.type = PipeType.normal := hn.1
      rw [hq] at hn'
      exact PipeType.noConfusion hn'
    · exact ⟨rfl, rfl, rfl, Or.inl rfl⟩

theorem C3_frame_aux (st0 S : GameState) (ph : GamePhase)
    (e1 : S.pipes = st0.pipes) (e2 : S.questionIndex = st0.questionIndex)
    (e3 : S.chapterIndex = st0.chapterIndex)
    (e4 : S.pipesSinceLastQuestion = st0.pipesSinceLastQuestion)
    (hA : ∀ p ∈ st0.pipes, p.type = PipeType.question)
    (hqi : st0.questionIndex = 0) (hci : st0.chapterIndex = 0)
    (hcnt : st0.pipesSinceLastQuestion = NORMAL_PIPES_BETWEEN_QUESTIONS) :
    (∀ p ∈ S.pipes, p.type = PipeType.question) ∧ S.questionIndex = 0 ∧
    S.chapterIndex = 0 ∧
    (activePhase ph = true →
      S.pipesSinceLastQuestion = NORMAL_PIPES_BETWEEN_QUESTIONS) :=
  ⟨fun p hp => hA p (e1 ▸ hp), e2.trans hqi, e3.trans hci, fun _ => e4.trans hcnt⟩

/-- Loop, deletion filter and bookkeeping of the `playing` tick preserve the
`onlyQuestions` data when every pipe on screen is a Question pipe and the
chapter has exactly one question. -/
theorem stepPlayingBody_C3 (ctx : TickCtx) (st0 S : GameState)
    (hlen : questionsLen ctx.currentChapter = 1)
    (e1 : S.pipes = st0.pipes) (e2 : S.questionIndex = 0) (e3 : S.chapterIndex = 0)
    (e4 : S.pipesSinceLastQuestion = NORMAL_PIPES_BETWEEN_QUESTIONS)
    (hA : ∀ p ∈ st0.pipes, p.type = PipeType.question) :
    (∀ p ∈ filterOnScreen (runPipesPlaying ctx S S.pipes).2, p.type = PipeType.question) ∧
    (runPipesPlaying ctx S S.pipes).1.questionIndex = 0 ∧
    (runPipesPlaying ctx S S.pipes).1.chapterIndex = 0 ∧
    (activePhase (runPipesPlaying ctx S S.pipes).1.phase = true →
      (runPipesPlaying ctx S S.pipes).1.pipesSinceLastQuestion
        = NORMAL_PIPES_BETWEEN_QUESTIONS) := by
  have hpsq : ∀ p ∈ S.pipes, p.type = PipeType.question := fun p hp => hA p (e1 ▸ hp)
  have hloop := runPipesPlaying_inv_break ctx (fun p => p.type = PipeType.question)
    (fun s => s.pipesSinceLastQuestion = NORMAL_PIPES_BETWEEN_QUESTIONS ∧
      s.questionIndex = 0 ∧ s.chapterIndex = 0)
    (fun s => s.questionIndex = 0 ∧ s.chapterIndex = 0 ∧
      (s.pipesSinceLastQuestion = NORMAL_PIPES_BETWEEN_QUESTIONS ∨
        s.phase = GamePhase.chapter_complete))
    (fun s p hpq hP hb => by
      rcases processPipePlaying_question_cases ctx s p hpq hP.2.1 hlen with
        ⟨hb', k1, k2, k3, _⟩ | ⟨hb', _⟩
      · exact ⟨k1.trans hP.1, k2.trans hP.2.1, k3.trans hP.2.2⟩
      · exact absurd (hb'.symm.trans hb) (by simp))
    (fun s p hpq hP hb => by
      rcases processPipePlaying_question_cases ctx s p hpq hP.2.1 hlen with
        ⟨hb', _⟩ | ⟨hb', k2, k3, hrest⟩
      · exact absurd (hb'.symm.trans hb) (by simp)
      · refine ⟨k2.trans hP.2.1, k3.trans hP.2.2, ?_⟩
        rcases hrest with ⟨_, k5⟩ | hcc
        · exact Or.inl (k5.trans hP.1)
        · exact Or.inr hcc)
    S.pipes S hpsq ⟨e4, e2, e3⟩
  have htypes := runPipesPlaying_types ctx S.pipes S
  refine ⟨?_, ?_, ?_, ?_⟩
  · intro p hp
    exact mem_of_map_types htypes hpsq p (filterOnScreen_subset _ p hp)
  · rcases hloop with ⟨_, h, _⟩ | ⟨h, _⟩ <;> exact h
  · rcases hloop with ⟨_, _, h⟩ | ⟨_, h, _⟩ <;> exact h
  · intro hact
    rcases hloop with ⟨h, _, _⟩ | ⟨_, _, h | hcc⟩
    · exact h
    · exact h
    · rw [hcc] at hact
      exact Bool.noConfusion hact

/-- The `question_preview` tail (loop, filter, preview-completion spawn)
preserves the `onlyQuestions` data. -/
theorem stepPreviewBody_C3 (ctx : TickCtx) (st0 S : GameState)
    (e1 : S.pipes = st0.pipes) (e2 : S.questionIndex = 0) (e3 : S.chapterIndex = 0)
    (e4 : S.pipesSinceLastQuestion = NORMAL_PIPES_BETWEEN_QUESTIONS)
    (hA : ∀ p ∈ st0.pipes, p.type = PipeType.question) :
    (∀ p ∈ (previewTail ctx S).pipes, p.type = PipeType.question) ∧
    (previewTail ctx S).questionIndex = 0 ∧
    (previewTail ctx S).chapterIndex = 0 ∧
    (activePhase (previewTail ctx S).phase = true →
      (previewTail ctx S).pipesSinceLastQuestion = NORMAL_PIPES_BETWEEN_QUESTIONS) := by
  have hpsq : ∀ p ∈ S.pipes, p.type = PipeType.question := fun p hp => hA p (e1 ▸ hp)
  have hloop := runPipesPreview_inv_pipes ctx (fun p => p.type = PipeType.question)
    (fun s => s.pipesSinceLastQuestion = NORMAL_PIPES_BETWEEN_QUESTIONS ∧
      s.questionIndex = 0 ∧ s.chapterIndex = 0)
    (fun s p hpq hP => by
      obtain ⟨k1, k2, k3, _⟩ := processPipePreview_question_frame ctx s p hpq
      exact ⟨k1.trans hP.1, k2.trans hP.2.1, k3.trans hP.2.2⟩)
    S.pipes S hpsq ⟨e4, e2, e3⟩
  have htypes := runPipesPreview_types ctx S.pipes S
  have hmem : ∀ p ∈ filterOnScreen (runPipesPreview ctx S S.pipes).2,
      p.type = PipeType.question := by
    intro p hp
    exact mem_of_map_types htypes hpsq p (filterOnScreen_subset _ p hp)
  simp only [previewTail]
  split
  · refine ⟨?_, hloop.2.1, hloop.2.2, fun _ => hloop.1⟩
    intro p hp
    rcases List.mem_append.mp hp with h | h
    · exact hmem p h
    · rw [List.mem_singleton.mp h]
      rfl
  · exact ⟨hmem, hloop.2.1, hloop.2.2, fun _ => hloop.1⟩

theorem stepChapterIntro_C3 (ctx : TickCtx) (st : GameState)
    (hA : ∀ p ∈ st.pipes, p.type = PipeType.question)
    (hqi : st.questionIndex = 0) (hci : st.chapterIndex = 0)
    (hcnt : activePhase st.phase = true →
      st.pipesSinceLastQuestion = NORMAL_PIPES_BETWEEN_QUESTIONS) :
    (∀ p ∈ (stepChapterIntro ctx st).pipes, p.type = PipeType.question) ∧
    (stepChapterIntro ctx st).questionIndex = 0 ∧
    (stepChapterIntro ctx st).chapterIndex = 0 ∧
    (activePhase (stepChapterIntro ctx st).phase = true →
      (stepChapterIntro ctx st).pipesSinceLastQuestion
        = NORMAL_PIPES_BETWEEN_QUESTIONS) := by
  simp only [stepChapterIntro]
  split
  · exact ⟨by simp, hqi, hci, fun _ => rfl⟩
  · exact ⟨hA, hqi, hci, hcnt⟩

theorem stepReadyToPlay_C3 (cfg : Config) (ctx : TickCtx) (st : GameState)
    (hA : ∀ p ∈ st.pipes, p.type = PipeType.question)
    (hqi : st.questionIndex = 0) (hci : st.chapterIndex = 0)
    (hc5 : st.pipesSinceLastQuestion = NORMAL_PIPES_BETWEEN_QUESTIONS) :
    (∀ p ∈ (stepReadyToPlay cfg ctx st).pipes, p.type = PipeType.question) ∧
    (stepReadyToPlay cfg ctx st).questionIndex = 0 ∧
    (stepReadyToPlay cfg ctx st).chapterIndex = 0 ∧
    (activePhase (stepReadyToPlay cfg ctx st).phase = true →
      (stepReadyToPlay cfg ctx st).pipesSinceLastQuestion
        = NORMAL_PIPES_BETWEEN_QUESTIONS) := by
  simp only [stepReadyToPlay]
  refine C3_frame_aux st _ _ ?_ ?_ ?_ ?_ hA hqi hci hc5
  · exact (bumpFrame_fields 8 _).2.2.2.2.1
  · exact (bumpFrame_fields 8 _).2.2.1
  · exact (bumpFrame_fields 8 _).2.1
  · exact (bumpFrame_fields 8 _).2.2.2.2.2.1

theorem stepAutoFly_C3 (cfg : Config) (ctx : TickCtx) (st : GameState)
    (hA : ∀ p ∈ st.pipes, p.type = PipeType.question)
    (hqi : st.questionIndex = 0) (hci : st.chapterIndex = 0)
    (hc5 : st.pipesSinceLastQuestion = NORMAL_PIPES_BETWEEN_QUESTIONS) :
    (∀ p ∈ (stepAutoFly cfg ctx st).pipes, p.type = PipeType.question) ∧
    (stepAutoFly cfg ctx st).questionIndex = 0 ∧
    (stepAutoFly cfg ctx st).chapterIndex = 0 ∧
    (activePhase (stepAutoFly cfg ctx st).phase = true →
      (stepAutoFly cfg ctx st).pipesSinceLastQuestion
        = NORMAL_PIPES_BETWEEN_QUESTIONS) := by
  simp only [stepAutoFly]
  split
  · refine ⟨?_, ((bumpFrame_fields 5 _).2.2.1).trans hqi,
      ((bumpFrame_fields 5 _).2.1).trans hci,
      fun _ => ((bumpFrame_fields 5 _).2.2.2.2.2.1).trans hc5⟩
    intro p hp
    rcases List.mem_append.mp hp with hm | hm
    · rw [(bumpFrame_fields 5 _).2.2.2.2.1] at hm
      exact hA p hm
    · rw [List.mem_singleton.mp hm]
      rfl
  · refine C3_frame_aux st _ _ ?_ ?_ ?_ ?_ hA hqi hci hc5
    · exact (bumpFrame_fields 5 _).2.2.2.2.1
    · exact (bumpFrame_fields 5 _).2.2.1
    · exact (bumpFrame_fields 5 _).2.1
    · exact (bumpFrame_fields 5 _).2.2.2.2.2.1

theorem stepPlaying_C3 (ctx : TickCtx) (st : GameState)
    (hlen : questionsLen ctx.currentChapter = 1)
    (hA : ∀ p ∈ st.pipes, p.type = PipeType.question)
    (hqi : st.questionIndex = 0) (hci : st.chapterIndex = 0)
    (hc5 : st.pipesSinceLastQuestion = NORMAL_PIPES_BETWEEN_QUESTIONS) :
    (∀ p ∈ (stepPlaying ctx st).pipes, p.type = PipeType.question) ∧
    (stepPlaying ctx st).questionIndex = 0 ∧
    (stepPlaying ctx st).chapterIndex = 0 ∧
    (activePhase (stepPlaying ctx st).phase = true →
      (stepPlaying ctx st).pipesSinceLastQuestion
        = NORMAL_PIPES_BETWEEN_QUESTIONS) := by
  simp only [stepPlaying]
  split
  · exact ⟨hA, hqi, hci, fun _ => hc5⟩
  · split
    · refine C3_frame_aux st _ _ ?_ ?_ ?_ ?_ hA hqi hci hc5
      · exact (bumpFrame_fields 6 _).2.2.2.2.1
      · exact (bumpFrame_fields 6 _).2.2.1
      · exact (bumpFrame_fields 6 _).2.1
      · exact (bumpFrame_fields 6 _).2.2.2.2.2.1
    · next hpe =>
      split
      · next hsp =>
        exfalso
        refine hpe ⟨?_, hsp.2, ?_⟩
        · rw [(bumpFrame_fields 6 _).2.2.2.2.2.1]
          exact le_of_eq hc5.symm
        · rw [(bumpFrame_fields 6 _).2.2.1]
          have hlt : st.questionIndex < questionsLen ctx.currentChapter := by
            rw [hqi, hlen]
            exact Nat.one_pos
          exact hlt
      · refine stepPlayingBody_C3 _ st _ ?_ ?_ ?_ ?_ ?_ hA
        · exact hlen
        · exact (bumpFrame_fields 6 _).2.2.2.2.1
        · exact ((bumpFrame_fields 6 _).2.2.1).trans hqi
        · exact ((bumpFrame_fields 6 _).2.1).trans hci
        · exact ((bumpFrame_fields 6 _).2.2.2.2.2.1).trans hc5

theorem stepQuestionPreview_C3 (ctx : TickCtx) (st : GameState)
    (hA : ∀ p ∈ st.pipes, p.type = PipeType.question)
    (hqi : st.questionIndex = 0) (hci : st.chapterIndex = 0)
    (hc5 : st.pipesSinceLastQuestion = NORMAL_PIPES_BETWEEN_QUESTIONS) :
    (∀ p ∈ (stepQuestionPreview ctx st).pipes, p.type = PipeType.question) ∧
    (stepQuestionPreview ctx st).questionIndex = 0 ∧
    (stepQuestionPreview ctx st).chapterIndex = 0 ∧
    (activePhase (stepQuestionPreview ctx st).phase = true →
      (stepQuestionPreview ctx st).pipesSinceLastQuestion
        = NORMAL_PIPES_BETWEEN_QUESTIONS) := by
  simp only [stepQuestionPreview]
  split
  · exact ⟨hA, hqi, hci, fun _ => hc5⟩
  · refine stepPreviewBody_C3 _ st _ ?_ ?_ ?_ ?_ hA
    · exact (bumpFrame_fields 6 _).2.2.2.2.1
    · exact ((bumpFrame_fields 6 _).2.2.1).trans hqi
    · exact ((bumpFrame_fields 6 _).2.1).trans hci
    · exact ((bumpFrame_fields 6 _).2.2.2.2.2.1).trans hc5

/-- One tick of `sampleCfg` preserves `onlyQuestions`. -/
theorem tickFn_C3 (s : Sys) (t r : ℚ) (h : onlyQuestions s) :
    onlyQuestions (tickFn sampleCfg s t r) := by
  simp only [onlyQuestions] at h
  obtain ⟨hA, hqi, hci, hcnt⟩ := h
  have hlen : questionsLen (sampleCfg.chapters[s.gs.chapterIndex]?) = 1 := by
    rw [hci]
    with_unfolding_all decide
  simp only [onlyQuestions]
  unfold tickFn
  rcases hph : s.gs.phase with _ | _ | _ | _ | _ | _ | _ | _ | _
  all_goals simp only [hph]
  · exact ⟨hA, hqi, hci, fun hact => Bool.noConfusion hact⟩
  · exact stepChapterIntro_C3 _ _ hA hqi hci hcnt
  · exact stepReadyToPlay_C3 _ _ _ hA hqi hci (hcnt (by rw [hph]; rfl))
  · exact stepAutoFly_C3 _ _ _ hA hqi hci (hcnt (by rw [hph]; rfl))
  · refine stepPlaying_C3 _ _ ?_ hA hqi hci (hcnt (by rw [hph]; rfl))
    exact hlen
  · exact stepQuestionPreview_C3 _ _ hA hqi hci (hcnt (by rw [hph]; rfl))
  · exact ⟨hA, hqi, hci, fun _ => hcnt (by rw [hph]; rfl)⟩
  · exact ⟨hA, hqi, hci, fun hact => hcnt hact⟩
  · exact ⟨hA, hqi, hci, fun hact => hcnt hact⟩

/-- A primary-action input on `sampleCfg` preserves `onlyQuestions`. -/
theorem clickFn_C3 (s : Sys) (t : ℚ) (h : onlyQuestions s) :
    onlyQuestions (clickFn sampleCfg s t) := by
  rcases s with ⟨⟨ph, b, ps, ci, qi, sc, ds, pq, ca, sp, pst, fc, qp⟩, lf, lj⟩
  simp only [onlyQuestions] at h
  obtain ⟨hA, hqi, hci, hcnt⟩ := h
  cases ph
  all_goals simp only [clickFn, jumpFn, onlyQuestions]
  · split
    · exact ⟨hA, hqi, hci, hcnt⟩
    · split
      · exact ⟨hA, hqi, hci, hcnt⟩
      · exact ⟨hA, hqi, hci, hcnt⟩
  · split
    · exact ⟨hA, hqi, hci, hcnt⟩
    · split
      · exact ⟨hA, hqi, hci, hcnt⟩
      · exact ⟨hA, hqi, hci, hcnt⟩
  · exact ⟨hA, hqi, hci, fun _ => hcnt rfl⟩
  · split
    · exact ⟨hA, hqi, hci, hcnt⟩
    · split
      · exact ⟨hA, hqi, hci, hcnt⟩
      · exact ⟨hA, hqi, hci, hcnt⟩
  · split
    · exact ⟨hA, hqi, hci, hcnt⟩
    · split
      · exact ⟨hA, hqi, hci, hcnt⟩
      · exact ⟨hA, hqi, hci, hcnt⟩
  · split
    · exact ⟨hA, hqi, hci, hcnt⟩
    · split
      · exact ⟨hA, hqi, hci, hcnt⟩
      · exact ⟨hA, hqi, hci, hcnt⟩
  · exact ⟨fun p hp => hA p (List.mem_filter.mp hp).1, hqi, hci, fun _ => hcnt rfl⟩
  · split
    · next hlt =>
      exact absurd (show ci < sampleCfg.chapters.length - 1 from hlt)
        (by rw [hci]; with_unfolding_all decide)
    · exact ⟨hA, hqi, hci, fun hact => Bool.noConfusion hact⟩
  · simp

/-- Every state reachable on `sampleCfg` satisfies the `onlyQuestions`
invariant. -/
theorem reachable_onlyQuestions (s : Sys) (h : Reachable sampleCfg s) :
    onlyQuestions s := by
  refine reachable_inv sampleCfg onlyQuestions ?_ ?_ ?_ s h
  · intro t0 _
    exact ⟨fun p hp => absurd hp (List.not_mem_nil p), rfl, rfl,
      fun hact => Bool.noConfusion hact⟩
  · intro s t r hP _ _ _
    exact tickFn_C3 s t r hP
  · intro s t hP
    exact clickFn_C3 s t hP

/-- C3 counterexample: the claimed scenario begins with the player passing
five Plain obstacles, but on the one-chapter one-question configuration
`sampleCfg` no reachable state ever contains a Plain (`normal`) pipe at all:
`chapter_intro` presets the pipes-since-last-question counter to the spawn
threshold and `auto_fly` (or the `question_preview` completion) spawns the
Question pipe, so the question-preview entry check always preempts the
Plain-pipe spawn branch. -/
theorem C3_counterexample :
    (∃ s, Reachable sampleCfg s ∧ ∃ p ∈ s.gs.pipes, p.type = PipeType.normal) = False := by
  refine eq_false ?_
  rintro ⟨s, hreach, p, hp, hnorm⟩
  have hq := (reachable_onlyQuestions s hreach).1 p hp
  rw [hq] at hnorm
  exact PipeType.noConfusion hnorm

theorem run_append (cfg : Config) (s : Sys) (l1 l2 : List Input) :
    run cfg s (l1 ++ l2) = run cfg (run cfg s l1) l2 := by
  simp only [run, List.foldl_append]

theorem qeqb_eq {a b : ℚ} (h : qeqb a b = true) : a = b := by
  simp only [qeqb, Bool.and_eq_true, decide_eq_true_eq] at h
  exact Rat.ext h.1 h.2

theorem oqeqb_eq {a b : Option ℚ} (h : oqeqb a b = true) : a = b := by
  cases a <;> cases b
  · rfl
  · exact Bool.noConfusion h
  · exact Bool.noConfusion h
  · exact congrArg some (qeqb_eq h)

theorem obeqb_eq {a b : Option Bool} (h : obeqb a b = true) : a = b := by
  cases a <;> cases b
  · rfl
  · exact Bool.noConfusion h
  · exact Bool.noConfusion h
  · exact congrArg some (of_decide_eq_true h)

theorem pipeEqb_eq {p q : Pipe} (h : pipeEqb p q = true) : p = q := by
  simp only [pipeEqb, Bool.and_eq_true] at h
  obtain ⟨⟨⟨⟨⟨⟨⟨⟨⟨⟨h1, h2⟩, h3⟩, h4⟩, h5⟩, h6⟩, h7⟩, h8⟩, h9⟩, h10⟩, h11⟩ := h
  cases p
  cases q
  simp only at h1 h2 h3 h4 h5 h6 h7 h8 h9 h10 h11
  rw [qeqb_eq h1, of_decide_eq_true h2, oqeqb_eq h3, oqeqb_eq h4, oqeqb_eq h5,
    oqeqb_eq h6, oqeqb_eq h7, oqeqb_eq h8, of_decide_eq_true h9,
    of_decide_eq_true h10, obeqb_eq h11]

theorem pipesEqb_eq {ps qs : List Pipe} (h : pipesEqb ps qs = true) : ps = qs := by
  induction ps generalizing qs with
  | nil =>
    cases qs with
    | nil => rfl
    | cons q qs => exact Bool.noConfusion h
  | cons p ps ih =>
    cases qs with
    | nil => exact Bool.noConfusion h
    | cons q qs =>
      simp only [pipesEqb, Bool.and_eq_true] at h
      rw [pipeEqb_eq h.1, ih h.2]

theorem birdEqb_eq {a b : Bird} (h : birdEqb a b = true) : a = b := by
  simp only [birdEqb, Bool.and_eq_true] at h
  obtain ⟨⟨h1, h2⟩, h3⟩ := h
  cases a
  cases b
  simp only at h1 h2 h3
  rw [qeqb_eq h1, qeqb_eq h2, of_decide_eq_true h3]

theorem gsEqb_eq {a b : GameState} (h : gsEqb a b = true) : a = b := by
  simp only [gsEqb, Bool.and_eq_true] at h
  obtain ⟨⟨⟨⟨⟨⟨⟨⟨⟨⟨⟨⟨h1, h2⟩, h3⟩, h4⟩, h5⟩, h6⟩, h7⟩, h8⟩, h9⟩, h10⟩, h11⟩,
    h12⟩, h13⟩ := h
  cases a
  cases b
  simp only at h1 h2 h3 h4 h5 h6 h7 h8 h9 h10 h11 h12 h13
  rw [of_decide_eq_true h1, birdEqb_eq h2, pipesEqb_eq h3, of_decide_eq_true h4,
    of_decide_eq_true h5, of_decide_eq_true h6, of_decide_eq_true h7,
    of_decide_eq_true h8, of_decide_eq_true h9, qeqb_eq h10, qeqb_eq h11,
    of_decide_eq_true h12, qeqb_eq h13]

theorem sysEqb_eq {a b : Sys} (h : sysEqb a b = true) : a = b := by
  simp only [sysEqb, Bool.and_eq_true] at h
  obtain ⟨⟨h1, h2⟩, h3⟩ := h
  cases a
  cases b
  simp only at h1 h2 h3
  rw [gsEqb_eq h1, qeqb_eq h2, qeqb_eq h3]

theorem run_take_add (cfg : Config) (s : Sys) (l : List Input) (m n : ℕ) :
    run cfg s (l.take (m + n)) = run cfg (run cfg s (l.take m)) ((l.drop m).take n) := by
  rw [List.take_add, run_append]

set_option maxRecDepth 1000000 in
set_option maxHeartbeats 4000000 in
/-- C3 (amended): with 1 chapter containing 1 question whose `correctAnswer`
is true, no Plain obstacle is ever passed (none spawns — `chapter_intro`
sets the counter to the threshold and the Question obstacle appears in the
`auto_fly` phase, see `C3_counterexample`), so displayScore stays 0 until
the answer; in the concrete session `C3_events` the bird flies into the YES
slot (displayScore = 5 — the answer bonus — and totalCorrect = 1), passes
the obstacle so the phase becomes `chapter_complete` with chapter score
`{correct := 1, total := 1}`, and the next input moves the phase to
`game_complete` with totalCorrect = 1 and totalQuestions = 1. -/
theorem C3_end_to_end :
    validSeq 0 C3_events = true ∧
    C3_pre.gs.phase = GamePhase.chapter_complete ∧
    C3_pre.gs.displayScore = 5 ∧
    C3_pre.gs.score.totalCorrect = 1 ∧
    C3_pre.gs.score.chapterScores = [{ correct := 1, total := 1 }] ∧
    C3_final = step sampleCfg C3_pre (Input.click 9800) ∧
    C3_final.gs.phase = GamePhase.game_complete ∧
    C3_final.gs.displayScore = 5 ∧
    C3_final.gs.score.totalCorrect = 1 ∧
    C3_final.gs.score.totalQuestions = 1 := by
  have t1 : run sampleCfg (initSys sampleCfg 0) (C3_events.take 14) = C3_K1 :=
    sysEqb_eq (by with_unfolding_all decide)
  have t2 : run sampleCfg (initSys sampleCfg 0) (C3_events.take 28) = C3_K2 := by
    have h := run_take_add sampleCfg (initSys sampleCfg 0) C3_events 14 14
    rw [t1] at h
    exact h.trans (sysEqb_eq (by with_unfolding_all decide))
  have t3 : run sampleCfg (initSys sampleCfg 0) (C3_events.take 42) = C3_K3 := by
    have h := run_take_add sampleCfg (initSys sampleCfg 0) C3_events 28 14
    rw [t2] at h
    exact h.trans (sysEqb_eq (by with_unfolding_all decide))
  have t4 : run sampleCfg (initSys sampleCfg 0) (C3_events.take 56) = C3_K4 := by
    have h := run_take_add sampleCfg (initSys sampleCfg 0) C3_events 42 14
    rw [t3] at h
    exact h.trans (sysEqb_eq (by with_unfolding_all decide))
  have t5 : run sampleCfg (initSys sampleCfg 0) (C3_events.take 70) = C3_K5 := by
    have h := run_take_add sampleCfg (initSys sampleCfg 0) C3_events 56 14
    rw [t4] at h
    exact h.trans (sysEqb_eq (by with_unfolding_all decide))
  have t6 : run sampleCfg (initSys sampleCfg 0) (C3_events.take 84) = C3_K6 := by
    have h := run_take_add sampleCfg (initSys sampleCfg 0) C3_events 70 14
    rw [t5] at h
    exact h.trans (sysEqb_eq (by with_unfolding_all decide))
  have t7 : run sampleCfg (initSys sampleCfg 0) (C3_events.take 98) = C3_K7 := by
    have h := run_take_add sampleCfg (initSys sampleCfg 0) C3_events 84 14
    rw [t6] at h
    exact h.trans (sysEqb_eq (by with_unfolding_all decide))
  have t8 : run sampleCfg (initSys sampleCfg 0) (C3_events.take 112) = C3_K8 := by
    have h := run_take_add sampleCfg (initSys sampleCfg 0) C3_events 98 14
    rw [t7] at h
    exact h.trans (sysEqb_eq (by with_unfolding_all decide))
  have hdrop : C3_events.drop 112 = [Input.click 9800] := by rfl
  have hfull : C3_events = C3_events.take 112 ++ [Input.click 9800] := by
    conv_lhs => rw [← List.take_append_drop 112 C3_events, hdrop]
  have hdl : C3_events.dropLast = C3_events.take 112 := by
    conv_lhs => rw [hfull]
    rw [List.dropLast_concat]
  have hpre : C3_pre = C3_K8 := by
    simp only [C3_pre]
    rw [hdl, t8]
  have hfin : C3_final = step sampleCfg C3_K8 (Input.click 9800) := by
    simp only [C3_final]
    conv_lhs => rw [hfull]
    rw [run_append, t8]
    rfl
  refine ⟨?_, ?_, ?_, ?_, ?_, ?_, ?_, ?_, ?_, ?_⟩
  · with_unfolding_all decide
  · rw [hpre]
    with_unfolding_all decide
  · rw [hpre]
    with_unfolding_all decide
  · rw [hpre]
    with_unfolding_all decide
  · rw [hpre]
    with_unfolding_all decide
  · rw [hfin, hpre]
  · rw [hfin]
    with_unfolding_all decide
  · rw [hfin]
    with_unfolding_all decide
  · rw [hfin]
    with_unfolding_all decide
  · rw [hfin]
    with_unfolding_all decide

/-! ### C2: loop-body case analysis -/

theorem answerCheck_normal (ctx : TickCtx) (st : GameState) (p : Pipe)
    (h : p.type = PipeType.normal) : answerCheck ctx st p = (st, p) := by
  unfold answerCheck
  rw [if_neg]
  intro hc
  rw [h] at hc
  exact PipeType.noConfusion hc.1

/-- Complete case analysis of one `playing` loop-body step. -/
theorem processPipePlaying_full (ctx : TickCtx) (st : GameState) (p : Pipe) :
    (checkCollision st.bird { p with x := p.x - PIPE_SPEED * ctx.dt } = true ∧
      processPipePlaying ctx st p
        = ({ st with phase := GamePhase.game_over, phaseStartTime := ctx.t },
           { p with x := p.x - PIPE_SPEED * ctx.dt }, true)) ∨
    (p.passed = false ∧ p.x - PIPE_SPEED * ctx.dt + PIPE_WIDTH < BIRD_LEFT ∧
      p.type = PipeType.normal ∧ p.scored = false ∧
      processPipePlaying ctx st p
        = ({ st with displayScore := st.displayScore + 1, pipesSinceLastQuestion := st.pipesSinceLastQuestion + 1 },
           { p with x := p.x - PIPE_SPEED * ctx.dt, passed := true, scored := true },
           false)) ∨
    (p.passed = false ∧ p.x - PIPE_SPEED * ctx.dt + PIPE_WIDTH < BIRD_LEFT ∧
      p.type = PipeType.normal ∧ p.scored = true ∧
      processPipePlaying ctx st p
        = (st, { p with x := p.x - PIPE_SPEED * ctx.dt, passed := true }, false)) ∨
    (p.passed = false ∧ p.x - PIPE_SPEED * ctx.dt + PIPE_WIDTH < BIRD_LEFT ∧
      p.type = PipeType.question ∧
      st.questionIndex < questionsLen ctx.currentChapter - 1 ∧
      processPipePlaying ctx st p
        = ({ st with pipesSinceLastQuestion := 0, currentQuestionActive := false, questionIndex := st.questionIndex + 1 },
           { p with x := p.x - PIPE_SPEED * ctx.dt, passed := true }, false)) ∨
    (p.passed = false ∧ p.x - PIPE_SPEED * ctx.dt + PIPE_WIDTH < BIRD_LEFT ∧
      p.type = PipeType.question ∧
      ¬ st.questionIndex < questionsLen ctx.currentChapter - 1 ∧
      processPipePlaying ctx st p
        = ({ st with pipesSinceLastQuestion := 0, currentQuestionActive := false, phase := GamePhase.chapter_complete, phaseStartTime := ctx.t, scrollProgress := 0 },
           { p with x := p.x - PIPE_SPEED * ctx.dt, passed := true }, true)) ∨
    (¬ (p.passed = false ∧ p.x - PIPE_SPEED * ctx.dt + PIPE_WIDTH < BIRD_LEFT) ∧
      processPipePlaying ctx st p
        = ((answerCheck ctx st { p with x := p.x - PIPE_SPEED * ctx.dt }).1,
           (answerCheck ctx st { p with x := p.x - PIPE_SPEED * ctx.dt }).2,
           false)) := by
  simp only [processPipePlaying]
  split
  · next hcol => exact Or.inl ⟨hcol, rfl⟩
  · next hncol =>
    split
    · next hpass =>
      have hp1 : p.passed = false := hpass.1
      have hp2 : p.x - PIPE_SPEED * ctx.dt + PIPE_WIDTH < BIRD_LEFT := hpass.2
      split
      · next htn =>
        have htn' : p.type = PipeType.normal := htn
        split
        · next hsc =>
          have hsc' : p.scored = false := hsc
          refine Or.inr (Or.inl ⟨hp1, hp2, htn', hsc', ?_⟩)
          rw [answerCheck_normal]
          exact htn'
        · next hsc =>
          have hsc' : p.scored = true := by
            rcases hb : p.scored
            · exact absurd hb hsc
            · rfl
          refine Or.inr (Or.inr (Or.inl ⟨hp1, hp2, htn', hsc', ?_⟩))
          rw [answerCheck_normal]
          exact htn'
      · next htn =>
        have htq : p.type = PipeType.question := by
          rcases htp : p.type
          · exact absurd htp htn
          · rfl
        have hfar : ¬ (BIRD_LEFT
            < ({ { p with x := p.x - PIPE_SPEED * ctx.dt } with passed := true }
                : Pipe).x + PIPE_WIDTH) := by
          intro hcon
          simp only at hcon
          linarith
        split
        · next hqi =>
          refine Or.inr (Or.inr (Or.inr (Or.inl ⟨hp1, hp2, htq, hqi, ?_⟩)))
          rw [answerCheck_far _ _ _ hfar]
        · next hqi =>
          exact Or.inr (Or.inr (Or.inr (Or.inr (Or.inl ⟨hp1, hp2, htq, hqi, rfl⟩))))
    · next hnpass =>
      exact Or.inr (Or.inr (Or.inr (Or.inr (Or.inr ⟨hnpass, rfl⟩))))

/-- Complete case analysis of one `question_preview` loop-body step. -/
theorem processPipePreview_full (ctx : TickCtx) (st : GameState) (p : Pipe) :
    (checkCollision st.bird { p with x := p.x - PIPE_SPEED * ctx.dt } = true ∧
      processPipePreview ctx st p
        = ({ st with phase := GamePhase.game_over, phaseStartTime := ctx.t },
           { p with x := p.x - PIPE_SPEED * ctx.dt }, true)) ∨
    (p.type = PipeType.normal ∧ p.passed = false ∧
      p.x - PIPE_SPEED * ctx.dt + PIPE_WIDTH < BIRD_LEFT ∧ p.scored = false ∧
      processPipePreview ctx st p
        = ({ st with displayScore := st.displayScore + 1, pipesSinceLastQuestion := st.pipesSinceLastQuestion + 1 },
           { p with x := p.x - PIPE_SPEED * ctx.dt, passed := true, scored := true },
           false)) ∨
    (p.type = PipeType.normal ∧ p.passed = false ∧
      p.x - PIPE_SPEED * ctx.dt + PIPE_WIDTH < BIRD_LEFT ∧ p.scored = true ∧
      processPipePreview ctx st p
        = (st, { p with x := p.x - PIPE_SPEED * ctx.dt, passed := true }, false)) ∨
    (¬ (p.type = PipeType.normal ∧ p.passed = false ∧
        p.x - PIPE_SPEED * ctx.dt + PIPE_WIDTH < BIRD_LEFT) ∧
      processPipePreview ctx st p
        = (st, { p with x := p.x - PIPE_SPEED * ctx.dt }, false)) := by
  simp only [processPipePreview]
  split
  · next hcol => exact Or.inl ⟨hcol, rfl⟩
  · next hncol =>
    split
    · next hpass =>
      have ht : p.type = PipeType.normal := hpass.1
      have hp1 : p.passed = false := hpass.2.1
      have hp2 : p.x - PIPE_SPEED * ctx.dt + PIPE_WIDTH < BIRD_LEFT := hpass.2.2
      split
      · next hsc =>
        exact Or.inr (Or.inl ⟨ht, hp1, hp2, hsc, rfl⟩)
      · next hsc =>
        have hsc' : p.scored = true := by
          rcases hb : p.scored
          · exact absurd hb hsc
          · rfl
        exact Or.inr (Or.inr (Or.inl ⟨ht, hp1, hp2, hsc', rfl⟩))
    · next hnpass =>
      exact Or.inr (Or.inr (Or.inr ⟨hnpass, rfl⟩))

/-! ### C2: master loop lemmas -/

theorem runPlaying_C2_master (ctx : TickCtx) (hdt0 : 0 ≤ ctx.dt) (hdt3 : ctx.dt ≤ 3/2) :
    ∀ (ps : List Pipe) (st : GameState), prePipes st ps →
      postPipes ctx st ps (runPipesPlaying ctx st ps).1 (runPipesPlaying ctx st ps).2 := by
  have hPS : (PIPE_SPEED:ℚ) = 2 := rfl
  have hPW : (PIPE_WIDTH:ℚ) = 52 := rfl
  have hBL : (BIRD_LEFT:ℚ) = 50 := rfl
  have hd0 : 0 ≤ PIPE_SPEED * ctx.dt := by
    rw [hPS]
    linarith
  have hd3 : PIPE_SPEED * ctx.dt ≤ 3 := by
    rw [hPS]
    linarith
  intro ps
  induction ps with
  | nil =>
    intro st _
    simp only [postPipes, runPipesPlaying]
    exact ⟨by simp, List.Pairwise.nil, by simp, by simp, trivial, trivial, by simp,
      Or.inl trivial, by simp, fun _ => trivial⟩
  | cons p rest ih =>
    intro st hpre
    simp only [prePipes] at hpre
    obtain ⟨h1, h2, h3, h4, h5, h6, h7, h8⟩ := hpre
    simp only [passedMono] at h6
    simp only [qpTail] at h7
    have hp1m := h1 p (List.mem_cons_self p rest)
    have hp2m := h2 p (List.mem_cons_self p rest)
    have h3c := List.pairwise_cons.mp h3
    have h1r : ∀ q ∈ rest, -102 < q.x := fun q hq => h1 q (List.mem_cons_of_mem p hq)
    have h2r : ∀ q ∈ rest, q.x ≤ 308 := fun q hq => h2 q (List.mem_cons_of_mem p hq)
    have h4r : ∀ q ∈ rest, q.passed = true → q.x < -2 :=
      fun q hq => h4 q (List.mem_cons_of_mem p hq)
    have h5r : ∀ q ∈ rest, q.passed = false → -2 ≤ q.x :=
      fun q hq => h5 q (List.mem_cons_of_mem p hq)
    rcases processPipePlaying_full ctx st p with
      ⟨hcol, heq⟩ | ⟨hps, hpB, htn, hsc, heq⟩ | ⟨hps, hpB, htn, hsc, heq⟩ |
      ⟨hps, hpB, htq, hqi, heq⟩ | ⟨hps, hpB, htq, hqi, heq⟩ | ⟨hnp, heq⟩
    · -- collision break: the whole suffix is frozen
      have hrun : runPipesPlaying ctx st (p :: rest)
          = ({ st with phase := GamePhase.game_over, phaseStartTime := ctx.t },
             { p with x := p.x - PIPE_SPEED * ctx.dt } :: rest) := by
        simp only [runPipesPlaying]
        rw [heq]
      rw [hrun]
      have hnear : -2 ≤ p.x - PIPE_SPEED * ctx.dt := by
        by_contra hlt
        push_neg at hlt
        have hfar := checkCollision_far st.bird
          { p with x := p.x - PIPE_SPEED * ctx.dt }
          (by rw [hPW, hBL]; simp only; linarith)
        rw [hfar] at hcol
        exact Bool.noConfusion hcol
      simp only [postPipes]
      refine ⟨?_, ?_, ?_, ?_, ?_, ?_, ?_, Or.inr (Or.inl trivial), ?_, fun _ => trivial⟩
      · intro q hq
        rcases List.mem_cons.mp hq with rfl | hq
        · simp only
          linarith
        · exact h2r q hq
      · refine List.pairwise_cons.mpr ⟨?_, h3c.2⟩
        intro q hq
        have := h3c.1 q hq
        simp only
        linarith
      · intro q hq hqp
        rcases List.mem_cons.mp hq with rfl | hq
        · have : p.passed = true := hqp
          have := h4 p (List.mem_cons_self p rest) this
          simp only
          linarith
        · exact h4r q hq hqp
      · intro q hq hqp
        rcases List.mem_cons.mp hq with rfl | hq
        · exact hnear
        · exact h5r q hq hqp
      · exact ⟨fun hf => h6.1 hf, h6.2⟩
      · exact ⟨fun hq => h7.1 ⟨hq.1, hq.2⟩, h7.2⟩
      · intro qp hqp hqt hqpass
        rcases List.mem_cons.mp hqp with rfl | hqp
        · have h8p := h8 p (List.mem_cons_self p rest) hqt hqpass
          refine ⟨h8p.1, ?_⟩
          intro pu hpu hup
          rcases List.mem_cons.mp hpu with rfl | hpu
          · exact Bool.noConfusion (hqpass.symm.trans hup)
          · have := h8p.2 pu (List.mem_cons_of_mem p hpu) hup
            simp only
            linarith
        · rcases hpp : p.passed with _ | _
          · have hall := h6.1 hpp
            rw [hall qp hqp] at hqpass
            exact Bool.noConfusion hqpass
          · have h8p := h8 qp (List.mem_cons_of_mem p hqp) hqt hqpass
            refine ⟨h8p.1, ?_⟩
            intro pu hpu hup
            rcases List.mem_cons.mp hpu with rfl | hpu
            · exact Bool.noConfusion (show true = false from hup)
            · exact h8p.2 pu (List.mem_cons_of_mem p hpu) hup
      · intro q hq
        rcases List.mem_cons.mp hq with rfl | hq
        · exact ⟨p, List.mem_cons_self p rest, le_refl _, by simp only; linarith,
            fun h => h⟩
        · exact ⟨q, List.mem_cons_of_mem p hq, by linarith, le_refl _, fun h => h⟩
    · -- plain pass, unscored
      have hall : ∀ q ∈ rest, q.passed = false := h6.1 hps
      have hrun : runPipesPlaying ctx st (p :: rest)
          = ((runPipesPlaying ctx { st with displayScore := st.displayScore + 1, pipesSinceLastQuestion := st.pipesSinceLastQuestion + 1 } rest).1,
             { p with x := p.x - PIPE_SPEED * ctx.dt, passed := true, scored := true }
               :: (runPipesPlaying ctx { st with displayScore := st.displayScore + 1, pipesSinceLastQuestion := st.pipesSinceLastQuestion + 1 } rest).2) := by
        simp only [runPipesPlaying]
        rw [heq]
      rw [hrun]
      rw [hPW, hBL] at hpB
      obtain ⟨g2, g3, g4, g5, g6, g7, g8, g9, g10, g14⟩ :=
        (by simpa only [postPipes] using
              ih { st with displayScore := st.displayScore + 1, pipesSinceLastQuestion := st.pipesSinceLastQuestion + 1 }
                (by
                  refine ⟨h1r, h2r, h3c.2, h4r, h5r, h6.2, h7.2, ?_⟩
                  intro qp hqp _ hqpass
                  rw [hall qp hqp] at hqpass
                  exact Bool.noConfusion hqpass) :
          (∀ p_1 ∈ _, _) ∧ _)
      simp only [postPipes]
      refine ⟨?_, ?_, ?_, ?_, ?_, ?_, ?_, g9, ?_, ?_⟩
      · intro q hq
        rcases List.mem_cons.mp hq with rfl | hq
        · simp only
          linarith
        · exact g2 q hq
      · refine List.pairwise_cons.mpr ⟨?_, g3⟩
        intro q hq
        obtain ⟨q0, hq0, hlow, _, _⟩ := g10 q hq
        have := h3c.1 q0 hq0
        simp only
        linarith
      · intro q hq hqp
        rcases List.mem_cons.mp hq with rfl | hq
        · simp only
          linarith
        · exact g4 q hq hqp
      · intro q hq hqp
        rcases List.mem_cons.mp hq with rfl | hq
        · exact absurd hqp (by simp)
        · exact g5 q hq hqp
      · exact ⟨fun hf => absurd hf (by simp), g6⟩
      · refine ⟨fun hq => ?_, g7⟩
        rw [show ({ p with x := p.x - PIPE_SPEED * ctx.dt, passed := true, scored := true } : Pipe).type = p.type from rfl, htn] at hq
        exact PipeType.noConfusion hq.1
      · intro qp hqp hqt hqpass
        rcases List.mem_cons.mp hqp with rfl | hqp
        · rw [show ({ p with x := p.x - PIPE_SPEED * ctx.dt, passed := true, scored := true } : Pipe).type = p.type from rfl, htn] at hqt
          exact PipeType.noConfusion hqt
        · have g8q := g8 qp hqp hqt hqpass
          refine ⟨g8q.1, ?_⟩
          intro pu hpu hup
          rcases List.mem_cons.mp hpu with rfl | hpu
          · exact absurd hup (by simp)
          · exact g8q.2 pu hpu hup
      · intro q hq
        rcases List.mem_cons.mp hq with rfl | hq
        · exact ⟨p, List.mem_cons_self p rest, le_of_eq rfl, by simp only; linarith,
            fun _ => rfl⟩
        · obtain ⟨q0, hq0, hb⟩ := g10 q hq
          exact ⟨q0, List.mem_cons_of_mem p hq0, hb⟩
      · intro hfarIn
        have := hfarIn p (List.mem_cons_self p rest) hps
        linarith
    · -- plain pass, already scored
      have hall : ∀ q ∈ rest, q.passed = false := h6.1 hps
      have hrun : runPipesPlaying ctx st (p :: rest)
          = ((runPipesPlaying ctx st rest).1,
             { p with x := p.x - PIPE_SPEED * ctx.dt, passed := true }
               :: (runPipesPlaying ctx st rest).2) := by
        simp only [runPipesPlaying]
        rw [heq]
      rw [hrun]
      rw [hPW, hBL] at hpB
      obtain ⟨g2, g3, g4, g5, g6, g7, g8, g9, g10, g14⟩ :=
        (by simpa only [postPipes] using
              ih st
                (by
                  refine ⟨h1r, h2r, h3c.2, h4r, h5r, h6.2, h7.2, ?_⟩
                  intro qp hqp _ hqpass
                  rw [hall qp hqp] at hqpass
                  exact Bool.noConfusion hqpass) :
          (∀ p_1 ∈ _, _) ∧ _)
      simp only [postPipes]
      refine ⟨?_, ?_, ?_, ?_, ?_, ?_, ?_, g9, ?_, ?_⟩
      · intro q hq
        rcases List.mem_cons.mp hq with rfl | hq
        · simp only
          linarith
        · exact g2 q hq
      · refine List.pairwise_cons.mpr ⟨?_, g3⟩
        intro q hq
        obtain ⟨q0, hq0, hlow, _, _⟩ := g10 q hq
        have := h3c.1 q0 hq0
        simp only
        linarith
      · intro q hq hqp
        rcases List.mem_cons.mp hq with rfl | hq
        · simp only
          linarith
        · exact g4 q hq hqp
      · intro q hq hqp
        rcases List.mem_cons.mp hq with rfl | hq
        · exact absurd hqp (by simp)
        · exact g5 q hq hqp
      · exact ⟨fun hf => absurd hf (by simp), g6⟩
      · refine ⟨fun hq => ?_, g7⟩
        rw [show ({ p with x := p.x - PIPE_SPEED * ctx.dt, passed := true } : Pipe).type
          = p.type from rfl, htn] at hq
        exact PipeType.noConfusion hq.1
      · intro qp hqp hqt hqpass
        rcases List.mem_cons.mp hqp with rfl | hqp
        · rw [show ({ p with x := p.x - PIPE_SPEED * ctx.dt, passed := true } : Pipe).type
            = p.type from rfl, htn] at hqt
          exact PipeType.noConfusion hqt
        · have g8q := g8 qp hqp hqt hqpass
          refine ⟨g8q.1, ?_⟩
          intro pu hpu hup
          rcases List.mem_cons.mp hpu with rfl | hpu
          · exact absurd hup (by simp)
          · exact g8q.2 pu hpu hup
      · intro q hq
        rcases List.mem_cons.mp hq with rfl | hq
        · exact ⟨p, List.mem_cons_self p rest, le_of_eq rfl, by simp only; linarith,
            fun _ => rfl⟩
        · obtain ⟨q0, hq0, hb⟩ := g10 q hq
          exact ⟨q0, List.mem_cons_of_mem p hq0, hb⟩
      · intro hfarIn
        have := hfarIn p (List.mem_cons_self p rest) hps
        linarith
    · -- question pass, question index advances
      have hrest : rest = [] := h7.1 ⟨htq, hps⟩
      subst hrest
      have hrun : runPipesPlaying ctx st [p]
          = ({ st with pipesSinceLastQuestion := 0, currentQuestionActive := false, questionIndex := st.questionIndex + 1 },
             [{ p with x := p.x - PIPE_SPEED * ctx.dt, passed := true }]) := by
        simp only [runPipesPlaying]
        rw [heq]
      rw [hrun]
      rw [hPW, hBL] at hpB
      simp only [postPipes]
      refine ⟨?_, ?_, ?_, ?_, ⟨fun hf => absurd hf (by simp), trivial⟩,
        ⟨fun _ => rfl, trivial⟩, ?_, Or.inl trivial, ?_, ?_⟩
      · intro q hq
        rcases List.mem_singleton.mp hq with rfl
        simp only
        linarith
      · exact List.pairwise_singleton _ _
      · intro q hq hqp
        rcases List.mem_singleton.mp hq with rfl
        simp only
        linarith
      · intro q hq hqp
        rcases List.mem_singleton.mp hq with rfl
        exact absurd hqp (by simp)
      · intro qp hqp hqt hqpass
        refine ⟨trivial, ?_⟩
        intro pu hpu hup
        rcases List.mem_singleton.mp hpu with rfl
        exact absurd hup (by simp)
      · intro q hq
        rcases List.mem_singleton.mp hq with rfl
        exact ⟨p, List.mem_singleton.mpr rfl, le_of_eq rfl, by simp only; linarith,
          fun _ => rfl⟩
      · intro hfarIn
        have := hfarIn p (List.mem_singleton.mpr rfl) hps
        linarith
    · -- question pass, chapter complete (break)
      have hrest : rest = [] := h7.1 ⟨htq, hps⟩
      subst hrest
      have hrun : runPipesPlaying ctx st [p]
          = ({ st with pipesSinceLastQuestion := 0, currentQuestionActive := false, phase := GamePhase.chapter_complete, phaseStartTime := ctx.t, scrollProgress := 0 },
             [{ p with x := p.x - PIPE_SPEED * ctx.dt, passed := true }]) := by
        simp only [runPipesPlaying]
        rw [heq]
      rw [hrun]
      rw [hPW, hBL] at hpB
      simp only [postPipes]
      refine ⟨?_, ?_, ?_, ?_, ⟨fun hf => absurd hf (by simp), trivial⟩,
        ⟨fun _ => rfl, trivial⟩, ?_, Or.inr (Or.inr trivial), ?_, ?_⟩
      · intro q hq
        rcases List.mem_singleton.mp hq with rfl
        simp only
        linarith
      · exact List.pairwise_singleton _ _
      · intro q hq hqp
        rcases List.mem_singleton.mp hq with rfl
        simp only
        linarith
      · intro q hq hqp
        rcases List.mem_singleton.mp hq with rfl
        exact absurd hqp (by simp)
      · intro qp hqp hqt hqpass
        refine ⟨trivial, ?_⟩
        intro pu hpu hup
        rcases List.mem_singleton.mp hpu with rfl
        exact absurd hup (by simp)
      · intro q hq
        rcases List.mem_singleton.mp hq with rfl
        exact ⟨p, List.mem_singleton.mpr rfl, le_of_eq rfl, by simp only; linarith,
          fun _ => rfl⟩
      · intro hfarIn
        have := hfarIn p (List.mem_singleton.mpr rfl) hps
        linarith
    · -- no pass: only the answer check runs
      have hrun : runPipesPlaying ctx st (p :: rest)
          = ((runPipesPlaying ctx
                (answerCheck ctx st { p with x := p.x - PIPE_SPEED * ctx.dt }).1 rest).1,
             (answerCheck ctx st { p with x := p.x - PIPE_SPEED * ctx.dt }).2
               :: (runPipesPlaying ctx
                (answerCheck ctx st { p with x := p.x - PIPE_SPEED * ctx.dt }).1 rest).2) := by
        simp only [runPipesPlaying]
        rw [heq]
      rw [hrun]
      have hac := answerCheck_score_cases ctx st { p with x := p.x - PIPE_SPEED * ctx.dt }
      have hacp := answerCheck_pipe_fields ctx st { p with x := p.x - PIPE_SPEED * ctx.dt }
      set AC := answerCheck ctx st { p with x := p.x - PIPE_SPEED * ctx.dt } with hACdef
      have hpass' : AC.2.passed = p.passed := hacp.1
      have hx' : AC.2.x = p.x - PIPE_SPEED * ctx.dt := hacp.2.1
      have htype' : AC.2.type = p.type := hacp.2.2
      have hcnt' : AC.1.pipesSinceLastQuestion = st.pipesSinceLastQuestion :=
        hac.2.2.2.2.1
      have hphase' : AC.1.phase = st.phase := hac.2.2.2.1
      have hfree : p.passed = false → -(2:ℚ) ≤ p.x - PIPE_SPEED * ctx.dt := by
        intro hf
        by_contra hcon
        push_neg at hcon
        exact hnp ⟨hf, by rw [hPW, hBL]; linarith⟩
      obtain ⟨g2, g3, g4, g5, g6, g7, g8, g9, g10, g14⟩ :=
        (by simpa only [postPipes] using
              ih AC.1
                (by
                  refine ⟨h1r, h2r, h3c.2, h4r, h5r, h6.2, h7.2, ?_⟩
                  intro qp hqp htqp hqpass
                  have h8q := h8 qp (List.mem_cons_of_mem p hqp) htqp hqpass
                  exact ⟨hcnt'.trans h8q.1,
                    fun pu hpu hup => h8q.2 pu (List.mem_cons_of_mem p hpu) hup⟩) :
          (∀ p_1 ∈ _, _) ∧ _)
      have hnopass_rest : p.passed = false →
          ∀ q ∈ (runPipesPlaying ctx AC.1 rest).2, q.passed = false := by
        intro hpf q hq
        rcases hb : q.passed with _ | _
        · rfl
        · exfalso
          have hq2 := g4 q hq hb
          obtain ⟨q0, hq0, hlow, _, _⟩ := g10 q hq
          have hle := h3c.1 q0 hq0
          have hf2 := hfree hpf
          linarith
      simp only [postPipes]
      refine ⟨?_, ?_, ?_, ?_, ?_, ?_, ?_, ?_, ?_, ?_⟩
      · intro q hq
        rcases List.mem_cons.mp hq with rfl | hq
        · rw [hx']
          linarith
        · exact g2 q hq
      · refine List.pairwise_cons.mpr ⟨?_, g3⟩
        intro q hq
        obtain ⟨q0, hq0, hlow, _, _⟩ := g10 q hq
        have := h3c.1 q0 hq0
        rw [hx']
        linarith
      · intro q hq hqp
        rcases List.mem_cons.mp hq with rfl | hq
        · have hppt : p.passed = true := hpass'.symm.trans hqp
          have := h4 p (List.mem_cons_self p rest) hppt
          rw [hx']
          linarith
        · exact g4 q hq hqp
      · intro q hq hqp
        rcases List.mem_cons.mp hq with rfl | hq
        · have hpf : p.passed = false := hpass'.symm.trans hqp
          rw [hx']
          exact hfree hpf
        · exact g5 q hq hqp
      · exact ⟨fun hf => hnopass_rest (hpass'.symm.trans hf), g6⟩
      · refine ⟨fun hq => ?_, g7⟩
        have hrest : rest = [] :=
          h7.1 ⟨htype'.symm.trans hq.1, hpass'.symm.trans hq.2⟩
        rw [hrest]
        rfl
      · intro qp hqp hqt hqpass
        rcases List.mem_cons.mp hqp with rfl | hqp
        · have htqp : p.type = PipeType.question := htype'.symm.trans hqt
          have hppt : p.passed = true := hpass'.symm.trans hqpass
          have h8p := h8 p (List.mem_cons_self p rest) htqp hppt
          have hfarRest : ∀ q ∈ rest, q.passed = false → (1:ℚ) ≤ q.x := by
            intro q hq hqf
            have := h8p.2 q (List.mem_cons_of_mem p hq) hqf
            linarith
          refine ⟨(g14 hfarRest).trans (hcnt'.trans h8p.1), ?_⟩
          intro pu hpu hup
          rcases List.mem_cons.mp hpu with rfl | hpu
          · rw [hqpass] at hup
            exact Bool.noConfusion hup
          · obtain ⟨q0, hq0, hlow, hhigh, hmono⟩ := g10 pu hpu
            have hq0f : q0.passed = false := by
              rcases hb : q0.passed with _ | _
              · rfl
              · rw [hmono hb] at hup
                exact Bool.noConfusion hup
            have := h8p.2 q0 (List.mem_cons_of_mem p hq0) hq0f
            rw [hx']
            linarith
        · have g8q := g8 qp hqp hqt hqpass
          refine ⟨g8q.1, ?_⟩
          intro pu hpu hup
          rcases List.mem_cons.mp hpu with rfl | hpu
          · exfalso
            have hpf : p.passed = false := hpass'.symm.trans hup
            have hq2 := g4 qp hqp hqpass
            obtain ⟨q0, hq0, hlow, _, _⟩ := g10 qp hqp
            have hle := h3c.1 q0 hq0
            have hf2 := hfree hpf
            linarith
          · exact g8q.2 pu hpu hup
      · rcases g9 with h | h
        · exact Or.inl (h.trans hphase')
        · exact Or.inr h
      · intro q hq
        rcases List.mem_cons.mp hq with rfl | hq
        · exact ⟨p, List.mem_cons_self p rest, le_of_eq hx'.symm, by rw [hx']; linarith,
            fun h => hpass'.trans h⟩
        · obtain ⟨q0, hq0, hb⟩ := g10 q hq
          exact ⟨q0, List.mem_cons_of_mem p hq0, hb⟩
      · intro hfarIn
        exact (g14 (fun q hq hqf => hfarIn q (List.mem_cons_of_mem p hq) hqf)).trans hcnt'

/-- Master lemma for the `question_preview` pipe loop: in preview every pipe
on screen is Plain, and the loop preserves the geometric and structural
facts of `C2Inv` (the counter is unconstrained because no Question pipe is
on screen). -/
theorem runPreview_C2_master (ctx : TickCtx) (hdt0 : 0 ≤ ctx.dt) (hdt3 : ctx.dt ≤ 3/2) :
    ∀ (ps : List Pipe) (st : GameState),
      (∀ p ∈ ps, p.type = PipeType.normal) →
      (∀ p ∈ ps, p.x ≤ 308) →
      ps.Pairwise (fun a b => a.x ≤ b.x) →
      (∀ p ∈ ps, p.passed = true → p.x < -2) →
      (∀ p ∈ ps, p.passed = false → -2 ≤ p.x) →
      passedMono ps →
      (∀ p ∈ (runPipesPreview ctx st ps).2, p.x ≤ 308) ∧
      (runPipesPreview ctx st ps).2.Pairwise (fun a b => a.x ≤ b.x) ∧
      (∀ p ∈ (runPipesPreview ctx st ps).2, p.passed = true → p.x < -2) ∧
      (∀ p ∈ (runPipesPreview ctx st ps).2, p.passed = false → -2 ≤ p.x) ∧
      passedMono (runPipesPreview ctx st ps).2 ∧
      (∀ q ∈ (runPipesPreview ctx st ps).2, ∃ q0 ∈ ps,
        q0.x - PIPE_SPEED * ctx.dt ≤ q.x ∧ q.x ≤ q0.x ∧
        (q0.passed = true → q.passed = true)) ∧
      ((runPipesPreview ctx st ps).1.phase = st.phase ∨
        (runPipesPreview ctx st ps).1.phase = GamePhase.game_over) := by
  have hPS : (PIPE_SPEED:ℚ) = 2 := rfl
  have hPW : (PIPE_WIDTH:ℚ) = 52 := rfl
  have hBL : (BIRD_LEFT:ℚ) = 50 := rfl
  have hd0 : 0 ≤ PIPE_SPEED * ctx.dt := by
    rw [hPS]
    linarith
  have hd3 : PIPE_SPEED * ctx.dt ≤ 3 := by
    rw [hPS]
    linarith
  intro ps
  induction ps with
  | nil =>
    intro st _ _ _ _ _ _
    simp only [runPipesPreview]
    exact ⟨by simp, List.Pairwise.nil, by simp, by simp, trivial, by simp, Or.inl trivial⟩
  | cons p rest ih =>
    intro st hn h2 h3 h4 h5 h6
    simp only [passedMono] at h6
    have hnp' := hn p (List.mem_cons_self p rest)
    have hp2m := h2 p (List.mem_cons_self p rest)
    have h3c := List.pairwise_cons.mp h3
    have hnr : ∀ q ∈ rest, q.type = PipeType.normal :=
      fun q hq => hn q (List.mem_cons_of_mem p hq)
    have h2r : ∀ q ∈ rest, q.x ≤ 308 := fun q hq => h2 q (List.mem_cons_of_mem p hq)
    have h4r : ∀ q ∈ rest, q.passed = true → q.x < -2 :=
      fun q hq => h4 q (List.mem_cons_of_mem p hq)
    have h5r : ∀ q ∈ rest, q.passed = false → -2 ≤ q.x :=
      fun q hq => h5 q (List.mem_cons_of_mem p hq)
    rcases processPipePreview_full ctx st p with
      ⟨hcol, heq⟩ | ⟨htn, hps, hpB, hsc, heq⟩ | ⟨htn, hps, hpB, hsc, heq⟩ | ⟨hnp, heq⟩
    · -- collision break: frozen suffix
      have hrun : runPipesPreview ctx st (p :: rest)
          = ({ st with phase := GamePhase.game_over, phaseStartTime := ctx.t },
             { p with x := p.x - PIPE_SPEED * ctx.dt } :: rest) := by
        simp only [runPipesPreview]
        rw [heq]
      rw [hrun]
      have hnear : -2 ≤ p.x - PIPE_SPEED * ctx.dt := by
        by_contra hlt
        push_neg at hlt
        have hfar := checkCollision_far st.bird
          { p with x := p.x - PIPE_SPEED * ctx.dt }
          (by rw [hPW, hBL]; simp only; linarith)
        rw [hfar] at hcol
        exact Bool.noConfusion hcol
      refine ⟨?_, ?_, ?_, ?_, ⟨fun hf => h6.1 hf, h6.2⟩, ?_, Or.inr rfl⟩
      · intro q hq
        rcases List.mem_cons.mp hq with rfl | hq
        · simp only
          linarith
        · exact h2r q hq
      · refine List.pairwise_cons.mpr ⟨?_, h3c.2⟩
        intro q hq
        have := h3c.1 q hq
        simp only
        linarith
      · intro q hq hqp
        rcases List.mem_cons.mp hq with rfl | hq
        · have : p.passed = true := hqp
          have := h4 p (List.mem_cons_self p rest) this
          simp only
          linarith
        · exact h4r q hq hqp
      · intro q hq hqp
        rcases List.mem_cons.mp hq with rfl | hq
        · exact hnear
        · exact h5r q hq hqp
      · intro q hq
        rcases List.mem_cons.mp hq with rfl | hq
        · exact ⟨p, List.mem_cons_self p rest, le_refl _, by simp only; linarith,
            fun h => h⟩
        · exact ⟨q, List.mem_cons_of_mem p hq, by linarith, le_refl _, fun h => h⟩
    · -- plain pass, unscored
      have hrun : runPipesPreview ctx st (p :: rest)
          = ((runPipesPreview ctx { st with displayScore := st.displayScore + 1, pipesSinceLastQuestion := st.pipesSinceLastQuestion + 1 } rest).1,
             { p with x := p.x - PIPE_SPEED * ctx.dt, passed := true, scored := true }
               :: (runPipesPreview ctx { st with displayScore := st.displayScore + 1, pipesSinceLastQuestion := st.pipesSinceLastQuestion + 1 } rest).2) := by
        simp only [runPipesPreview]
        rw [heq]
      rw [hrun]
      rw [hPW, hBL] at hpB
      obtain ⟨g2, g3, g4, g5, g6, g10, g9⟩ :=
        ih { st with displayScore := st.displayScore + 1, pipesSinceLastQuestion := st.pipesSinceLastQuestion + 1 }
          hnr h2r h3c.2 h4r h5r h6.2
      refine ⟨?_, ?_, ?_, ?_, ⟨fun hf => absurd hf (by simp), g6⟩, ?_, g9⟩
      · intro q hq
        rcases List.mem_cons.mp hq with rfl | hq
        · simp only
          linarith
        · exact g2 q hq
      · refine List.pairwise_cons.mpr ⟨?_, g3⟩
        intro q hq
        obtain ⟨q0, hq0, hlow, _, _⟩ := g10 q hq
        have := h3c.1 q0 hq0
        simp only
        linarith
      · intro q hq hqp
        rcases List.mem_cons.mp hq with rfl | hq
        · simp only
          linarith
        · exact g4 q hq hqp
      · intro q hq hqp
        rcases List.mem_cons.mp hq with rfl | hq
        · exact absurd hqp (by simp)
        · exact g5 q hq hqp
      · intro q hq
        rcases List.mem_cons.mp hq with rfl | hq
        · exact ⟨p, List.mem_cons_self p rest, le_of_eq rfl, by simp only; linarith,
            fun _ => rfl⟩
        · obtain ⟨q0, hq0, hb⟩ := g10 q hq
          exact ⟨q0, List.mem_cons_of_mem p hq0, hb⟩
    · -- plain pass, already scored
      have hrun : runPipesPreview ctx st (p :: rest)
          = ((runPipesPreview ctx st rest).1,
             { p with x := p.x - PIPE_SPEED * ctx.dt, passed := true }
               :: (runPipesPreview ctx st rest).2) := by
        simp only [runPipesPreview]
        rw [heq]
      rw [hrun]
      rw [hPW, hBL] at hpB
      obtain ⟨g2, g3, g4, g5, g6, g10, g9⟩ := ih st hnr h2r h3c.2 h4r h5r h6.2
      refine ⟨?_, ?_, ?_, ?_, ⟨fun hf => absurd hf (by simp), g6⟩, ?_, g9⟩
      · intro q hq
        rcases List.mem_cons.mp hq with rfl | hq
        · simp only
          linarith
        · exact g2 q hq
      · refine List.pairwise_cons.mpr ⟨?_, g3⟩
        intro q hq
        obtain ⟨q0, hq0, hlow, _, _⟩ := g10 q hq
        have := h3c.1 q0 hq0
        simp only
        linarith
      · intro q hq hqp
        rcases List.mem_cons.mp hq with rfl | hq
        · simp only
          linarith
        · exact g4 q hq hqp
      · intro q hq hqp
        rcases List.mem_cons.mp hq with rfl | hq
        · exact absurd hqp (by simp)
        · exact g5 q hq hqp
      · intro q hq
        rcases List.mem_cons.mp hq with rfl | hq
        · exact ⟨p, List.mem_cons_self p rest, le_of_eq rfl, by simp only; linarith,
            fun _ => rfl⟩
        · obtain ⟨q0, hq0, hb⟩ := g10 q hq
          exact ⟨q0, List.mem_cons_of_mem p hq0, hb⟩
    · -- no pass: plain move only
      have hrun : runPipesPreview ctx st (p :: rest)
          = ((runPipesPreview ctx st rest).1,
             { p with x := p.x - PIPE_SPEED * ctx.dt }
               :: (runPipesPreview ctx st rest).2) := by
        simp only [runPipesPreview]
        rw [heq]
      rw [hrun]
      have hfree : p.passed = false → -(2:ℚ) ≤ p.x - PIPE_SPEED * ctx.dt := by
        intro hf
        by_contra hcon
        push_neg at hcon
        exact hnp ⟨hnp', hf, by rw [hPW, hBL]; linarith⟩
      obtain ⟨g2, g3, g4, g5, g6, g10, g9⟩ := ih st hnr h2r h3c.2 h4r h5r h6.2
      have hnopass_rest : p.passed = false →
          ∀ q ∈ (runPipesPreview ctx st rest).2, q.passed = false := by
        intro hpf q hq
        rcases hb : q.passed with _ | _
        · rfl
        · exfalso
          have hq2 := g4 q hq hb
          obtain ⟨q0, hq0, hlow, _, _⟩ := g10 q hq
          have hle := h3c.1 q0 hq0
          have hf2 := hfree hpf
          linarith
      refine ⟨?_, ?_, ?_, ?_, ⟨fun hf => hnopass_rest hf, g6⟩, ?_, g9⟩
      · intro q hq
        rcases List.mem_cons.mp hq with rfl | hq
        · simp only
          linarith
        · exact g2 q hq
      · refine List.pairwise_cons.mpr ⟨?_, g3⟩
        intro q hq
        obtain ⟨q0, hq0, hlow, _, _⟩ := g10 q hq
        have := h3c.1 q0 hq0
        simp only
        linarith
      · intro q hq hqp
        rcases List.mem_cons.mp hq with rfl | hq
        · have : p.passed = true := hqp
          have := h4 p (List.mem_cons_self p rest) this
          simp only
          linarith
        · exact g4 q hq hqp
      · intro q hq hqp
        rcases List.mem_cons.mp hq with rfl | hq
        · have : p.passed = false := hqp
          simp only
          exact hfree this
        · exact g5 q hq hqp
      · intro q hq
        rcases List.mem_cons.mp hq with rfl | hq
        · exact ⟨p, List.mem_cons_self p rest, le_refl _, by simp only; linarith,
            fun h => h⟩
        · obtain ⟨q0, hq0, hb⟩ := g10 q hq
          exact ⟨q0, List.mem_cons_of_mem p hq0, hb⟩

/-! ### C2: structural closure lemmas -/

theorem passedMono_filter (f : Pipe → Bool) :
    ∀ l : List Pipe, passedMono l → passedMono (l.filter f) := by
  intro l
  induction l with
  | nil => intro h; exact h
  | cons p rest ih =>
    intro h
    simp only [passedMono] at h
    rw [List.filter_cons]
    split
    · exact ⟨fun hf q hq => h.1 hf q (List.mem_filter.mp hq).1, ih h.2⟩
    · exact ih h.2

theorem qpTail_filter (f : Pipe → Bool) :
    ∀ l : List Pipe, qpTail l → qpTail (l.filter f) := by
  intro l
  induction l with
  | nil => intro h; exact h
  | cons p rest ih =>
    intro h
    simp only [qpTail] at h
    rw [List.filter_cons]
    split
    · refine ⟨fun hq => ?_, ih h.2⟩
      rw [h.1 hq]
      rfl
    · exact ih h.2

theorem qpTail_of_all_normal :
    ∀ l : List Pipe, (∀ p ∈ l, p.type = PipeType.normal) → qpTail l := by
  intro l
  induction l with
  | nil => intro _; trivial
  | cons p rest ih =>
    intro h
    refine ⟨fun hq => ?_, ih fun q hq => h q (List.mem_cons_of_mem p hq)⟩
    rw [h p (List.mem_cons_self p rest)] at hq
    exact PipeType.noConfusion hq.1

theorem qpTail_append (a : Pipe) :
    ∀ l : List Pipe, (∀ p ∈ l, p.type = PipeType.question → p.passed = true) →
      qpTail (l ++ [a]) := by
  intro l
  induction l with
  | nil => exact fun _ => ⟨fun _ => rfl, trivial⟩
  | cons p rest ih =>
    intro h
    refine ⟨fun hq => ?_, ih fun q hq => h q (List.mem_cons_of_mem p hq)⟩
    rw [h p (List.mem_cons_self p rest) hq.1] at hq
    exact Bool.noConfusion hq.2

theorem passedMono_append (a : Pipe) (ha : a.passed = false) :
    ∀ l : List Pipe, passedMono l → passedMono (l ++ [a]) := by
  intro l
  induction l with
  | nil => exact fun _ => ⟨fun _ q hq => absurd hq (List.not_mem_nil q), trivial⟩
  | cons p rest ih =>
    intro h
    simp only [passedMono] at h
    refine ⟨fun hf q hq => ?_, ih h.2⟩
    rcases List.mem_append.mp hq with hq | hq
    · exact h.1 hf q hq
    · rw [List.mem_singleton.mp hq]
      exact ha

theorem hasQP_false_all (ps : List Pipe) (h : hasQuestionPipeOnScreen ps = false) :
    ∀ p ∈ ps, p.type = PipeType.question → p.passed = true := by
  intro p hp htp
  rcases hb : p.passed with _ | _
  · exfalso
    have htrue : hasQuestionPipeOnScreen ps = true := by
      simp only [hasQuestionPipeOnScreen, List.any_eq_true]
      exact ⟨p, hp, by simp [htp, hb]⟩
    rw [h] at htrue
    exact Bool.noConfusion htrue
  · rfl

theorem countP_isQ_eq_of_types {l l' : List Pipe}
    (h : l'.map Pipe.type = l.map Pipe.type) :
    l'.countP isQuestionPipe = l.countP isQuestionPipe := by
  have hc := congrArg (List.countP (fun t => decide (t = PipeType.question))) h
  rw [List.countP_map, List.countP_map] at hc
  exact hc

/-! ### C2: invariant transfer helpers -/

theorem C2G_empty (gs : GameState) (h : gs.pipes = []) : C2G gs := by
  simp only [C2G, h]
  exact ⟨by simp, by simp, List.Pairwise.nil, by simp, by simp, trivial, trivial,
    by simp, by simp, fun _ => by simp, fun _ => trivial⟩

/-- Transfer `C2G` across a state change that keeps the pipes, the counter
and the phase. -/
theorem C2G_congr (gs gs' : GameState) (hp : gs'.pipes = gs.pipes)
    (hc : gs'.pipesSinceLastQuestion = gs.pipesSinceLastQuestion)
    (hph : gs'.phase = gs.phase) (h : C2G gs) : C2G gs' := by
  simp only [C2G] at h ⊢
  rw [hp, hc, hph]
  exact h

/-- Transfer `C2G` across a state change that keeps the pipes and the
counter, with the two phase-indexed conjuncts discharged separately. -/
theorem C2G_repipe (gs : GameState) (h : C2G gs) (gs' : GameState)
    (hp : gs'.pipes = gs.pipes)
    (hc : gs'.pipesSinceLastQuestion = gs.pipesSinceLastQuestion)
    (hpre : gs'.phase = GamePhase.question_preview →
      ∀ p ∈ gs'.pipes, p.type = PipeType.normal)
    (hrdy : (gs'.phase = GamePhase.ready_to_play ∨ gs'.phase = GamePhase.auto_fly) →
      gs'.pipes = []) : C2G gs' := by
  simp only [C2G] at h ⊢
  rw [hp, hc]
  obtain ⟨w1, w2, w3, w4, w5, w6, w7, w8, w9, _, _⟩ := h
  exact ⟨w1, w2, w3, w4, w5, w6, w7, w8, w9, by rw [← hp]; exact hpre,
    by rw [← hp]; exact hrdy⟩

theorem createQuestionPipe_facts :
    createQuestionPipe.x = 308 ∧ createQuestionPipe.type = PipeType.question ∧
    createQuestionPipe.passed = false :=
  ⟨by with_unfolding_all rfl, rfl, rfl⟩

theorem createNormalPipe_facts (r : ℚ) :
    (createNormalPipe r).x = 308 ∧ (createNormalPipe r).type = PipeType.normal ∧
    (createNormalPipe r).passed = false :=
  ⟨by with_unfolding_all rfl, rfl, rfl⟩

/-- A state whose only pipe is a freshly spawned Question pipe satisfies the
C2 invariant, in any phase other than `question_preview`/`ready`/`auto_fly`. -/
theorem C2G_freshQP (gs : GameState) (hp : gs.pipes = [createQuestionPipe])
    (hph : gs.phase = GamePhase.playing) : C2G gs := by
  have hx := createQuestionPipe_facts.1
  have hpa := createQuestionPipe_facts.2.2
  simp only [C2G, hp, hph]
  refine ⟨?_, ?_, List.pairwise_singleton _ _, ?_, ?_, ?_, ⟨fun _ => rfl, trivial⟩,
    ?_, ?_, ?_, ?_⟩
  · intro p hpm
    rw [List.mem_singleton.mp hpm, hx]
    norm_num
  · intro p hpm
    rw [List.mem_singleton.mp hpm, hx]
  · intro p hpm hpp
    rw [List.mem_singleton.mp hpm, hpa] at hpp
    exact Bool.noConfusion hpp
  · intro p hpm _
    rw [List.mem_singleton.mp hpm, hx]
    norm_num
  · exact ⟨fun _ p hpm => absurd hpm (List.not_mem_nil p), trivial⟩
  · with_unfolding_all decide
  · intro qp hqp _ hqpass
    rw [List.mem_singleton.mp hqp, hpa] at hqpass
    exact Bool.noConfusion hqpass
  · exact fun hab => absurd hab (by decide)
  · intro hab
    rcases hab with hab | hab <;> exact absurd hab (by decide)

/-- Loop, deletion filter and state threading of the `playing` tick preserve
the C2 invariant, for an arbitrary pre-loop state. -/
theorem stepPlayingBody_C2 (ctx : TickCtx) (S : GameState)
    (hdt0 : 0 ≤ ctx.dt) (hdt3 : ctx.dt ≤ 3/2)
    (hph : S.phase = GamePhase.playing)
    (hcnt1 : S.pipes.countP isQuestionPipe ≤ 1)
    (hpre : prePipes S S.pipes) :
    C2G { (runPipesPlaying ctx S S.pipes).1 with
      pipes := filterOnScreen (runPipesPlaying ctx S S.pipes).2 } := by
  have hPW : (PIPE_WIDTH:ℚ) = 52 := rfl
  obtain ⟨g2, g3, g4, g5, g6, g7, g8, g9, g10, g14⟩ :=
    (by simpa only [postPipes] using
      runPlaying_C2_master ctx hdt0 hdt3 S.pipes S hpre : (∀ p_1 ∈ _, _) ∧ _)
  have hsub : ∀ p ∈ filterOnScreen (runPipesPlaying ctx S S.pipes).2,
      p ∈ (runPipesPlaying ctx S S.pipes).2 :=
    filterOnScreen_subset _
  simp only [C2G]
  refine ⟨?_, ?_, ?_, ?_, ?_, ?_, ?_, ?_, ?_, ?_, ?_⟩
  · intro p hpm
    have hx := (List.mem_filter.mp hpm).2
    have hx' := of_decide_eq_true hx
    rw [hPW] at hx'
    linarith
  · exact fun p hpm => g2 p (hsub p hpm)
  · exact List.Pairwise.sublist (List.filter_sublist _) g3
  · exact fun p hpm => g4 p (hsub p hpm)
  · exact fun p hpm => g5 p (hsub p hpm)
  · exact passedMono_filter _ _ g6
  · exact qpTail_filter _ _ g7
  · calc (filterOnScreen (runPipesPlaying ctx S S.pipes).2).countP isQuestionPipe
        ≤ (runPipesPlaying ctx S S.pipes).2.countP isQuestionPipe :=
          (List.filter_sublist _).countP_le _
      _ = S.pipes.countP isQuestionPipe :=
          countP_isQ_eq_of_types (runPipesPlaying_types ctx S.pipes S)
      _ ≤ 1 := hcnt1
  · intro qp hqp htq hqpass
    have g8q := g8 qp (hsub qp hqp) htq hqpass
    exact ⟨g8q.1, fun pu hpu hup => g8q.2 pu (hsub pu hpu) hup⟩
  · intro hab
    exfalso
    rcases g9 with h9 | h9 | h9
    · rw [hab] at h9
      rw [hph] at h9
      exact GamePhase.noConfusion h9
    · rw [hab] at h9
      exact GamePhase.noConfusion h9
    · rw [hab] at h9
      exact GamePhase.noConfusion h9
  · intro hab
    exfalso
    rcases hab with hab | hab <;>
      (rcases g9 with h9 | h9 | h9 <;> (rw [hab] at h9; first
        | (rw [hph] at h9; exact GamePhase.noConfusion h9)
        | exact GamePhase.noConfusion h9))

theorem mem_of_map_normal {ps ps' : List Pipe}
    (h : ps'.map Pipe.type = ps.map Pipe.type)
    (hq : ∀ p ∈ ps, p.type = PipeType.normal) :
    ∀ p ∈ ps', p.type = PipeType.normal := by
  intro p hp
  have h1 : p.type ∈ ps'.map Pipe.type := List.mem_map_of_mem Pipe.type hp
  rw [h] at h1
  obtain ⟨q, hq', he⟩ := List.mem_map.mp h1
  rw [← he]
  exact hq q hq'

/-- The `question_preview` tail (loop, filter, possible Question-pipe spawn)
preserves the C2 invariant. -/
theorem stepPreviewBody_C2 (ctx : TickCtx) (S : GameState)
    (hdt0 : 0 ≤ ctx.dt) (hdt3 : ctx.dt ≤ 3/2)
    (hph : S.phase = GamePhase.question_preview)
    (hnorm : ∀ p ∈ S.pipes, p.type = PipeType.normal)
    (h2 : ∀ p ∈ S.pipes, p.x ≤ 308)
    (h3 : S.pipes.Pairwise (fun a b => a.x ≤ b.x))
    (h4 : ∀ p ∈ S.pipes, p.passed = true → p.x < -2)
    (h5 : ∀ p ∈ S.pipes, p.passed = false → -2 ≤ p.x)
    (h6 : passedMono S.pipes) :
    C2G (previewTail ctx S) := by
  have hPW : (PIPE_WIDTH:ℚ) = 52 := rfl
  obtain ⟨g2, g3, g4, g5, g6, g10, g9⟩ :=
    runPreview_C2_master ctx hdt0 hdt3 S.pipes S hnorm h2 h3 h4 h5 h6
  have hsub : ∀ p ∈ filterOnScreen (runPipesPreview ctx S S.pipes).2,
      p ∈ (runPipesPreview ctx S S.pipes).2 :=
    filterOnScreen_subset _
  have hnormOut : ∀ p ∈ (runPipesPreview ctx S S.pipes).2, p.type = PipeType.normal :=
    mem_of_map_normal (runPipesPreview_types ctx S.pipes S) hnorm
  have hnormF : ∀ p ∈ filterOnScreen (runPipesPreview ctx S S.pipes).2,
      p.type = PipeType.normal := fun p hp => hnormOut p (hsub p hp)
  have hw1 : ∀ p ∈ filterOnScreen (runPipesPreview ctx S S.pipes).2, -102 < p.x := by
    intro p hpm
    have hx := of_decide_eq_true (List.mem_filter.mp hpm).2
    rw [hPW] at hx
    linarith
  have hw2 : ∀ p ∈ filterOnScreen (runPipesPreview ctx S S.pipes).2, p.x ≤ 308 :=
    fun p hp => g2 p (hsub p hp)
  have hw3 : (filterOnScreen (runPipesPreview ctx S S.pipes).2).Pairwise
      (fun a b => a.x ≤ b.x) := by
    simp only [filterOnScreen]
    exact List.Pairwise.sublist (List.filter_sublist _) g3
  have hw4 : ∀ p ∈ filterOnScreen (runPipesPreview ctx S S.pipes).2,
      p.passed = true → p.x < -2 := fun p hp => g4 p (hsub p hp)
  have hw5 : ∀ p ∈ filterOnScreen (runPipesPreview ctx S S.pipes).2,
      p.passed = false → -2 ≤ p.x := fun p hp => g5 p (hsub p hp)
  have hw6 : passedMono (filterOnScreen (runPipesPreview ctx S S.pipes).2) := by
    simp only [filterOnScreen]
    exact passedMono_filter _ _ g6
  have hqx := createQuestionPipe_facts.1
  have hqpa := createQuestionPipe_facts.2.2
  simp only [previewTail]
  split
  · -- preview complete: spawn the Question pipe, phase becomes playing
    simp only [C2G]
    refine ⟨?_, ?_, ?_, ?_, ?_, ?_, ?_, ?_, ?_, ?_, ?_⟩
    · intro p hpm
      rcases List.mem_append.mp hpm with hm | hm
      · exact hw1 p hm
      · rw [List.mem_singleton.mp hm, hqx]
        norm_num
    · intro p hpm
      rcases List.mem_append.mp hpm with hm | hm
      · exact hw2 p hm
      · rw [List.mem_singleton.mp hm, hqx]
    · refine List.pairwise_append.mpr ⟨hw3, List.pairwise_singleton _ _, ?_⟩
      intro a ha b hb
      rw [List.mem_singleton.mp hb, hqx]
      exact le_trans (hw2 a ha) (by norm_num)
    · intro p hpm hpp
      rcases List.mem_append.mp hpm with hm | hm
      · exact hw4 p hm hpp
      · rw [List.mem_singleton.mp hm, hqpa] at hpp
        exact Bool.noConfusion hpp
    · intro p hpm hpp
      rcases List.mem_append.mp hpm with hm | hm
      · exact hw5 p hm hpp
      · rw [List.mem_singleton.mp hm, hqx]
        norm_num
    · exact passedMono_append _ hqpa _ hw6
    · refine qpTail_append _ _ ?_
      intro p hp htq
      exact PipeType.noConfusion ((hnormF p hp).symm.trans htq)
    · rw [List.countP_append]
      have hz : (filterOnScreen (runPipesPreview ctx S S.pipes).2).countP
          isQuestionPipe = 0 := by
        rw [List.countP_eq_zero]
        intro a ha
        simp [isQuestionPipe, hnormF a ha]
      have ho : List.countP isQuestionPipe [createQuestionPipe] = 1 := by
        with_unfolding_all decide
      rw [hz, ho]
    · intro qp hqp htq hqpass
      rcases List.mem_append.mp hqp with hm | hm
      · exact absurd htq (by rw [hnormF qp hm]; decide)
      · rw [List.mem_singleton.mp hm, hqpa] at hqpass
        exact Bool.noConfusion hqpass
    · exact fun hab => absurd hab (by decide)
    · intro hab
      rcases hab with hab | hab <;> exact absurd hab (by decide)
  · -- still previewing (or crashed): just the filtered pipes
    simp only [C2G]
    refine ⟨hw1, hw2, hw3, hw4, hw5, hw6, ?_, ?_, ?_, fun _ => hnormF, ?_⟩
    · exact qpTail_of_all_normal _ hnormF
    · have h0 : List.countP isQuestionPipe
          (filterOnScreen (runPipesPreview ctx S S.pipes).2) = 0 := by
        rw [List.countP_eq_zero]
        intro a ha
        simp [isQuestionPipe, hnormF a ha]
      rw [h0]
      exact Nat.zero_le 1
    · intro qp hqp htq _
      exact absurd htq (by rw [hnormF qp hqp]; decide)
    · intro hab
      rcases g9 with h9 | h9 <;> rcases hab with hab | hab
      · rw [hab, hph] at h9
        exact GamePhase.noConfusion h9
      · rw [hab, hph] at h9
        exact GamePhase.noConfusion h9
      · rw [hab] at h9
        exact GamePhase.noConfusion h9
      · rw [hab] at h9
        exact GamePhase.noConfusion h9

theorem stepChapterIntro_C2 (ctx : TickCtx) (st : GameState) (h : C2G st) :
    C2G (stepChapterIntro ctx st) := by
  simp only [stepChapterIntro]
  split
  · exact C2G_empty _ rfl
  · exact C2G_congr st _ rfl rfl rfl h

theorem stepReadyToPlay_C2 (cfg : Config) (ctx : TickCtx) (st : GameState)
    (h : C2G st) : C2G (stepReadyToPlay cfg ctx st) := by
  simp only [stepReadyToPlay]
  refine C2G_congr st _ ?_ ?_ ?_ h
  · exact (bumpFrame_fields 8 _).2.2.2.2.1
  · exact (bumpFrame_fields 8 _).2.2.2.2.2.1
  · exact (bumpFrame_fields 8 _).2.2.2.1

theorem stepAutoFly_C2 (cfg : Config) (ctx : TickCtx) (st : GameState)
    (hph : st.phase = GamePhase.auto_fly) (h : C2G st) :
    C2G (stepAutoFly cfg ctx st) := by
  have hemp : st.pipes = [] := by
    simp only [C2G] at h
    exact h.2.2.2.2.2.2.2.2.2.2 (Or.inr hph)
  simp only [stepAutoFly]
  split
  · refine C2G_freshQP _ ?_ rfl
    rw [(bumpFrame_fields 5 _).2.2.2.2.1, hemp]
    rfl
  · refine C2G_congr st _ ?_ ?_ ?_ h
    · exact (bumpFrame_fields 5 _).2.2.2.2.1
    · exact (bumpFrame_fields 5 _).2.2.2.2.2.1
    · exact (bumpFrame_fields 5 _).2.2.2.1

theorem stepPlaying_C2 (ctx : TickCtx) (st : GameState)
    (hdt0 : 0 ≤ ctx.dt) (hdt3 : ctx.dt ≤ 3/2)
    (hph : st.phase = GamePhase.playing) (h : C2G st) :
    C2G (stepPlaying ctx st) := by
  have hc2 := h
  simp only [C2G] at hc2
  obtain ⟨w1, w2, w3, w4, w5, w6, w7, wCNT, wQ8, wPRE, wRDY⟩ := hc2
  simp only [stepPlaying]
  split
  · -- boundary crash
    refine C2G_repipe st h _ rfl rfl (fun hab => nomatch hab) ?_
    intro hab
    rcases hab with hab | hab <;> exact nomatch hab
  · split
    · -- question preview entry
      next hcond =>
      refine C2G_repipe st h _ ?_ ?_ ?_ ?_
      · exact (bumpFrame_fields 6 _).2.2.2.2.1
      · exact (bumpFrame_fields 6 _).2.2.2.2.2.1
      · intro _ p hpm
        rw [(bumpFrame_fields 6 _).2.2.2.2.1] at hpm
        rcases htp : p.type with _ | _
        · rfl
        · exfalso
          have hpassed := hasQP_false_all _ hcond.2.1 p
            (by rw [(bumpFrame_fields 6 _).2.2.2.2.1]; exact hpm) htp
          have hzero := (wQ8 p hpm htp hpassed).1
          have h5le := hcond.1
          rw [(bumpFrame_fields 6 _).2.2.2.2.2.1] at h5le
          rw [hzero] at h5le
          simp [NORMAL_PIPES_BETWEEN_QUESTIONS] at h5le
      · intro hab
        rcases hab with hab | hab <;> exact nomatch hab
    · next hpe =>
      split
      · next hsp =>
        -- a Plain pipe spawns at x = 308, then the loop runs
        have hnoQ := hasQP_false_all _ hsp.2
        refine stepPlayingBody_C2 _ _ hdt0 hdt3 ?_ ?_ ?_
        · exact ((bumpFrame_fields 6 _).2.2.2.1).trans hph
        · rw [show ({ bumpFrame 6 _ with
            pipes := (bumpFrame 6 _).pipes ++ [createNormalPipe ctx.rand] } :
              GameState).pipes = (bumpFrame 6 _).pipes ++ [createNormalPipe ctx.rand]
            from rfl]
          rw [List.countP_append, (bumpFrame_fields 6 _).2.2.2.2.1]
          have hnew : List.countP isQuestionPipe [createNormalPipe ctx.rand] = 0 := by
            simp [List.countP_cons, isQuestionPipe, (createNormalPipe_facts ctx.rand).2.1]
          rw [hnew]
          simp only
          omega
        · simp only [prePipes]
          have hnx := (createNormalPipe_facts ctx.rand).1
          have hnt := (createNormalPipe_facts ctx.rand).2.1
          have hnpa := (createNormalPipe_facts ctx.rand).2.2
          refine ⟨?_, ?_, ?_, ?_, ?_, ?_, ?_, ?_⟩
          · intro p hpm
            rcases List.mem_append.mp hpm with hm | hm
            · rw [(bumpFrame_fields 6 _).2.2.2.2.1] at hm
              exact w1 p hm
            · rw [List.mem_singleton.mp hm, hnx]
              norm_num
          · intro p hpm
            rcases List.mem_append.mp hpm with hm | hm
            · rw [(bumpFrame_fields 6 _).2.2.2.2.1] at hm
              exact w2 p hm
            · rw [List.mem_singleton.mp hm, hnx]
          · refine List.pairwise_append.mpr ⟨?_, List.pairwise_singleton _ _, ?_⟩
            · rw [(bumpFrame_fields 6 _).2.2.2.2.1]
              exact w3
            · intro a ha b hb
              rw [(bumpFrame_fields 6 _).2.2.2.2.1] at ha
              rw [List.mem_singleton.mp hb, hnx]
              exact le_trans (w2 a ha) (by norm_num)
          · intro p hpm hpp
            rcases List.mem_append.mp hpm with hm | hm
            · rw [(bumpFrame_fields 6 _).2.2.2.2.1] at hm
              exact w4 p hm hpp
            · rw [List.mem_singleton.mp hm, hnpa] at hpp
              exact Bool.noConfusion hpp
          · intro p hpm hpp
            rcases List.mem_append.mp hpm with hm | hm
            · rw [(bumpFrame_fields 6 _).2.2.2.2.1] at hm
              exact w5 p hm hpp
            · rw [List.mem_singleton.mp hm, hnx]
              norm_num
          · refine passedMono_append _ hnpa _ ?_
            rw [(bumpFrame_fields 6 _).2.2.2.2.1]
            exact w6
          · exact qpTail_append _ _ hnoQ
          · intro qp hqp htq hqpass
            rcases List.mem_append.mp hqp with hm | hm
            · rw [(bumpFrame_fields 6 _).2.2.2.2.1] at hm
              have hQ := wQ8 qp hm htq hqpass
              refine ⟨by
                show (bumpFrame 6 _).pipesSinceLastQuestion = 0
                rw [(bumpFrame_fields 6 _).2.2.2.2.2.1]
                exact hQ.1, ?_⟩
              intro pu hpu hup
              rcases List.mem_append.mp hpu with hu | hu
              · rw [(bumpFrame_fields 6 _).2.2.2.2.1] at hu
                exact hQ.2 pu hu hup
              · have hqlt := w4 qp hm hqpass
                rw [List.mem_singleton.mp hu, hnx]
                linarith
            · rw [List.mem_singleton.mp hm, hnt] at htq
              exact PipeType.noConfusion htq
      · -- no spawn
        refine stepPlayingBody_C2 _ _ hdt0 hdt3 ?_ ?_ ?_
        · exact ((bumpFrame_fields 6 _).2.2.2.1).trans hph
        · rw [(bumpFrame_fields 6 _).2.2.2.2.1]
          exact wCNT
        · simp only [prePipes]
          rw [(bumpFrame_fields 6 _).2.2.2.2.1, (bumpFrame_fields 6 _).2.2.2.2.2.1]
          exact ⟨w1, w2, w3, w4, w5, w6, w7, wQ8⟩

theorem stepQuestionPreview_C2 (ctx : TickCtx) (st : GameState)
    (hdt0 : 0 ≤ ctx.dt) (hdt3 : ctx.dt ≤ 3/2)
    (hph : st.phase = GamePhase.question_preview) (h : C2G st) :
    C2G (stepQuestionPreview ctx st) := by
  have hc2 := h
  simp only [C2G] at hc2
  obtain ⟨w1, w2, w3, w4, w5, w6, w7, wCNT, wQ8, wPRE, wRDY⟩ := hc2
  simp only [stepQuestionPreview]
  split
  · refine C2G_repipe st h _ rfl rfl ?_ ?_
    · exact fun hab => nomatch hab
    · intro hab
      rcases hab with hab | hab <;> exact nomatch hab
  · refine stepPreviewBody_C2 _ _ hdt0 hdt3 ?_ ?_ ?_ ?_ ?_ ?_ ?_
    · exact ((bumpFrame_fields 6 _).2.2.2.1).trans hph
    · rw [(bumpFrame_fields 6 _).2.2.2.2.1]
      exact wPRE hph
    · rw [(bumpFrame_fields 6 _).2.2.2.2.1]
      exact w2
    · rw [(bumpFrame_fields 6 _).2.2.2.2.1]
      exact w3
    · rw [(bumpFrame_fields 6 _).2.2.2.2.1]
      exact w4
    · rw [(bumpFrame_fields 6 _).2.2.2.2.1]
      exact w5
    · rw [(bumpFrame_fields 6 _).2.2.2.2.1]
      exact w6

/-- One tick preserves the C2 invariant on every configuration (the host
clock is monotone, giving `0 ≤ dt ≤ 3/2`). -/
theorem tickFn_C2 (cfg : Config) (s : Sys) (t r : ℚ) (h : C2Inv s)
    (hlb : s.lastFrameTime ≤ t) : C2Inv (tickFn cfg s t r) := by
  simp only [C2Inv] at h ⊢
  have hdt0 : 0 ≤ min ((t - (if s.lastFrameTime = 0 then t else s.lastFrameTime))
      / FRAME_MS) MAX_DELTA_TIME := by
    refine le_min ?_ ?_
    · refine div_nonneg ?_ ?_
      · split
        · linarith
        · linarith
      · rw [show (FRAME_MS:ℚ) = 1000/60 from rfl]
        norm_num
    · rw [show (MAX_DELTA_TIME:ℚ) = 3/2 from rfl]
      norm_num
  have hdt3 : min ((t - (if s.lastFrameTime = 0 then t else s.lastFrameTime))
      / FRAME_MS) MAX_DELTA_TIME ≤ 3/2 :=
    le_trans (min_le_right _ _) (le_of_eq (show (MAX_DELTA_TIME:ℚ) = 3/2 from rfl))
  unfold tickFn
  rcases hph : s.gs.phase with _ | _ | _ | _ | _ | _ | _ | _ | _
  all_goals simp only [hph]
  · exact h
  · exact stepChapterIntro_C2 _ _ h
  · exact stepReadyToPlay_C2 _ _ _ h
  · exact stepAutoFly_C2 _ _ _ hph h
  · exact stepPlaying_C2 _ _ hdt0 hdt3 hph h
  · exact stepQuestionPreview_C2 _ _ hdt0 hdt3 hph h
  · exact C2G_congr s.gs _ rfl rfl rfl h
  · exact C2G_congr s.gs _ rfl rfl rfl h
  · exact C2G_congr s.gs _ rfl rfl rfl h

/-- A primary-action input preserves the C2 invariant. -/
theorem clickFn_C2 (cfg : Config) (s : Sys) (t : ℚ) (h : C2Inv s) :
    C2Inv (clickFn cfg s t) := by
  simp only [C2Inv] at h ⊢
  rcases hph : s.gs.phase with _ | _ | _ | _ | _ | _ | _ | _ | _
  all_goals simp only [clickFn, jumpFn, hph]
  · split
    · exact h
    · split
      · exact C2G_congr s.gs _ rfl rfl (by rw [hph]) h
      · exact h
  · split
    · exact h
    · split
      · exact C2G_congr s.gs _ rfl rfl (by rw [hph]) h
      · exact h
  · -- ready_to_play → auto_fly
    have hc2 := h
    simp only [C2G] at hc2
    have hemp := hc2.2.2.2.2.2.2.2.2.2.2 (Or.inl hph)
    refine C2G_repipe s.gs h _ rfl rfl ?_ ?_
    · exact fun hab => nomatch hab
    · exact fun _ => hemp
  · split
    · exact h
    · split
      · exact C2G_congr s.gs _ rfl rfl (by rw [hph]) h
      · exact h
  · split
    · exact h
    · split
      · exact C2G_congr s.gs _ rfl rfl (by rw [hph]) h
      · exact h
  · split
    · exact h
    · split
      · exact C2G_congr s.gs _ rfl rfl (by rw [hph]) h
      · exact h
  · -- game_over retry: pipes in the buffer zone ahead of the bird are removed
    have hc2 := h
    simp only [C2G] at hc2
    obtain ⟨w1, w2, w3, w4, w5, w6, w7, wCNT, wQ8, wPRE, wRDY⟩ := hc2
    simp only [C2G]
    refine ⟨?_, ?_, ?_, ?_, ?_, ?_, ?_, ?_, ?_, ?_, ?_⟩
    · exact fun p hpm => w1 p (List.mem_filter.mp hpm).1
    · exact fun p hpm => w2 p (List.mem_filter.mp hpm).1
    · exact List.Pairwise.sublist (List.filter_sublist _) w3
    · exact fun p hpm => w4 p (List.mem_filter.mp hpm).1
    · exact fun p hpm => w5 p (List.mem_filter.mp hpm).1
    · exact passedMono_filter _ _ w6
    · exact qpTail_filter _ _ w7
    · exact le_trans ((List.filter_sublist _).countP_le _) wCNT
    · intro qp hqp htq hqpass
      exfalso
      have hlt := w4 qp (List.mem_filter.mp hqp).1 hqpass
      have hx := of_decide_eq_true (List.mem_filter.mp hqp).2
      linarith
    · exact fun hab => absurd hab (by decide)
    · intro hab
      rcases hab with hab | hab <;> exact absurd hab (by decide)
  · split
    · exact C2G_empty _ rfl
    · refine C2G_repipe s.gs h _ rfl rfl ?_ ?_
      · exact fun hab => nomatch hab
      · intro hab
        rcases hab with hab | hab <;> exact nomatch hab
  · exact C2G_empty _ rfl

/-- Every reachable state satisfies the C2 invariant. -/
theorem reachable_C2 (cfg : Config) (s : Sys) (h : Reachable cfg s) : C2Inv s :=
  reachable_inv cfg C2Inv (fun _ _ => C2G_empty _ rfl)
    (fun s t r hP hlb _ _ => tickFn_C2 cfg s t r hP hlb)
    (fun s t hP => clickFn_C2 cfg s t hP) s h

/-- C2: at-most-one active question invariant — in every state reachable
from the initial state by ticks and inputs (on any configuration), the
obstacle list contains at most one Question obstacle whose question has not
been answered (`answered == false`).  Follows from the stronger reachable
invariant `C2Inv`, which shows the list holds at most one Question pipe of
any answer state. -/
theorem C2_at_most_one_unanswered (cfg : Config) (s : Sys) (h : Reachable cfg s) :
    s.gs.pipes.countP unansweredQuestion ≤ 1 := by
  have hw := reachable_C2 cfg s h
  simp only [C2Inv, C2G] at hw
  refine le_trans (List.countP_mono_left ?_) hw.2.2.2.2.2.2.2.1
  intro p _ hp
  simp only [unansweredQuestion, Bool.and_eq_true] at hp
  simp only [isQuestionPipe]
  exact hp.1

/-- C2 witness: the freshly loaded game is reachable and satisfies the
at-most-one-unanswered-question bound. -/
theorem C2_at_most_one_unanswered_witness :
    (initSys sampleCfg 0).gs.pipes.countP unansweredQuestion ≤ 1 :=
  C2_at_most_one_unanswered sampleCfg (initSys sampleCfg 0)
    ⟨0, [], le_refl 0, rfl, rfl⟩

end QuizGame
